import Mathlib

/-!
The record and catalog layer of `src/core/database.cpp`, the buffer manager of
`src/buffer/buffer_manager.cpp`, the parser of `src/sql/parser.cpp` and
`printTable` of `src/ui/cli.cpp`.

A shallow embedding of `Database::Impl`, `BufferManager::Impl`, `Parser::Impl`
and `CLI::Impl::printTable`.  A query is the list of words `operator>>` reads
from it, and `parse` returns the statement or the message of the exception
thrown.  Files are byte sequences, the structs
the code writes with `reinterpret_cast` are blocks of raw bytes read through a
layout, and the two ways a call can leave the function other than by `return`
(a C++ exception, a C-string read that runs off its object) are explicit.

The declarations of `record`, `column_def`, `mega_struct`, the type tags and the
`MAX_*` / `DBPATH` constants are not part of the sources, so they are the fields
of `Config`, and those of `PAGESIZE`, `KB` and `EMPTY` the fields of `BufConfig`;
every general theorem holds for every configuration.
-/

namespace Preql

/-! ## Bytes, strings and raw memory -/

/-- One `char` seen as `unsigned char`: a number below 256. -/
abbrev Byte := Nat

/-- A `std::string`, a file content or a block of raw memory. -/
abbrev Bytes := List Nat

/-- The bytes of an ASCII string literal. -/
def str (s : String) : Bytes := s.toList.map Char.toNat

/-- Ways a call leaves a function without returning a value. -/
inductive Fault where
  /-- Thrown by `std::stoi` / `std::stof` when no conversion can be done. -/
  | invalid_argument
  /-- Thrown by `std::stoi` / `std::stof` when the value does not fit. -/
  | out_of_range
  /-- A `char*` read to the terminating NUL that finds none inside its object. -/
  | overread
  deriving DecidableEq, Repr

deriving instance DecidableEq for Except

/-- A block of exactly `size` bytes holding `junk`.  It stands for the object a
declaration without initialiser gives: its content is whatever was there. -/
def fit (size : Nat) (junk : Bytes) : Bytes :=
  (junk ++ List.replicate size 0).take size

/-- Overwrite `val.length` bytes of `mem` from offset `off`. -/
def poke (mem : Bytes) (off : Nat) (val : Bytes) : Bytes :=
  mem.take off ++ val ++ mem.drop (off + val.length)

/-- Read `n` bytes of `mem` from offset `off`. -/
def peek (mem : Bytes) (off n : Nat) : Bytes :=
  (mem.drop off).take n

/-- The C string a `std::string` holds as `c_str()`: up to its first NUL. -/
def c_str (s : Bytes) : Bytes := s.takeWhile (fun b => b != 0)

/-- Function `strncpy(dest, src, n)`: the `n` bytes written to `dest`: the C string
`src`, cut at `n` bytes, NUL-padded to `n` bytes when it is shorter. -/
def strncpy (src : Bytes) (n : Nat) : Bytes :=
  (c_str src ++ List.replicate n 0).take n

/-- Construction of a `std::string` from the `char` array at offset `off` of the
object `mem`: the bytes up to the first NUL.  With no NUL before the end of the
object the read leaves the object. -/
def readCStr (mem : Bytes) (off : Nat) : Except Fault Bytes :=
  if (mem.drop off).contains 0 then .ok (c_str (mem.drop off)) else .error .overread

/-- The four bytes of a 32-bit `int`, least significant first. -/
def storeInt (v : Int) : Bytes :=
  let u := (v % 4294967296).toNat
  [u % 256, u / 256 % 256, u / 65536 % 256, u / 16777216 % 256]

/-- The 32-bit two's complement `int` held in the first four bytes of `b`. -/
def loadInt (b : Bytes) : Int :=
  let u := b.getD 0 0 % 256 + 256 * (b.getD 1 0 % 256) + 65536 * (b.getD 2 0 % 256)
    + 16777216 * (b.getD 3 0 % 256)
  if u < 2147483648 then (u : Int) else (u : Int) - 4294967296

/-- The values of a 32-bit `int`. -/
def isInt32 (v : Int) : Prop := -2147483648 ≤ v ∧ v ≤ 2147483647

instance (v : Int) : Decidable (isInt32 v) := by
  unfold isInt32
  infer_instance

/-- The loop `while (file.read(&x, size))`: the complete `size`-byte blocks of
`data`, in file order; a shorter tail is not delivered.  `fuel` bounds the
number of blocks. -/
def readBlocks (size : Nat) : Nat → Bytes → List Bytes
  | 0, _ => []
  | fuel + 1, data =>
    if size ≤ data.length then data.take size :: readBlocks size fuel (data.drop size)
    else []

/-- All the blocks of a file: `data.length` blocks of at least one byte cannot
be exceeded. -/
def readAll (size : Nat) (data : Bytes) : List Bytes :=
  readBlocks size data.length data

/-! ## `std::stoi`, `std::to_string(int)`, `operator>>` -/

/-- The predicate `isspace` in the "C" locale. -/
def isSpace (c : Nat) : Bool := c == 32 || (9 ≤ c && c ≤ 13)

/-- The predicate `isdigit`. -/
def isDigit (c : Nat) : Bool := 48 ≤ c && c ≤ 57

/-- Value of a run of decimal digits, most significant first. -/
def digitsVal (ds : Bytes) : Nat :=
  ds.foldl (fun acc c => 10 * acc + (c - 48)) 0

/-- Function `std::stoi(s)` (base 10): leading white space is skipped, one sign is
accepted, the longest run of digits is converted and what follows is ignored.
No digit: `std::invalid_argument`; a value outside `int`: `std::out_of_range`. -/
def stoi (s : Bytes) : Except Fault Int :=
  let s1 := s.dropWhile isSpace
  let neg := s1.head? == some 45
  let s2 := if s1.head? == some 45 || s1.head? == some 43 then s1.tail else s1
  let ds := s2.takeWhile isDigit
  if ds.isEmpty then .error .invalid_argument
  else
    let v : Int := if neg then -(digitsVal ds : Int) else (digitsVal ds : Int)
    if -2147483648 ≤ v ∧ v ≤ 2147483647 then .ok v else .error .out_of_range

/-- Decimal digits of `n` pushed in front of `acc`; `fuel` bounds their number. -/
def decDigits : Nat → Nat → Bytes → Bytes
  | 0, _, acc => acc
  | fuel + 1, n, acc =>
    if n < 10 then (48 + n) :: acc else decDigits fuel (n / 10) ((48 + n % 10) :: acc)

/-- Decimal text of a natural number (`n + 1` digits are never needed). -/
def natToString (n : Nat) : Bytes := decDigits (n + 1) n []

/-- Function `std::to_string(int)`. -/
def to_string (v : Int) : Bytes :=
  if v < 0 then 45 :: natToString v.natAbs else natToString v.natAbs

/-- One `iss >> word`: white space is skipped, then the word runs to the next
white space; `none` when the stream holds no further word.  The second
component is the rest of the stream. -/
def nextWord (s : Bytes) : Option (Bytes × Bytes) :=
  let s1 := s.dropWhile isSpace
  if s1.isEmpty then none
  else some (s1.takeWhile (fun c => !isSpace c), s1.dropWhile (fun c => !isSpace c))

/-- Comparison `a < b` of two `std::string`: lexicographic on unsigned bytes. -/
def strLt : Bytes → Bytes → Bool
  | _, [] => false
  | [], _ :: _ => true
  | a :: as, b :: bs => a < b || (a == b && strLt as bs)


/-- Sequential evaluation of `f` over a list, stopping at the first fault. -/
def mapE {α β : Type} (f : α → Except Fault β) : List α → Except Fault (List β)
  | [] => .ok []
  | a :: as =>
    match f a with
    | .error e => .error e
    | .ok b =>
      match mapE f as with
      | .error e => .error e
      | .ok bs => .ok (b :: bs)

/-! ## Configuration: the declarations the sources use but do not contain -/

/-- The constants and struct layouts `database.cpp` takes from a header that is
not among the sources, and the floating-point library functions. -/
structure Config where
  /-- Type tag `INT`. -/
  INT : Int
  /-- Type tag `FLOAT`. -/
  FLOAT : Int
  /-- Type tag `VARCHAR`. -/
  VARCHAR : Int
  /-- Type tag `CHAR`. -/
  CHAR : Int
  /-- Width of `mega_struct::table_name`. -/
  MAX_TABLE_NAME : Nat
  /-- Width of `column_def::name`. -/
  MAX_COL_NAME : Nat
  /-- Width of `record::str_val`. -/
  MAX_STR_LEN : Nat
  /-- Directory prefix of every file. -/
  DBPATH : Bytes
  /-- Size of a `column_def`. -/
  colSize : Nat
  /-- Offset of `column_def::name`. -/
  colName : Nat
  /-- Offset of `column_def::type`. -/
  colType : Nat
  /-- Size of a `record`. -/
  recSize : Nat
  /-- Offset of `record::int_val`. -/
  recInt : Nat
  /-- Offset of `record::float_val`. -/
  recFloat : Nat
  /-- Offset of `record::str_val`. -/
  recStr : Nat
  /-- Size of a `mega_struct`. -/
  megaSize : Nat
  /-- Offset of `mega_struct::table_name`. -/
  megaName : Nat
  /-- Offset of `mega_struct::num_columns`. -/
  megaNum : Nat
  /-- Function `std::stof`: the four bytes of the `float`, or the exception. -/
  stof : Bytes → Except Fault Bytes
  /-- Function `std::to_string(float)` of the `float` held in four bytes. -/
  ftos : Bytes → Bytes
  /-- Comparison `a < b` of two `float`, each given by its four bytes. -/
  fLt : Bytes → Bytes → Bool
  /-- Comparison `a <= b` of two `float`, each given by its four bytes. -/
  fLe : Bytes → Bytes → Bool

/-- What the C++ declarations guarantee of a configuration: the four `case`
labels are distinct values of `int`, every field lies inside its struct, and the two fields of a
`column_def`, like those of a `mega_struct`, do not overlap.  Nothing is asked
of the relative position of the fields of a `record`. -/
def Config.WF (cfg : Config) : Prop :=
  cfg.INT ≠ cfg.FLOAT ∧ cfg.INT ≠ cfg.VARCHAR ∧ cfg.INT ≠ cfg.CHAR ∧
  cfg.FLOAT ≠ cfg.VARCHAR ∧ cfg.FLOAT ≠ cfg.CHAR ∧ cfg.VARCHAR ≠ cfg.CHAR ∧
  isInt32 cfg.INT ∧ isInt32 cfg.FLOAT ∧ isInt32 cfg.VARCHAR ∧ isInt32 cfg.CHAR ∧
  cfg.colName + cfg.MAX_COL_NAME ≤ cfg.colSize ∧ cfg.colType + 4 ≤ cfg.colSize ∧
  (cfg.colName + cfg.MAX_COL_NAME ≤ cfg.colType ∨ cfg.colType + 4 ≤ cfg.colName) ∧
  cfg.recInt + 4 ≤ cfg.recSize ∧ cfg.recFloat + 4 ≤ cfg.recSize ∧
  cfg.recStr + cfg.MAX_STR_LEN ≤ cfg.recSize ∧
  cfg.megaName + cfg.MAX_TABLE_NAME ≤ cfg.megaSize ∧ cfg.megaNum + 4 ≤ cfg.megaSize ∧
  (cfg.megaName + cfg.MAX_TABLE_NAME ≤ cfg.megaNum ∨ cfg.megaNum + 4 ≤ cfg.megaName)

instance (cfg : Config) : Decidable cfg.WF := by
  unfold Config.WF
  infer_instance

/-! ## Files and the database object -/

/-- The files under `DBPATH`.  A file that exists can be opened for reading and
for writing. -/
structure FS where
  /-- Content of the file at a path, `none` when there is no such file. -/
  file : Bytes → Option Bytes
  /-- Whether a file that does not exist can be created at the path. -/
  creatable : Bytes → Bool

/-- Whether `std::ofstream(path)` opens: the file exists or can be created. -/
def FS.canWrite (fs : FS) (path : Bytes) : Bool :=
  (fs.file path).isSome || fs.creatable path

/-- The files after `path` received the content `data`. -/
def FS.write (fs : FS) (path data : Bytes) : FS :=
  { fs with file := fun q => if q = path then some data else fs.file q }

/-- The files after `data` was written to `path` opened with `std::ios::app`. -/
def FS.append (fs : FS) (path data : Bytes) : FS :=
  fs.write path ((fs.file path).getD [] ++ data)

/-- The members of `Database::Impl`. -/
structure Database where
  /-- Member `is_open_`. -/
  is_open_ : Bool
  /-- Member `db_name_`. -/
  db_name_ : Bytes

/-- Path `DBPATH + db_name_ + "_sys"` of the catalog file. -/
def sysPath (cfg : Config) (db : Database) : Bytes :=
  cfg.DBPATH ++ db.db_name_ ++ str "_sys"

/-- Path `DBPATH + db_name_ + "_" + table_name` of a table file. -/
def tablePath (cfg : Config) (db : Database) (table_name : Bytes) : Bytes :=
  cfg.DBPATH ++ db.db_name_ ++ str "_" ++ table_name

/-- Name of a stored `column_def`, as `std::string(col.name)` builds it. -/
def colNameOf (cfg : Config) (col : Bytes) : Except Fault Bytes :=
  readCStr col cfg.colName

/-- Member `type` of a stored `column_def`. -/
def colTypeOf (cfg : Config) (col : Bytes) : Int :=
  loadInt (peek col cfg.colType 4)

/-- The `column_def` the loop of `createTable` builds for one column, in the
uninitialised local whose previous content is `junk`. -/
def mkColumn (cfg : Config) (junk : Bytes) (col : Bytes × Int) : Bytes :=
  poke (poke (fit cfg.colSize junk) cfg.colName (strncpy col.1 cfg.MAX_COL_NAME))
    cfg.colType (storeInt col.2)

/-- The `mega_struct` `createTable` builds, in the uninitialised local whose
previous content is `junk`. -/
def mkTableInfo (cfg : Config) (junk : Bytes) (name : Bytes) (num_columns : Nat) : Bytes :=
  poke (poke (fit cfg.megaSize junk) cfg.megaName (strncpy name cfg.MAX_TABLE_NAME))
    cfg.megaNum (storeInt num_columns)

/-- The `column_def` blocks the loop of `createTable` writes (lines 142-147),
the first column being the `i`-th iteration. -/
def mkColumns (cfg : Config) (junkC : Nat → Bytes) : Nat → List (Bytes × Int) → List Bytes
  | _, [] => []
  | i, col :: rest => mkColumn cfg (junkC i) col :: mkColumns cfg junkC (i + 1) rest

/-! ## `Database::Impl` -/

/-- Method `listTables` (lines 359-377): the names stored in the catalog file. -/
def listTables (cfg : Config) (fs : FS) (db : Database) : Except Fault (List Bytes) :=
  if !db.is_open_ then .ok []
  else
    match fs.file (sysPath cfg db) with
    | none => .ok []
    | some data => mapE (fun m => readCStr m cfg.megaName) (readAll cfg.megaSize data)

/-- Method `tableExists` (lines 383-386). -/
def tableExists (cfg : Config) (fs : FS) (db : Database) (name : Bytes) : Except Fault Bool :=
  match listTables cfg fs db with
  | .error e => .error e
  | .ok tables => .ok (tables.contains name)

/-- Method `getTableColumns` (lines 388-402): the whole table file, cut in
`column_def` blocks. -/
def getTableColumns (cfg : Config) (fs : FS) (db : Database) (table_name : Bytes) : List Bytes :=
  match fs.file (tablePath cfg db table_name) with
  | none => []
  | some data => readAll cfg.colSize data

/-- Method `createTable` (lines 109-150).  `junkT` and `junkC i` are the previous
contents of the locals `table_info` and `col_def` (of the `i`-th iteration).
Writes take effect in program order, which is what the code does when the
table file is not the catalog file itself. -/
def createTable (cfg : Config) (fs : FS) (db : Database) (junkT : Bytes) (junkC : Nat → Bytes)
    (name : Bytes) (columns : List (Bytes × Int)) : Except Fault Bool × FS :=
  if !db.is_open_ then (.ok false, fs)
  else
    match tableExists cfg fs db name with
    | .error e => (.error e, fs)
    | .ok true => (.ok false, fs)
    | .ok false =>
      let table_info := mkTableInfo cfg junkT name columns.length
      if !fs.canWrite (sysPath cfg db) then (.ok false, fs)
      else
        let fs1 := fs.append (sysPath cfg db) table_info
        if !fs1.canWrite (tablePath cfg db name) then (.ok false, fs1)
        else
          (.ok true, fs1.write (tablePath cfg db name) (mkColumns cfg junkC 0 columns).flatten)

/-- Method `convertValue` (lines 404-424): the result and the content of `rec`
afterwards.  Every exception is caught and turned into `false`. -/
def convertValue (cfg : Config) (value : Bytes) (type : Int) (rec : Bytes) : Bool × Bytes :=
  if type = cfg.INT then
    match stoi value with
    | .ok v => (true, poke rec cfg.recInt (storeInt v))
    | .error _ => (false, rec)
  else if type = cfg.FLOAT then
    match cfg.stof value with
    | .ok v => (true, poke rec cfg.recFloat (fit 4 v))
    | .error _ => (false, rec)
  else if type = cfg.VARCHAR ∨ type = cfg.CHAR then
    (true, poke rec cfg.recStr (strncpy value cfg.MAX_STR_LEN))
  else (false, rec)

/-- Method `convertToString` (lines 426-438). -/
def convertToString (cfg : Config) (rec : Bytes) (type : Int) : Except Fault Bytes :=
  if type = cfg.INT then .ok (to_string (loadInt (peek rec cfg.recInt 4)))
  else if type = cfg.FLOAT then .ok (cfg.ftos (peek rec cfg.recFloat 4))
  else if type = cfg.VARCHAR ∨ type = cfg.CHAR then readCStr rec cfg.recStr
  else .ok []

/-- The `std::find_if` on the column name used by `select` and
`evaluateCondition`: position and block of the first column whose name is
`col_name`, `none` for `end()`. -/
def findColumn (cfg : Config) (col_name : Bytes) : List Bytes → Except Fault (Option (Nat × Bytes))
  | [] => .ok none
  | col :: rest =>
    match colNameOf cfg col with
    | .error e => .error e
    | .ok n =>
      if n = col_name then .ok (some (0, col))
      else
        match findColumn cfg col_name rest with
        | .error e => .error e
        | .ok none => .ok none
        | .ok (some (i, c)) => .ok (some (i + 1, c))

/-- A numeric comparison `conv(col_value) OP conv(value)` of lines 476-506:
either conversion may throw.  The language does not fix which operand is
converted first; the model converts `col_value` first, which matters only when
both conversions throw. -/
def cmpWith {α : Type} (conv : Bytes → Except Fault α) (rel : α → α → Bool)
    (col_value value : Bytes) : Except Fault Bool :=
  match conv col_value with
  | .error e => .error e
  | .ok a =>
    match conv value with
    | .error e => .error e
    | .ok b => .ok (rel a b)

/-- The operator dispatch of `evaluateCondition` (lines 470-512). -/
def applyOp (cfg : Config) (op : Bytes) (type : Int) (col_value value : Bytes) :
    Except Fault Bool :=
  if op = str "=" then .ok (col_value == value)
  else if op = str "!=" then .ok (col_value != value)
  else if op = str "<" then
    if type = cfg.INT then cmpWith stoi (fun a b => decide (a < b)) col_value value
    else if type = cfg.FLOAT then cmpWith cfg.stof cfg.fLt col_value value
    else .ok (strLt col_value value)
  else if op = str ">" then
    if type = cfg.INT then cmpWith stoi (fun a b => decide (a > b)) col_value value
    else if type = cfg.FLOAT then cmpWith cfg.stof (fun a b => cfg.fLt b a) col_value value
    else .ok (strLt value col_value)
  else if op = str "<=" then
    if type = cfg.INT then cmpWith stoi (fun a b => decide (a ≤ b)) col_value value
    else if type = cfg.FLOAT then cmpWith cfg.stof cfg.fLe col_value value
    else .ok (!strLt value col_value)
  else if op = str ">=" then
    if type = cfg.INT then cmpWith stoi (fun a b => decide (a ≥ b)) col_value value
    else if type = cfg.FLOAT then cmpWith cfg.stof (fun a b => cfg.fLe b a) col_value value
    else .ok (!strLt col_value value)
  else if op = str "LIKE" then .ok (col_value == value)
  else .ok false

/-- Method `evaluateCondition` (lines 440-513). -/
def evaluateCondition (cfg : Config) (rec : Bytes) (columns : List Bytes) (condition : Bytes) :
    Except Fault Bool :=
  if condition.isEmpty then .ok true
  else
    match nextWord condition with
    | none => .ok false
    | some (col_name, rest1) =>
      match nextWord rest1 with
      | none => .ok false
      | some (op, rest2) =>
        match nextWord rest2 with
        | none => .ok false
        | some (value, _) =>
          match findColumn cfg col_name columns with
          | .error e => .error e
          | .ok none => .ok false
          | .ok (some (_, col)) =>
            match convertToString cfg rec (colTypeOf cfg col) with
            | .error e => .error e
            | .ok col_value => applyOp cfg op (colTypeOf cfg col) col_value value

/-- The loop of `insert` (lines 201-208): every value converted in a fresh
`record` whose previous content is `junk i`; `none` when a conversion fails. -/
def convertValues (cfg : Config) (junk : Nat → Bytes) (columns : List Bytes) :
    Nat → List Bytes → Option (List Bytes)
  | _, [] => some []
  | i, value :: rest =>
    let r := convertValue cfg value (colTypeOf cfg (columns.getD i [])) (fit cfg.recSize (junk i))
    if r.1 then (convertValues cfg junk columns (i + 1) rest).map (fun recs => r.2 :: recs)
    else none

/-- Method `insert` (lines 188-222): the result and the files afterwards. -/
def insert (cfg : Config) (fs : FS) (db : Database) (junk : Nat → Bytes)
    (table_name : Bytes) (values : List Bytes) : Bool × FS :=
  if !db.is_open_ then (false, fs)
  else
    let columns := getTableColumns cfg fs db table_name
    if columns.isEmpty || columns.length != values.length then (false, fs)
    else
      match convertValues cfg junk columns 0 values with
      | none => (false, fs)
      | some records =>
        if !fs.canWrite (tablePath cfg db table_name) then (false, fs)
        else (true, fs.append (tablePath cfg db table_name) records.flatten)

/-- The column validation of `select` (lines 239-255): the selected indices,
`none` when a requested name is not a column. -/
def selectIndices (cfg : Config) (table_columns : List Bytes) (columns : List Bytes) :
    Except Fault (Option (List Nat)) :=
  if columns = [str "*"] then .ok (some (List.range table_columns.length))
  else
    columns.foldr (fun col_name acc =>
      match findColumn cfg col_name table_columns with
      | .error e => .error e
      | .ok none => .ok none
      | .ok (some (i, _)) =>
        match acc with
        | .error e => .error e
        | .ok none => .ok none
        | .ok (some is) => .ok (some (i :: is))) (.ok (some []))

/-- The row `select` builds for one record (lines 267-270). -/
def projectRow (cfg : Config) (table_columns : List Bytes) (selected_indices : List Nat)
    (rec : Bytes) : Except Fault (List Bytes) :=
  mapE (fun idx => convertToString cfg rec (colTypeOf cfg (table_columns.getD idx [])))
    selected_indices

/-- The read loop of `select` (lines 264-277) over the records of the file:
how the call ends and the rows handed to the callback, in order. -/
def selectLoop (cfg : Config) (table_columns : List Bytes) (selected_indices : List Nat)
    (condition : Bytes) : List Bytes → Except Fault Bool × List (List Bytes)
  | [] => (.ok true, [])
  | rec :: rest =>
    match evaluateCondition cfg rec table_columns condition with
    | .error e => (.error e, [])
    | .ok false => selectLoop cfg table_columns selected_indices condition rest
    | .ok true =>
      match projectRow cfg table_columns selected_indices rec with
      | .error e => (.error e, [])
      | .ok row =>
        let r := selectLoop cfg table_columns selected_indices condition rest
        (r.1, row :: r.2)

/-- Method `select` (lines 224-278): how the call ends and the rows handed to
`row_callback`, in order. -/
def select (cfg : Config) (fs : FS) (db : Database) (table_name : Bytes)
    (columns : List Bytes) (condition : Bytes) : Except Fault Bool × List (List Bytes) :=
  if !db.is_open_ then (.ok false, [])
  else
    let table_columns := getTableColumns cfg fs db table_name
    if table_columns.isEmpty then (.ok false, [])
    else
      match selectIndices cfg table_columns columns with
      | .error e => (.error e, [])
      | .ok none => (.ok false, [])
      | .ok (some selected_indices) =>
        match fs.file (tablePath cfg db table_name) with
        | none => (.ok false, [])
        | some data =>
          selectLoop cfg table_columns selected_indices condition (readAll cfg.recSize data)

/-- The read loop of `delete_` (lines 298-304): the records kept. -/
def deleteLoop (cfg : Config) (columns : List Bytes) (condition : Bytes) :
    List Bytes → Except Fault (List Bytes)
  | [] => .ok []
  | rec :: rest =>
    match evaluateCondition cfg rec columns condition with
    | .error e => .error e
    | .ok m =>
      match deleteLoop cfg columns condition rest with
      | .error e => .error e
      | .ok kept => .ok (if m then kept else rec :: kept)

/-- Method `delete_` (lines 280-317): how the call ends and the files afterwards. -/
def delete_ (cfg : Config) (fs : FS) (db : Database) (table_name : Bytes) (condition : Bytes) :
    Except Fault Bool × FS :=
  if !db.is_open_ then (.ok false, fs)
  else
    let columns := getTableColumns cfg fs db table_name
    if columns.isEmpty then (.ok false, fs)
    else
      match fs.file (tablePath cfg db table_name) with
      | none => (.ok false, fs)
      | some data =>
        match deleteLoop cfg columns condition (readAll cfg.recSize data) with
        | .error e => (.error e, fs)
        | .ok records =>
          if !fs.canWrite (tablePath cfg db table_name) then (.ok false, fs)
          else (.ok true, fs.write (tablePath cfg db table_name) records.flatten)

/-- The word `describe` prints for a type tag (lines 337-352). -/
def typeName (cfg : Config) (type : Int) : Bytes :=
  if type = cfg.INT then str "INT"
  else if type = cfg.FLOAT then str "FLOAT"
  else if type = cfg.VARCHAR then str "VARCHAR"
  else if type = cfg.CHAR then str "CHAR"
  else str "UNKNOWN"

/-- Method `describe` (lines 319-357): the result and the (name, type) lines printed. -/
def describe (cfg : Config) (fs : FS) (db : Database) (table_name : Bytes) :
    Except Fault (Bool × List (Bytes × Bytes)) :=
  if !db.is_open_ then .ok (false, [])
  else
    let columns := getTableColumns cfg fs db table_name
    if columns.isEmpty then .ok (false, [])
    else
      match mapE (fun col =>
          match colNameOf cfg col with
          | .error e => .error e
          | .ok n => .ok (n, typeName cfg (colTypeOf cfg col))) columns with
      | .error e => .error e
      | .ok lines => .ok (true, lines)

/-! ## A concrete configuration and the scenario of the tests -/

/-- A configuration for closed examples: tags `INT = 0`, `CHAR = 1`,
`VARCHAR = 2`, `FLOAT = 3` (the values `tests/database_test.cpp` uses for `INT`
and `VARCHAR`), 32-byte names and strings, `column_def` = name then type,
`record` = `int_val`, `float_val`, `str_val`.  No example below has a `FLOAT`
column, and the four floating-point fields are place holders. -/
def sampleConfig : Config :=
  { INT := 0, CHAR := 1, VARCHAR := 2, FLOAT := 3,
    MAX_TABLE_NAME := 32, MAX_COL_NAME := 32, MAX_STR_LEN := 32,
    DBPATH := str "./",
    colSize := 36, colName := 0, colType := 32,
    recSize := 40, recInt := 0, recFloat := 4, recStr := 8,
    megaSize := 36, megaName := 0, megaNum := 32,
    stof := fun _ => .error .invalid_argument,
    ftos := fun _ => [],
    fLt := fun _ _ => false,
    fLe := fun _ _ => false }

/-- The database object of the test fixture after `create("test_db")`. -/
def testDb : Database := { is_open_ := true, db_name_ := str "test_db" }

/-- The files of the test fixture after `create("test_db")`: the catalog file
is empty, there is no table file yet and any file can be created.  The page
file, which no table operation opens, is left out. -/
def freshFS (cfg : Config) : FS :=
  { file := fun q => if q = sysPath cfg testDb then some [] else none,
    creatable := fun _ => true }

/-- The columns `id INT, name VARCHAR, age INT` of the tests. -/
def usersColumns (cfg : Config) : List (Bytes × Int) :=
  [(str "id", cfg.INT), (str "name", cfg.VARCHAR), (str "age", cfg.INT)]

/-- Uninitialised memory that happens to hold zeros. -/
def zeroJunk : Nat → Bytes := fun _ => []

/-- The files after `createTable("users", usersColumns)` on the fresh fixture. -/
def usersFS (cfg : Config) (junkT : Bytes) (junkC : Nat → Bytes) : FS :=
  (createTable cfg (freshFS cfg) testDb junkT junkC (str "users") (usersColumns cfg)).2

/-- A record of the sample configuration whose `int_val` is 25. -/
def rec25 : Bytes := (convertValue sampleConfig (str "25") sampleConfig.INT (fit 40 [])).2

/-- The column blocks of `users` in the sample configuration. -/
def sampleColumns : List Bytes := mkColumns sampleConfig zeroJunk 0 (usersColumns sampleConfig)

/-- The condition string `c op v` made of the first three words of
`condition`, joined by single blanks: the first clause, without what follows
it.  There is none when `condition` has fewer than three words. -/
def firstClause (condition : Bytes) : Option Bytes :=
  match nextWord condition with
  | none => none
  | some (c, rest1) =>
    match nextWord rest1 with
    | none => none
    | some (op, rest2) =>
      match nextWord rest2 with
      | none => none
      | some (v, _) => some (c ++ 32 :: (op ++ 32 :: v))

/-- A record of the sample configuration whose `str_val` is `John`. -/
def recJohn : Bytes :=
  (convertValue sampleConfig (str "John") sampleConfig.VARCHAR (fit 40 [])).2

/-! ## The buffer manager of `src/buffer/buffer_manager.cpp` -/

/-- The constants `buffer_manager.cpp` takes from a header that is not among
the sources. -/
structure BufConfig where
  /-- Constant `PAGESIZE`, the number of bytes of a page. -/
  PAGESIZE : Nat
  /-- Constant `KB`. -/
  KB : Nat
  /-- Constant `EMPTY`, as the `uint32_t` it is compared with. -/
  EMPTY : Nat
  /-- Directory prefix `DBPATH` of every file. -/
  DBPATH : Bytes
  /-- Width in bits of the unsigned type in which `page_num * PAGESIZE` is
  computed: 32 when `PAGESIZE` is an `int` or `unsigned` constant (the product
  of a `uint32_t` and an `int` is an `unsigned int`), 64 when it is declared
  with a 64-bit type. -/
  offsetBits : Nat

/-- Struct `Frame` (lines 170-177). -/
structure Frame where
  /-- Member `page_num`, a `uint32_t`. -/
  page_num : Nat
  /-- Member `db_name`. -/
  db_name : Bytes
  /-- Member `is_dirty`. -/
  is_dirty : Bool
  /-- Member `pin_count`, an `int`. -/
  pin_count : Int
  /-- Member `last_used`, a `uint64_t`. -/
  last_used : Nat
  /-- Member `data`. -/
  data : Bytes
  deriving DecidableEq, Repr

/-- The members of `BufferManager::Impl`.  Member `num_frames_` is not stored:
`initialize` sets it to the size it gives `buffer_pool_`, `cleanup` clears both,
and nothing else changes either. -/
structure BufferManager where
  /-- Member `buffer_pool_`. -/
  buffer_pool_ : List Frame
  /-- Member `buffer_size_`, a `size_t`. -/
  buffer_size_ : Nat
  deriving DecidableEq, Repr

/-- Member `num_frames_`. -/
def BufferManager.num_frames_ (bm : BufferManager) : Nat := bm.buffer_pool_.length

/-- The object the constructor `Impl()` builds (line 11). -/
def newBufferManager : BufferManager := { buffer_pool_ := [], buffer_size_ := 0 }

/-- Index of the first frame that satisfies `p`, `none` when the loop ends
without a `return i`, where the code returns `-1`. -/
def firstIndex (p : Frame → Bool) : List Frame → Option Nat
  | [] => none
  | f :: rest => if p f then some 0 else (firstIndex p rest).map (fun i => i + 1)

/-- Method `findPage` (lines 183-191); `none` stands for `-1`. -/
def findPage (bm : BufferManager) (db_name : Bytes) (page_num : Nat) : Option Nat :=
  firstIndex (fun f => f.page_num == page_num && f.db_name == db_name) bm.buffer_pool_

/-- Method `findFreeFrame` (lines 193-200); `none` stands for `-1`. -/
def findFreeFrame (bc : BufConfig) (bm : BufferManager) : Option Nat :=
  firstIndex (fun f => f.page_num == bc.EMPTY) bm.buffer_pool_

/-- The loop of `findVictimFrame` (lines 206-212) from frame `i` on, with the
current values of `victim` and `oldest_time`. -/
def findVictimLoop : List Frame → Nat → Option Nat → Nat → Option Nat
  | [], _, victim, _ => victim
  | f :: rest, i, victim, oldest_time =>
    if f.pin_count = 0 ∧ f.last_used < oldest_time then
      findVictimLoop rest (i + 1) (some i) f.last_used
    else findVictimLoop rest (i + 1) victim oldest_time

/-- Method `findVictimFrame` (lines 202-215); `none` stands for `-1`, and
`oldest_time` starts at `std::numeric_limits<uint64_t>::max()`. -/
def findVictimFrame (bm : BufferManager) : Option Nat :=
  findVictimLoop bm.buffer_pool_ 0 none 18446744073709551615

/-- Path `DBPATH + db_name` of a page file. -/
def pagePath (bc : BufConfig) (db_name : Bytes) : Bytes := bc.DBPATH ++ db_name

/-- The argument `page_num * PAGESIZE` of `seekg` and `seekp`, computed in the
unsigned type of `offsetBits` bits. -/
def seekOffset (bc : BufConfig) (page_num : Nat) : Nat :=
  (page_num * bc.PAGESIZE) % 2 ^ bc.offsetBits

/-- The bytes `read(buf, n)` extracts from a file positioned at `off`: `n`
bytes, or fewer when the file ends before. -/
def readFrom (file : Bytes) (off n : Nat) : Bytes := (file.drop off).take n

/-- The buffer after `read` stored `got` at its start. -/
def fillData (data got : Bytes) : Bytes := got ++ data.drop got.length

/-- The file after `seekp(off)` and `write(val, val.length)`: a file shorter
than `off` is first extended with zero bytes. -/
def writeAt (file : Bytes) (off : Nat) (val : Bytes) : Bytes :=
  (file ++ List.replicate (off - file.length) 0).take off ++ val
    ++ (file ++ List.replicate (off - file.length) 0).drop (off + val.length)

/-- The pool after `buffer_pool_[i]` was assigned `g buffer_pool_[i]`. -/
def updateFrame (pool : List Frame) (i : Nat) (g : Frame → Frame) : List Frame :=
  match pool[i]? with
  | some f => pool.set i (g f)
  | none => pool

/-- The frame `f` after lines 55-56 of `readPage`: a hit at time `now`. -/
def touchedFrame (now : Nat) (f : Frame) : Frame :=
  { f with last_used := now, pin_count := f.pin_count + 1 }

/-- The frame `f` after line 116 of `writePage`. -/
def cleanFrame (f : Frame) : Frame := { f with is_dirty := false }

/-- Method `initialize` (lines 13-32): the result and the object afterwards.
The vector keeps the frames it has, `resize` adds default ones, and the loop
resets every member but `db_name`. -/
def initializePool (bc : BufConfig) (bm : BufferManager) (size_kb : Nat) :
    Bool × BufferManager :=
  if bm.buffer_size_ > 0 then (false, bm)
  else
    let buffer_size := (size_kb * bc.KB) % 18446744073709551616
    let num_frames := buffer_size / bc.PAGESIZE
    let resized := bm.buffer_pool_.take num_frames ++
      List.replicate (num_frames - bm.buffer_pool_.length)
        { page_num := 0, db_name := [], is_dirty := false, pin_count := 0, last_used := 0,
          data := [] }
    (true,
      { buffer_pool_ := resized.map (fun frame =>
          { frame with page_num := bc.EMPTY, is_dirty := false, pin_count := 0, last_used := 0,
                       data := fit bc.PAGESIZE frame.data }),
        buffer_size_ := buffer_size })

/-- Method `writePage` (lines 96-118): the result, the object and the files
afterwards.  The stream is opened with `std::ios::in`, so a missing file is not
created and an existing one is not truncated. -/
def writePage (bc : BufConfig) (bm : BufferManager) (fs : FS) (db_name : Bytes)
    (page_num : Nat) : Bool × BufferManager × FS :=
  if bm.buffer_size_ = 0 then (false, bm, fs)
  else
    match findPage bm db_name page_num with
    | none => (false, bm, fs)
    | some frame_num =>
      match fs.file (pagePath bc db_name) with
      | none => (false, bm, fs)
      | some file =>
        match bm.buffer_pool_[frame_num]? with
        | none => (false, bm, fs)
        | some frame =>
          (true,
            { bm with buffer_pool_ := updateFrame bm.buffer_pool_ frame_num cleanFrame },
            fs.write (pagePath bc db_name)
              (writeAt file (seekOffset bc page_num) (frame.data.take bc.PAGESIZE)))

/-- Method `commit` (lines 120-122). -/
def commit (bc : BufConfig) (bm : BufferManager) (fs : FS) (db_name : Bytes)
    (page_num : Nat) : Bool × BufferManager × FS :=
  writePage bc bm fs db_name page_num

/-- The loop of `commitAll` (lines 126-132) over the frame indices `is`, with
the current value of `success`. -/
def commitAllLoop (bc : BufConfig) (db_name : Bytes) :
    List Nat → Bool → BufferManager → FS → Bool × BufferManager × FS
  | [], success, bm, fs => (success, bm, fs)
  | i :: is, success, bm, fs =>
    match bm.buffer_pool_[i]? with
    | none => commitAllLoop bc db_name is success bm fs
    | some frame =>
      if frame.db_name = db_name ∧ frame.is_dirty = true then
        let w := writePage bc bm fs db_name frame.page_num
        commitAllLoop bc db_name is (if w.1 then success else false) w.2.1 w.2.2
      else commitAllLoop bc db_name is success bm fs

/-- Method `commitAll` (lines 124-134). -/
def commitAll (bc : BufConfig) (bm : BufferManager) (fs : FS) (db_name : Bytes) :
    Bool × BufferManager × FS :=
  commitAllLoop bc db_name (List.range bm.num_frames_) true bm fs

/-- The frame `f` after lines 82-91 of `readPage`: `seekg`, `read` into its
buffer, and the assignment of the other members. -/
def loadedFrame (bc : BufConfig) (file : Bytes) (now : Nat) (db_name : Bytes) (page_num : Nat)
    (f : Frame) : Frame :=
  { page_num := page_num, db_name := db_name, is_dirty := false, pin_count := 1,
    last_used := now,
    data := fillData f.data (readFrom file (seekOffset bc page_num) bc.PAGESIZE) }

/-- Lines 75-93 of `readPage`: the page is read from its file into the frame
`frame_num`, whose members are then set.  The result of `read` is not
looked at. -/
def loadPage (bc : BufConfig) (bm : BufferManager) (fs : FS) (now : Nat) (db_name : Bytes)
    (page_num frame_num : Nat) : Bool × BufferManager × FS :=
  match fs.file (pagePath bc db_name) with
  | none => (false, bm, fs)
  | some file =>
    (true,
      { bm with buffer_pool_ :=
          updateFrame bm.buffer_pool_ frame_num (loadedFrame bc file now db_name page_num) },
      fs)

/-- Method `readPage` (lines 47-94): the result, the object and the files
afterwards.  `now` is the value `getCurrentTime()` returns during the call. -/
def readPage (bc : BufConfig) (bm : BufferManager) (fs : FS) (now : Nat) (db_name : Bytes)
    (page_num : Nat) : Bool × BufferManager × FS :=
  if bm.buffer_size_ = 0 then (false, bm, fs)
  else
    match findPage bm db_name page_num with
    | some frame_num =>
      (true,
        { bm with buffer_pool_ := updateFrame bm.buffer_pool_ frame_num (touchedFrame now) },
        fs)
    | none =>
      match findFreeFrame bc bm with
      | some frame_num => loadPage bc bm fs now db_name page_num frame_num
      | none =>
        match findVictimFrame bm with
        | none => (false, bm, fs)
        | some frame_num =>
          match bm.buffer_pool_[frame_num]? with
          | none => (false, bm, fs)
          | some victim =>
            if victim.is_dirty then
              let w := writePage bc bm fs victim.db_name victim.page_num
              loadPage bc w.2.1 w.2.2 now db_name page_num frame_num
            else loadPage bc bm fs now db_name page_num frame_num

/-- The states of the pool after `initialize` on a new object and any sequence
of `readPage`, `writePage`, `commit` and `commitAll` calls, whatever the files
and the clock are at each call. -/
inductive Reachable (bc : BufConfig) : BufferManager → Prop where
  | init (size_kb : Nat) : Reachable bc (initializePool bc newBufferManager size_kb).2
  | readPage (bm : BufferManager) (fs : FS) (now : Nat) (db_name : Bytes) (page_num : Nat) :
      Reachable bc bm → Reachable bc (readPage bc bm fs now db_name page_num).2.1
  | writePage (bm : BufferManager) (fs : FS) (db_name : Bytes) (page_num : Nat) :
      Reachable bc bm → Reachable bc (writePage bc bm fs db_name page_num).2.1
  | commit (bm : BufferManager) (fs : FS) (db_name : Bytes) (page_num : Nat) :
      Reachable bc bm → Reachable bc (commit bc bm fs db_name page_num).2.1
  | commitAll (bm : BufferManager) (fs : FS) (db_name : Bytes) :
      Reachable bc bm → Reachable bc (commitAll bc bm fs db_name).2.1

/-- The key `(page_num, db_name)` of every frame of the pool, in order. -/
def keysOf (bm : BufferManager) : List (Nat × Bytes) :=
  bm.buffer_pool_.map (fun f => (f.page_num, f.db_name))

/-- No two distinct frames that hold a page (`page_num != EMPTY`) have the same
key. -/
def NoDupKeys (bc : BufConfig) (bm : BufferManager) : Prop :=
  ∀ (i j : Nat) (f g : Frame), bm.buffer_pool_[i]? = some f → bm.buffer_pool_[j]? = some g →
    f.page_num ≠ bc.EMPTY → f.page_num = g.page_num → f.db_name = g.db_name → i = j

/-- A configuration for closed examples: 1024-byte pages, `EMPTY` the
`uint32_t` value of `-1`, and `PAGESIZE` an `int` constant, so that
`page_num * PAGESIZE` is an `unsigned int`. -/
def sampleBuf : BufConfig :=
  { PAGESIZE := 1024, KB := 1024, EMPTY := 4294967295, DBPATH := str "./", offsetBits := 32 }

/-- The files of the fixture of `tests/buffer_test.cpp`, `test_file.db` holding
the nine bytes `test data`, and a second page file `b`. -/
def testFiles : FS :=
  { file := fun q =>
      if q = str "./test_file.db" then some (str "test data")
      else if q = str "./b" then some (str "page of b")
      else none,
    creatable := fun _ => true }

/-- The pool of the sample configuration after `initialize(1)`: one frame. -/
def pool1 : BufferManager := (initializePool sampleBuf newBufferManager 1).2

/-- The pool of the sample configuration after `initialize(2)`: two frames. -/
def pool2 : BufferManager := (initializePool sampleBuf newBufferManager 2).2

/-- The one-frame pool after `readPage("test_file.db", 0)` at time 100. -/
def pool1Read : BufferManager :=
  (readPage sampleBuf pool1 testFiles 100 (str "test_file.db") 0).2.1

/-- The two-frame pool after `readPage("test_file.db", EMPTY)` at time 100. -/
def pool2ReadEmpty : BufferManager :=
  (readPage sampleBuf pool2 testFiles 100 (str "test_file.db") sampleBuf.EMPTY).2.1

/-- A page file of 4 GiB of zero bytes followed by one page of bytes 1: its page
4194304 is the last one. -/
def bigFile : Bytes := List.replicate 4294967296 0 ++ List.replicate 1024 1

/-- Files in which every page file is `bigFile`. -/
def bigFiles : FS := { file := fun _ => some bigFile, creatable := fun _ => true }

/-- The one-frame pool after `readPage("test_file.db", 4194304)` at time 100. -/
def pool1ReadFar : BufferManager :=
  (readPage sampleBuf pool1 testFiles 100 (str "test_file.db") 4194304).2.1

/-- The two-frame pool after `readPage("test_file.db", 0)` at time 100 and
`readPage("b", 0)` at time 200. -/
def pool2Two : BufferManager :=
  (readPage sampleBuf (readPage sampleBuf pool2 testFiles 100 (str "test_file.db") 0).2.1
    testFiles 200 (str "b") 0).2.1

/-- The files after `std::filesystem::remove(path)`. -/
def FS.remove (fs : FS) (path : Bytes) : FS :=
  { fs with file := fun q => if q = path then none else fs.file q }

/-- The loop of `dropTable` (lines 166-170) over the `mega_struct` blocks of the
catalog: the blocks whose stored name differs from `name`, in file order. -/
def dropLoop (cfg : Config) (name : Bytes) : List Bytes → Except Fault (List Bytes)
  | [] => .ok []
  | table_info :: rest =>
    match readCStr table_info cfg.megaName with
    | .error e => .error e
    | .ok stored =>
      match dropLoop cfg name rest with
      | .error e => .error e
      | .ok tables => .ok (if stored ≠ name then table_info :: tables else tables)

/-- Method `dropTable` (lines 152-186): the result and the files afterwards.
The catalog is rewritten from the kept blocks whether or not a block was
dropped, and the result is that of `std::filesystem::remove` on the table file:
whether there was a file to remove. -/
def dropTable (cfg : Config) (fs : FS) (db : Database) (name : Bytes) : Except Fault Bool × FS :=
  if !db.is_open_ then (.ok false, fs)
  else
    match fs.file (sysPath cfg db) with
    | none => (.ok false, fs)
    | some data =>
      match dropLoop cfg name (readAll cfg.megaSize data) with
      | .error e => (.error e, fs)
      | .ok tables =>
        if !fs.canWrite (sysPath cfg db) then (.ok false, fs)
        else
          let fs1 := fs.write (sysPath cfg db) tables.flatten
          (.ok (fs1.file (tablePath cfg db name)).isSome, fs1.remove (tablePath cfg db name))

/-- The struct `dp_page` and the constants `HEADER_PAGE` and `EMPTY` that
`create` uses.  No header of the repository declares them, so they are
parameters: the size of the struct and the offsets of its three members. -/
structure PageConfig where
  /-- Value of `sizeof(dp_page)`. -/
  dpSize : Nat
  /-- Offset of `page_num`. -/
  dpPageNum : Nat
  /-- Offset of `next_free`. -/
  dpNextFree : Nat
  /-- Offset of `num_records`. -/
  dpNumRecords : Nat
  /-- Constant `HEADER_PAGE`. -/
  HEADER_PAGE : Int
  /-- Constant `EMPTY`. -/
  EMPTY : Int

/-- The `dp_page` that `create` builds in an uninitialised local whose previous
content is `junk` (lines 30-33 and 38-41). -/
def mkPage (pc : PageConfig) (junk : Bytes) (page_num : Int) : Bytes :=
  poke (poke (poke (fit pc.dpSize junk) pc.dpPageNum (storeInt page_num))
    pc.dpNextFree (storeInt pc.EMPTY)) pc.dpNumRecords (storeInt 0)

/-- Path of the page file of the database `name`. -/
def dbPath (cfg : Config) (name : Bytes) : Bytes := cfg.DBPATH ++ name

/-- Method `create` (lines 18-56): the result, the files and the object
afterwards.  `junk i` is the previous content of the local of the `i`-th page,
the header page being page 0. -/
def create (cfg : Config) (pc : PageConfig) (fs : FS) (db : Database) (junk : Nat → Bytes)
    (name : Bytes) (num_pages : Nat) : Bool × FS × Database :=
  if db.is_open_ then (false, fs, db)
  else if !fs.canWrite (dbPath cfg name) then (false, fs, db)
  else
    let header := mkPage pc (junk 0) pc.HEADER_PAGE
    let pages := (List.range (num_pages - 1)).map (fun k => mkPage pc (junk (k + 1)) (k + 2))
    let fs1 := fs.write (dbPath cfg name) (header ++ pages.flatten)
    if !fs1.canWrite (dbPath cfg name ++ str "_sys") then (false, fs1.remove (dbPath cfg name), db)
    else
      (true, fs1.write (dbPath cfg name ++ str "_sys") [],
        { is_open_ := true, db_name_ := name })

/-- Method `open` (lines 80-93): the result and the object afterwards.
`std::filesystem::exists(db_path)` holds for a file of `fs` and for the paths
of `dirs`, which exist without being a file: the directories, `DBPATH` itself
among them. -/
def open_ (cfg : Config) (fs : FS) (dirs : Bytes → Bool) (db : Database) (name : Bytes) :
    Bool × Database :=
  if db.is_open_ then (false, db)
  else if !((fs.file (dbPath cfg name)).isSome || dirs (dbPath cfg name)) then (false, db)
  else (true, { is_open_ := true, db_name_ := name })

/-- Method `close` (lines 95-103): the result and the object afterwards. -/
def close (db : Database) : Bool × Database :=
  if !db.is_open_ then (false, db)
  else (true, { is_open_ := false, db_name_ := [] })

/-- Method `isOpen` (lines 105-107). -/
def isOpen (db : Database) : Bool := db.is_open_

/-- The loop of `drop` (lines 71-75) over the directory entries of `DBPATH`:
an entry whose path string has `name + "_"` at position 0 is removed. -/
def dropLoopFiles (name : Bytes) : List Bytes → Bool → FS → Bool × FS
  | [], success, fs => (success, fs)
  | entry :: rest, success, fs =>
    if (name ++ str "_").isPrefixOf entry then
      dropLoopFiles name rest (success && (fs.file entry).isSome) (fs.remove entry)
    else dropLoopFiles name rest success fs

/-- Method `drop` (lines 58-78): the result, the files and the object
afterwards.  `entries` are the path strings the directory iterator of `DBPATH`
yields during the call. -/
def drop (cfg : Config) (fs : FS) (db : Database) (entries : List Bytes) (name : Bytes) :
    Bool × FS × Database :=
  let db1 := if db.is_open_ && db.db_name_ == name then (close db).2 else db
  let s1 := (fs.file (dbPath cfg name)).isSome
  let fs1 := fs.remove (dbPath cfg name)
  let s2 := s1 && (fs1.file (dbPath cfg name ++ str "_sys")).isSome
  let fs2 := fs1.remove (dbPath cfg name ++ str "_sys")
  let r := dropLoopFiles name entries s2 fs2
  (r.1, r.2, db1)

/-! ## The whole interface of the buffer manager -/

/-- The frame in every slot of a new pool after `initialize`: a default frame
with `page_num = EMPTY` and a data buffer resized to `PAGESIZE` zero bytes. -/
def emptyFrame (bc : BufConfig) : Frame :=
  { page_num := bc.EMPTY, db_name := [], is_dirty := false, pin_count := 0, last_used := 0,
    data := List.replicate bc.PAGESIZE 0 }

/-- The fresh fixture in a directory `./` that has no subdirectory: the catalog
file of `test_db` is empty and a file can be created only directly under
`./`, that is at a path with no further `/`. -/
def flatDirFS : FS :=
  { file := fun q => if q = sysPath sampleConfig testDb then some [] else none,
    creatable := fun q => !((q.drop 2).contains 47) }

/-- A table name of 32 letters `a`: as long as `MAX_TABLE_NAME` in the sample
configuration. -/
def longName : Bytes := List.replicate 32 97

/-- The files after `createTable(longName, usersColumns)` on the fresh fixture
of the sample configuration. -/
def longFS : FS :=
  (createTable sampleConfig (freshFS sampleConfig) testDb [] zeroJunk longName
    (usersColumns sampleConfig)).2

/-- A page layout for closed examples: three `int` members in declaration
order, `HEADER_PAGE = 0` and `EMPTY = -1`. -/
def samplePages : PageConfig :=
  { dpSize := 12, dpPageNum := 0, dpNextFree := 4, dpNumRecords := 8, HEADER_PAGE := 0,
    EMPTY := -1 }

/-- The database object before `create` or `open`, and after `close`. -/
def closedDb : Database := { is_open_ := false, db_name_ := [] }

/-- An empty directory `./` in which any file can be created. -/
def emptyFS : FS := { file := fun _ => none, creatable := fun _ => true }

/-- The directories of the fixture: `./` alone, which is also `./.`. -/
def sampleDirs : Bytes → Bool := fun q => q == str "./" || q == str "./."

/-- What C38 says of every frame of a pool: it is clean, and pinned when it
holds a page (`page_num != EMPTY`). -/
def PinnedClean (bc : BufConfig) (pool : List Frame) : Prop :=
  ∀ f ∈ pool, f.is_dirty = false ∧ (f.page_num ≠ bc.EMPTY → 1 ≤ f.pin_count)

/-! ## `CLI::Impl::printTable` -/

/-- What `std::cout << std::setw(w) << s` writes: `s` right-aligned in `w`
columns, and `s` itself when it is longer. -/
def setw (w : Nat) (s : Bytes) : Bytes := List.replicate (w - s.length) 32 ++ s

/-- The loop of lines 91-93 over one row, from the cell `i` on:
`col_widths[i] = std::max(col_widths[i], row[i].length())` for every cell of
the row.  An index past the end of `col_widths` leaves the vector. -/
def widenRow : List Nat → Nat → List Bytes → Except Fault (List Nat)
  | col_widths, _, [] => .ok col_widths
  | col_widths, i, cell :: rest =>
    match col_widths[i]? with
    | none => .error .overread
    | some w => widenRow (col_widths.set i (max w cell.length)) (i + 1) rest

/-- The loop of lines 90-94 over the rows. -/
def widenRows : List Nat → List (List Bytes) → Except Fault (List Nat)
  | col_widths, [] => .ok col_widths
  | col_widths, row :: rest =>
    match widenRow col_widths 0 row with
    | .error e => .error e
    | .ok widened => widenRows widened rest

/-- Method `printTableRow` (lines 138-144), from the cell `i` on: the text
written, every cell being read with `col_widths[i]`. -/
def printTableRow (col_widths : List Nat) : Nat → List Bytes → Except Fault Bytes
  | _, [] => .ok [10]
  | i, cell :: rest =>
    match col_widths[i]? with
    | none => .error .overread
    | some w =>
      match printTableRow col_widths (i + 1) rest with
      | .error e => .error e
      | .ok out => .ok (setw w cell ++ str "  " ++ out)

/-- Method `printTable` (lines 78-110): the text written to `std::cout`. -/
def printTable (headers : List Bytes) (rows : List (List Bytes)) : Except Fault Bytes :=
  if headers.isEmpty || rows.isEmpty then .ok []
  else
    match widenRows (headers.map List.length) rows with
    | .error e => .error e
    | .ok col_widths =>
      match printTableRow col_widths 0 headers with
      | .error e => .error e
      | .ok head =>
        let separator := (col_widths.map (fun width => List.replicate (width + 2) 45)).flatten
        match mapE (printTableRow col_widths 0) rows with
        | .error e => .error e
        | .ok lines => .ok (head ++ separator ++ [10] ++ lines.flatten ++ [10])

/-! ## The SQL parser (`src/src/sql/parser.cpp`) -/

/-- Function `toupper` in the "C" locale. -/
def toUpper (c : Nat) : Nat := if 97 ≤ c ∧ c ≤ 122 then c - 32 else c

/-- The words that `iss >> token` yields one after the other until it fails;
`fuel` bounds their number. -/
def wordsFuel : Nat → Bytes → List Bytes
  | 0, _ => []
  | fuel + 1, s =>
    match nextWord s with
    | none => []
    | some (w, rest) => w :: wordsFuel fuel rest

/-- All the words of a stream: a stream of `n` bytes holds at most `n` words. -/
def words (s : Bytes) : List Bytes := wordsFuel s.length s

/-- A word as `operator>>` reads it: not empty and without white space. -/
def IsWord (w : Bytes) : Prop := w ≠ [] ∧ ∀ x ∈ w, isSpace x = false

instance (w : Bytes) : Decidable (IsWord w) := by
  unfold IsWord
  infer_instance

/-- Struct `ColumnDefinition` (parser.h, lines 11-16). -/
structure ColumnDefinition where
  /-- Member `name`. -/
  name : Bytes
  /-- Member `type`. -/
  type : Int
  /-- Member `is_primary_key`. -/
  is_primary_key : Bool
  /-- Member `is_nullable`. -/
  is_nullable : Bool
  deriving DecidableEq, Repr

/-- Struct `CreateTableStatement` (parser.h, lines 18-21). -/
structure CreateTableStatement where
  /-- Member `table_name`. -/
  table_name : Bytes
  /-- Member `columns`. -/
  columns : List ColumnDefinition
  deriving DecidableEq, Repr

/-- Struct `InsertStatement` (parser.h, lines 23-26). -/
structure InsertStatement where
  /-- Member `table_name`. -/
  table_name : Bytes
  /-- Member `values`. -/
  values : List Bytes
  deriving DecidableEq, Repr

/-- Struct `SelectStatement` (parser.h, lines 28-32). -/
structure SelectStatement where
  /-- Member `table_name`. -/
  table_name : Bytes
  /-- Member `columns`. -/
  columns : List Bytes
  /-- Member `condition`. -/
  condition : Bytes
  deriving DecidableEq, Repr

/-- Struct `DeleteStatement` (parser.h, lines 34-37). -/
structure DeleteStatement where
  /-- Member `table_name`. -/
  table_name : Bytes
  /-- Member `condition`. -/
  condition : Bytes
  deriving DecidableEq, Repr

/-- The variant `SQLStatement` (parser.h, lines 39-44). -/
inductive SQLStatement where
  | create (stmt : CreateTableStatement)
  | insert (stmt : InsertStatement)
  | select (stmt : SelectStatement)
  | delete (stmt : DeleteStatement)
  deriving DecidableEq, Repr

/-- The message of the `std::runtime_error` thrown for a token that fits
nowhere (line 104). -/
def unexpectedToken (token : Bytes) : Bytes := str "Unexpected token: " ++ token

/-- The loop of `parseCreateTable` (lines 62-109) over the words left in the
stream.  `columns` is `stmt.columns`; the third argument is `none` at the top
of the outer loop and `some col` inside the inner loop (lines 92-106), `col`
being the column read so far.  A failed `iss >> token` leaves `token` as it
was.  The result is the statement returned or the message of the exception
thrown. -/
def parseColumns (cfg : Config) (table_name : Bytes) :
    List ColumnDefinition → Option ColumnDefinition → List Bytes → Except Bytes SQLStatement
  | _, none, [] => .error (str "Expected column name")
  | _, none, [_] => .error (str "Expected column type")
  | columns, none, name :: token :: iss =>
    if token.map toUpper = str "INT" then
      parseColumns cfg table_name columns (some ⟨name, cfg.INT, false, true⟩) iss
    else if token.map toUpper = str "VARCHAR" then
      parseColumns cfg table_name columns (some ⟨name, cfg.VARCHAR, false, true⟩) iss
    else if token.map toUpper = str "CHAR" then
      parseColumns cfg table_name columns (some ⟨name, cfg.CHAR, false, true⟩) iss
    else if token.map toUpper = str "FLOAT" then
      parseColumns cfg table_name columns (some ⟨name, cfg.FLOAT, false, true⟩) iss
    else .error (str "Unknown column type: " ++ token.map toUpper)
  | _, some _, [] => .error (str "Expected column name")
  | columns, some col, token :: iss =>
    if token.map toUpper = str "PRIMARY" then
      match iss with
      | [] => .error (unexpectedToken (token.map toUpper))
      | token2 :: iss2 =>
        if token2 = str "KEY" then
          parseColumns cfg table_name columns (some { col with is_primary_key := true }) iss2
        else if token2 = str "NOT" then
          match iss2 with
          | [] => .error (unexpectedToken token2)
          | token3 :: iss3 =>
            if token3 = str "NULL" then
              parseColumns cfg table_name columns (some { col with is_nullable := false }) iss3
            else if token3 = str "," then parseColumns cfg table_name (columns ++ [col]) none iss3
            else if token3 = str ")" then .ok (.create ⟨table_name, columns ++ [col]⟩)
            else .error (unexpectedToken token3)
        else if token2 = str "," then parseColumns cfg table_name (columns ++ [col]) none iss2
        else if token2 = str ")" then .ok (.create ⟨table_name, columns ++ [col]⟩)
        else .error (unexpectedToken token2)
    else if token.map toUpper = str "NOT" then
      match iss with
      | [] => .error (unexpectedToken (token.map toUpper))
      | token2 :: iss2 =>
        if token2 = str "NULL" then
          parseColumns cfg table_name columns (some { col with is_nullable := false }) iss2
        else if token2 = str "," then parseColumns cfg table_name (columns ++ [col]) none iss2
        else if token2 = str ")" then .ok (.create ⟨table_name, columns ++ [col]⟩)
        else .error (unexpectedToken token2)
    else if token.map toUpper = str "," then
      parseColumns cfg table_name (columns ++ [col]) none iss
    else if token.map toUpper = str ")" then .ok (.create ⟨table_name, columns ++ [col]⟩)
    else .error (unexpectedToken (token.map toUpper))

/-- Method `parseCreateTable` (lines 42-110) on the words left in the stream. -/
def parseCreateTable (cfg : Config) : List Bytes → Except Bytes SQLStatement
  | [] => .error (str "Expected TABLE keyword")
  | token :: iss =>
    if toUpper (token.headD 0) ≠ 84 then .error (str "Expected TABLE keyword")
    else
      match iss with
      | [] => .error (str "Expected table name")
      | table_name :: iss2 =>
        match iss2 with
        | [] => .error (str "Expected opening parenthesis")
        | token2 :: iss3 =>
          if token2 ≠ str "(" then .error (str "Expected opening parenthesis")
          else parseColumns cfg table_name [] none iss3

/-- The loop of `parseInsert` (lines 137-154); `values` is `stmt.values`. -/
def parseValues (table_name : Bytes) : List Bytes → List Bytes → Except Bytes SQLStatement
  | _, [] => .error (str "Expected value")
  | _, [_] => .error (str "Expected closing parenthesis or comma")
  | values, value :: token :: iss =>
    if token = str ")" then .ok (.insert ⟨table_name, values ++ [value]⟩)
    else if token ≠ str "," then .error (str "Expected comma or closing parenthesis")
    else parseValues table_name (values ++ [value]) iss

/-- Method `parseInsert` (lines 112-157) on the words left in the stream. -/
def parseInsert : List Bytes → Except Bytes SQLStatement
  | [] => .error (str "Expected INTO keyword")
  | token :: iss =>
    if toUpper (token.headD 0) ≠ 73 then .error (str "Expected INTO keyword")
    else
      match iss with
      | [] => .error (str "Expected table name")
      | table_name :: iss2 =>
        match iss2 with
        | [] => .error (str "Expected VALUES keyword")
        | token2 :: iss3 =>
          if toUpper (token2.headD 0) ≠ 86 then .error (str "Expected VALUES keyword")
          else
            match iss3 with
            | [] => .error (str "Expected opening parenthesis")
            | token3 :: iss4 =>
              if token3 ≠ str "(" then .error (str "Expected opening parenthesis")
              else parseValues table_name [] iss4

/-- The loop of `parseSelect` (lines 164-186): `stmt.columns` and the words
left in the stream after it; `columns` is `stmt.columns` so far. -/
def parseSelectColumns : List Bytes → List Bytes → Except Bytes (List Bytes × List Bytes)
  | _, [] => .error (str "Expected column name or *")
  | columns, token :: iss =>
    if token = str "*" then .ok ([str "*"], iss)
    else
      match iss with
      | [] => .error (str "Expected comma or FROM keyword")
      | token2 :: iss2 =>
        if token2 = str "FROM" then .ok (columns ++ [token], iss2)
        else if token2 ≠ str "," then .error (str "Expected comma or FROM keyword")
        else parseSelectColumns (columns ++ [token]) iss2

/-- Lines 193-200 of `parseSelect` and 219-226 of `parseDelete`: the value of
`stmt.condition` given the words left after the table name.  The first word is
read and only its first letter looked at; each further word is appended with a
blank after it. -/
def whereClause : List Bytes → Bytes
  | [] => []
  | token :: iss =>
    if toUpper (token.headD 0) = 87 then (iss.map (fun t => t ++ [32])).flatten else []

/-- Method `parseSelect` (lines 159-203) on the words left in the stream. -/
def parseSelect (iss : List Bytes) : Except Bytes SQLStatement :=
  match parseSelectColumns [] iss with
  | .error e => .error e
  | .ok (columns, iss2) =>
    match iss2 with
    | [] => .error (str "Expected table name")
    | table_name :: iss3 => .ok (.select ⟨table_name, columns, whereClause iss3⟩)

/-- Method `parseDelete` (lines 205-229) on the words left in the stream. -/
def parseDelete : List Bytes → Except Bytes SQLStatement
  | [] => .error (str "Expected FROM keyword")
  | token :: iss =>
    if toUpper (token.headD 0) ≠ 70 then .error (str "Expected FROM keyword")
    else
      match iss with
      | [] => .error (str "Expected table name")
      | table_name :: iss2 => .ok (.delete ⟨table_name, whereClause iss2⟩)

/-- Method `parse` (lines 12-33): the statement returned, or the message of
the `std::runtime_error` thrown.  The type tags come from `cfg`, no header of
the repository declaring them. -/
def parse (cfg : Config) (query : Bytes) : Except Bytes SQLStatement :=
  match words query with
  | [] => .error (str "Empty query")
  | token :: iss =>
    if token.map toUpper = str "CREATE" then parseCreateTable cfg iss
    else if token.map toUpper = str "INSERT" then parseInsert iss
    else if token.map toUpper = str "SELECT" then parseSelect iss
    else if token.map toUpper = str "DELETE" then parseDelete iss
    else .error (str "Unknown command: " ++ token.map toUpper)

theorem fit_length (size : Nat) (junk : Bytes) : (fit size junk).length = size := by
  simp [fit]

theorem strncpy_length (src : Bytes) (n : Nat) : (strncpy src n).length = n := by
  simp [strncpy]

theorem storeInt_length (v : Int) : (storeInt v).length = 4 := by
  simp [storeInt]

theorem poke_length (mem : Bytes) (off : Nat) (val : Bytes)
    (h : off + val.length ≤ mem.length) : (poke mem off val).length = mem.length := by
  simp only [poke, List.length_append, List.length_take, List.length_drop]
  omega

theorem peek_poke_take (mem : Bytes) (off : Nat) (val : Bytes) (n : Nat)
    (h : off ≤ mem.length) (hn : n ≤ val.length) :
    peek (poke mem off val) off n = val.take n := by
  have h1 : (mem.take off).length = off := by simp [h]
  simp only [peek, poke, List.append_assoc]
  rw [List.drop_append_of_le_length (by omega)]
  rw [List.drop_of_length_le (by omega), List.nil_append]
  rw [List.take_append_of_le_length hn]

theorem peek_poke_same (mem : Bytes) (off : Nat) (val : Bytes) (h : off ≤ mem.length) :
    peek (poke mem off val) off val.length = val := by
  rw [peek_poke_take mem off val val.length h (le_refl _), List.take_length]

theorem getElem?_poke (mem : Bytes) (off : Nat) (val : Bytes)
    (h : off + val.length ≤ mem.length) (i : Nat) :
    (poke mem off val)[i]? =
      if off ≤ i ∧ i < off + val.length then val[i - off]? else mem[i]? := by
  have h1 : (mem.take off).length = off := by simp; omega
  simp only [poke, List.append_assoc]
  by_cases hi : i < off
  · rw [List.getElem?_append_left (by omega)]
    rw [if_neg (by omega)]
    rw [List.getElem?_take_of_lt hi]
  · rw [List.getElem?_append_right (by omega), h1]
    by_cases hj : i < off + val.length
    · rw [List.getElem?_append_left (by omega), if_pos (by omega)]
    · rw [List.getElem?_append_right (by omega), if_neg (by omega), List.getElem?_drop]
      congr 1
      omega

theorem peek_poke_other (mem : Bytes) (off : Nat) (val : Bytes) (off2 n : Nat)
    (h : off + val.length ≤ mem.length)
    (hd : off2 + n ≤ off ∨ off + val.length ≤ off2) :
    peek (poke mem off val) off2 n = peek mem off2 n := by
  apply List.ext_getElem?
  intro i
  simp only [peek]
  by_cases hi : i < n
  · rw [List.getElem?_take_of_lt hi, List.getElem?_take_of_lt hi, List.getElem?_drop,
      List.getElem?_drop, getElem?_poke mem off val h, if_neg (by omega)]
  · rw [List.getElem?_eq_none (by simp; omega), List.getElem?_eq_none (by simp; omega)]

theorem loadInt_storeInt (v : Int) (h : isInt32 v) : loadInt (storeInt v) = v := by
  unfold isInt32 at h
  simp only [loadInt, storeInt, List.getD_cons_zero, List.getD_cons_succ]
  generalize hu : (v % 4294967296).toNat = u
  have hu1 : (u : Int) = v % 4294967296 := by
    rw [← hu]
    exact Int.toNat_of_nonneg (Int.emod_nonneg _ (by decide))
  have hu2 : u < 4294967296 := by
    have := Int.emod_lt_of_pos v (show (0 : Int) < 4294967296 by decide)
    omega
  have hsum : u % 256 % 256 + 256 * (u / 256 % 256 % 256) + 65536 * (u / 65536 % 256 % 256) +
      16777216 * (u / 16777216 % 256 % 256) = u := by omega
  rw [hsum]
  split <;> omega

theorem isInt32_loadInt (b : Bytes) : isInt32 (loadInt b) := by
  unfold isInt32 loadInt
  simp only []
  split <;> omega

theorem c_str_append_zero (s rest : Bytes) (hs : ∀ b ∈ s, b ≠ 0) :
    c_str (s ++ 0 :: rest) = s := by
  induction s with
  | nil => simp [c_str]
  | cons a t ih =>
    have ha : a ≠ 0 := hs a (by simp)
    have ht : ∀ b ∈ t, b ≠ 0 := fun b hb => hs b (by simp [hb])
    have := ih ht
    simp only [c_str] at this
    simp [c_str, ha, this]

/-- A C-string read returns `s` when the object holds `s` and a NUL at the
offset. -/
theorem readCStr_of_peek (mem : Bytes) (off : Nat) (s : Bytes) (hs : ∀ b ∈ s, b ≠ 0)
    (h : peek mem off (s.length + 1) = s ++ [0]) : readCStr mem off = .ok s := by
  have hsplit : mem.drop off = (s ++ [0]) ++ (mem.drop off).drop (s.length + 1) := by
    have := List.take_append_drop (s.length + 1) (mem.drop off)
    rw [← h]
    exact this.symm
  unfold readCStr
  rw [hsplit]
  have hc : ((s ++ [0]) ++ (mem.drop off).drop (s.length + 1)).contains 0 = true := by
    simp
  rw [if_pos hc]
  have : (s ++ [0]) ++ (mem.drop off).drop (s.length + 1)
      = s ++ 0 :: (mem.drop off).drop (s.length + 1) := by simp
  rw [this, c_str_append_zero s _ hs]

theorem c_str_of_no_zero (s : Bytes) (hs : ∀ b ∈ s, b ≠ 0) : c_str s = s := by
  have := c_str_append_zero s [] hs
  unfold c_str at this ⊢
  rw [List.takeWhile_eq_self_iff]
  intro b hb
  simpa using hs b hb

theorem strncpy_take (s : Bytes) (n : Nat) (hs : ∀ b ∈ s, b ≠ 0) (hn : s.length < n) :
    (strncpy s n).take (s.length + 1) = s ++ [0] := by
  unfold strncpy
  rw [c_str_of_no_zero s hs, List.take_take, Nat.min_eq_left (by omega)]
  rw [List.take_append_eq_append_take, List.take_of_length_le (by omega)]
  have : s.length + 1 - s.length = 1 := by omega
  rw [this]
  obtain ⟨m, rfl⟩ : ∃ m, n = m + 1 := ⟨n - 1, by omega⟩
  simp [List.replicate_succ]

/-! ## Blocks of a file -/

theorem readBlocks_fuel (size : Nat) (hs : 0 < size) :
    ∀ (fuel1 fuel2 : Nat) (data : Bytes), data.length ≤ fuel1 → data.length ≤ fuel2 →
      readBlocks size fuel1 data = readBlocks size fuel2 data := by
  intro fuel1
  induction fuel1 with
  | zero =>
    intro fuel2 data h1 _
    have hd : data = [] := List.length_eq_zero.mp (by omega)
    subst hd
    cases fuel2 with
    | zero => rfl
    | succ k =>
      simp only [readBlocks, List.length_nil]
      rw [if_neg (by omega)]
  | succ k ih =>
    intro fuel2 data h1 h2
    cases fuel2 with
    | zero =>
      have hd : data = [] := List.length_eq_zero.mp (by omega)
      subst hd
      simp only [readBlocks, List.length_nil]
      rw [if_neg (by omega)]
    | succ m =>
      simp only [readBlocks]
      by_cases hle : size ≤ data.length
      · rw [if_pos hle, if_pos hle]
        rw [ih m (data.drop size) (by simp; omega) (by simp; omega)]
      · rw [if_neg hle, if_neg hle]

theorem readAll_short (size : Nat) (data : Bytes) (h : data.length < size) :
    readAll size data = [] := by
  unfold readAll
  cases hl : data.length with
  | zero => rfl
  | succ k =>
    simp only [readBlocks]
    rw [if_neg (by omega)]

theorem readAll_cons (size : Nat) (hs : 0 < size) (b rest : Bytes) (hb : b.length = size) :
    readAll size (b ++ rest) = b :: readAll size rest := by
  unfold readAll
  have hl : (b ++ rest).length = (size + rest.length - 1) + 1 := by
    simp [hb]
    omega
  rw [hl]
  simp only [readBlocks]
  rw [if_pos (by simp [hb])]
  have ht : (b ++ rest).take size = b := by
    rw [← hb]
    simp
  have hd : (b ++ rest).drop size = rest := by
    rw [← hb]
    simp
  rw [ht, hd]
  rw [readBlocks_fuel size hs (size + rest.length - 1) rest.length rest (by omega) (le_refl _)]

theorem readAll_blocks (size : Nat) (hs : 0 < size) (blocks : List Bytes) (tail : Bytes)
    (hb : ∀ b ∈ blocks, b.length = size) :
    readAll size (blocks.flatten ++ tail) = blocks ++ readAll size tail := by
  induction blocks with
  | nil => simp
  | cons b bs ih =>
    have h1 : b.length = size := hb b (by simp)
    have h2 : ∀ c ∈ bs, c.length = size := fun c hc => hb c (by simp [hc])
    simp only [List.flatten_cons, List.append_assoc, List.cons_append]
    rw [readAll_cons size hs b _ h1, ih h2]

theorem readAll_flatten (size : Nat) (hs : 0 < size) (blocks : List Bytes)
    (hb : ∀ b ∈ blocks, b.length = size) : readAll size blocks.flatten = blocks := by
  have := readAll_blocks size hs blocks [] hb
  simpa [readAll_short size [] (by simpa using hs)] using this

theorem readBlocks_mem_length (size : Nat) :
    ∀ (fuel : Nat) (data : Bytes), ∀ b ∈ readBlocks size fuel data, b.length = size := by
  intro fuel
  induction fuel with
  | zero => intro data b hb; simp [readBlocks] at hb
  | succ k ih =>
    intro data b hb
    simp only [readBlocks] at hb
    split at hb
    · rcases List.mem_cons.mp hb with h | h
      · subst h
        simp
        omega
      · exact ih _ b h
    · simp at hb

theorem readAll_mem_length (size : Nat) (data : Bytes) :
    ∀ b ∈ readAll size data, b.length = size :=
  readBlocks_mem_length size data.length data

theorem readAll_length_aux (size : Nat) (hs : 0 < size) :
    ∀ (n : Nat) (data : Bytes), data.length = n →
      (readAll size data).length = data.length / size := by
  intro n
  induction n using Nat.strong_induction_on with
  | _ n ih =>
    intro data hn
    by_cases hlt : data.length < size
    · rw [readAll_short size data hlt, Nat.div_eq_of_lt hlt]
      rfl
    · have hsplit : data = data.take size ++ data.drop size := (List.take_append_drop _ _).symm
      have htl : (data.take size).length = size := by simp; omega
      have hrec := ih (data.drop size).length (by simp; omega) (data.drop size) rfl
      have hc := readAll_cons size hs _ (data.drop size) htl
      rw [← hsplit] at hc
      rw [hc, List.length_cons, hrec]
      simp only [List.length_drop]
      have : data.length = (data.length - size) + size := by omega
      conv_rhs => rw [this]
      rw [Nat.add_div_right _ hs]

theorem readAll_length (size : Nat) (hs : 0 < size) (data : Bytes) :
    (readAll size data).length = data.length / size :=
  readAll_length_aux size hs data.length data rfl

/-! ## Column blocks -/

theorem mkColumn_length (cfg : Config) (hwf : cfg.WF) (junk : Bytes) (col : Bytes × Int) :
    (mkColumn cfg junk col).length = cfg.colSize := by
  have h := hwf
  simp only [Config.WF] at h
  unfold mkColumn
  have h1 : (poke (fit cfg.colSize junk) cfg.colName (strncpy col.1 cfg.MAX_COL_NAME)).length
      = cfg.colSize := by
    rw [poke_length _ _ _ (by rw [strncpy_length, fit_length]; omega), fit_length]
  rw [poke_length _ _ _ (by rw [storeInt_length, h1]; omega), h1]

theorem colTypeOf_mkColumn (cfg : Config) (hwf : cfg.WF) (junk : Bytes) (col : Bytes × Int)
    (ht : isInt32 col.2) : colTypeOf cfg (mkColumn cfg junk col) = col.2 := by
  have h := hwf
  simp only [Config.WF] at h
  unfold colTypeOf mkColumn
  have h1 : (poke (fit cfg.colSize junk) cfg.colName (strncpy col.1 cfg.MAX_COL_NAME)).length
      = cfg.colSize := by
    rw [poke_length _ _ _ (by rw [strncpy_length, fit_length]; omega), fit_length]
  have h2 := peek_poke_same
    (poke (fit cfg.colSize junk) cfg.colName (strncpy col.1 cfg.MAX_COL_NAME))
    cfg.colType (storeInt col.2) (by rw [h1]; omega)
  rw [storeInt_length] at h2
  rw [h2, loadInt_storeInt col.2 ht]

theorem colNameOf_mkColumn (cfg : Config) (hwf : cfg.WF) (junk : Bytes) (col : Bytes × Int)
    (h0 : ∀ b ∈ col.1, b ≠ 0) (hl : col.1.length < cfg.MAX_COL_NAME) :
    colNameOf cfg (mkColumn cfg junk col) = .ok col.1 := by
  have h := hwf
  simp only [Config.WF] at h
  unfold colNameOf mkColumn
  apply readCStr_of_peek _ _ _ h0
  have h1 : (poke (fit cfg.colSize junk) cfg.colName (strncpy col.1 cfg.MAX_COL_NAME)).length
      = cfg.colSize := by
    rw [poke_length _ _ _ (by rw [strncpy_length, fit_length]; omega), fit_length]
  rw [peek_poke_other _ _ _ _ _ (by rw [storeInt_length, h1]; omega)
    (by rw [storeInt_length]; omega)]
  rw [peek_poke_take _ _ _ _ (by rw [fit_length]; omega) (by rw [strncpy_length]; omega)]
  exact strncpy_take col.1 cfg.MAX_COL_NAME h0 hl

theorem mkColumns_mem_length (cfg : Config) (hwf : cfg.WF) (junkC : Nat → Bytes) :
    ∀ (columns : List (Bytes × Int)) (i : Nat),
      ∀ b ∈ mkColumns cfg junkC i columns, b.length = cfg.colSize := by
  intro columns
  induction columns with
  | nil => intro i b hb; simp [mkColumns] at hb
  | cons c cs ih =>
    intro i b hb
    simp only [mkColumns, List.mem_cons] at hb
    rcases hb with h | h
    · rw [h]
      exact mkColumn_length cfg hwf _ _
    · exact ih (i + 1) b h

theorem mkColumns_length (cfg : Config) (junkC : Nat → Bytes) :
    ∀ (columns : List (Bytes × Int)) (i : Nat),
      (mkColumns cfg junkC i columns).length = columns.length := by
  intro columns
  induction columns with
  | nil => intro i; rfl
  | cons c cs ih => intro i; simp [mkColumns, ih]

theorem colSize_pos (cfg : Config) (hwf : cfg.WF) : 0 < cfg.colSize := by
  have h := hwf
  simp only [Config.WF] at h
  omega

theorem recSize_pos (cfg : Config) (hwf : cfg.WF) : 0 < cfg.recSize := by
  have h := hwf
  simp only [Config.WF] at h
  omega

/-- What `createTable` leaves in the table file when it returns `true`. -/
theorem createTable_true (cfg : Config) (fs : FS) (db : Database) (junkT : Bytes)
    (junkC : Nat → Bytes) (name : Bytes) (columns : List (Bytes × Int))
    (h : (createTable cfg fs db junkT junkC name columns).1 = .ok true) :
    db.is_open_ = true ∧
    (createTable cfg fs db junkT junkC name columns).2.file (tablePath cfg db name)
      = some (mkColumns cfg junkC 0 columns).flatten := by
  unfold createTable at h ⊢
  cases ho : db.is_open_ with
  | false => simp [ho] at h
  | true =>
    simp only [ho, Bool.not_true, Bool.false_eq_true, if_false] at h ⊢
    cases ht : tableExists cfg fs db name with
    | error e => simp [ht] at h
    | ok b =>
      cases b with
      | true => simp [ht] at h
      | false =>
        simp only [ht] at h ⊢
        split at h
        · simp at h
        · split at h
          · simp at h
          · rename_i h1 h2
            rw [if_neg h1, if_neg h2]
            simp [FS.write]

theorem view_mkColumns (cfg : Config) (hwf : cfg.WF) (junkC : Nat → Bytes) :
    ∀ (columns : List (Bytes × Int)) (i : Nat),
      (∀ c ∈ columns, (∀ b ∈ c.1, b ≠ 0) ∧ c.1.length < cfg.MAX_COL_NAME ∧ isInt32 c.2) →
      (mkColumns cfg junkC i columns).map (fun col => (colNameOf cfg col, colTypeOf cfg col))
        = columns.map (fun c => (Except.ok c.1, c.2)) := by
  intro columns
  induction columns with
  | nil => intro i _; rfl
  | cons c cs ih =>
    intro i hc
    obtain ⟨h0, hl, ht⟩ := hc c (by simp)
    simp only [mkColumns, List.map_cons]
    rw [colNameOf_mkColumn cfg hwf _ c h0 hl, colTypeOf_mkColumn cfg hwf _ c ht]
    rw [ih (i + 1) (fun d hd => hc d (by simp [hd]))]

theorem describe_lines_mkColumns (cfg : Config) (hwf : cfg.WF) (junkC : Nat → Bytes) :
    ∀ (columns : List (Bytes × Int)) (i : Nat),
      (∀ c ∈ columns, (∀ b ∈ c.1, b ≠ 0) ∧ c.1.length < cfg.MAX_COL_NAME ∧ isInt32 c.2) →
      mapE (fun col =>
          match colNameOf cfg col with
          | .error e => .error e
          | .ok n => .ok (n, typeName cfg (colTypeOf cfg col))) (mkColumns cfg junkC i columns)
        = .ok (columns.map (fun c => (c.1, typeName cfg c.2))) := by
  intro columns
  induction columns with
  | nil => intro i _; rfl
  | cons c cs ih =>
    intro i hc
    obtain ⟨h0, hl, ht⟩ := hc c (by simp)
    simp only [mkColumns, mapE, List.map_cons]
    rw [colNameOf_mkColumn cfg hwf _ c h0 hl, colTypeOf_mkColumn cfg hwf _ c ht]
    simp only []
    rw [ih (i + 1) (fun d hd => hc d (by simp [hd]))]

/-- The columns `getTableColumns` reads from a table file that holds exactly the
blocks `createTable` wrote. -/
theorem getTableColumns_of_file (cfg : Config) (hwf : cfg.WF) (fs : FS) (db : Database)
    (name : Bytes) (junkC : Nat → Bytes) (columns : List (Bytes × Int))
    (hf : fs.file (tablePath cfg db name) = some (mkColumns cfg junkC 0 columns).flatten) :
    getTableColumns cfg fs db name = mkColumns cfg junkC 0 columns := by
  unfold getTableColumns
  rw [hf]
  exact readAll_flatten cfg.colSize (colSize_pos cfg hwf) _
    (mkColumns_mem_length cfg hwf junkC columns 0)

/-! ## C4 -/

/-- C4 as stated fails on an empty column list: `createTable` returns `true`
and `describe` then returns `false`, the guard `columns.empty()` of line 325. -/
theorem createTable_empty_describe_false :
    (createTable sampleConfig (freshFS sampleConfig) testDb [] zeroJunk (str "t") []).1
      = .ok true ∧
    describe sampleConfig
      (createTable sampleConfig (freshFS sampleConfig) testDb [] zeroJunk (str "t") []).2
      testDb (str "t") = .ok (false, []) := by
  decide

/-- C4, amended: after `createTable(name, cols)` returned `true` for a non-empty
`cols` whose names hold no NUL byte and are shorter than `MAX_COL_NAME`, and a
table file that is not the catalog file, `describe(name)` returns `true` and
prints the columns of `cols` in order, and the (name, type) list read through
`getTableColumns` is `cols`. -/
theorem createTable_describe (cfg : Config) (hwf : cfg.WF) (fs : FS) (db : Database)
    (junkT : Bytes) (junkC : Nat → Bytes) (name : Bytes) (columns : List (Bytes × Int))
    (hne : columns ≠ [])
    (hcols : ∀ c ∈ columns,
      (∀ b ∈ c.1, b ≠ 0) ∧ c.1.length < cfg.MAX_COL_NAME ∧ isInt32 c.2)
    (_halias : tablePath cfg db name ≠ sysPath cfg db)
    (hct : (createTable cfg fs db junkT junkC name columns).1 = .ok true) :
    describe cfg (createTable cfg fs db junkT junkC name columns).2 db name
      = .ok (true, columns.map (fun c => (c.1, typeName cfg c.2))) ∧
    (getTableColumns cfg (createTable cfg fs db junkT junkC name columns).2 db name).map
        (fun col => (colNameOf cfg col, colTypeOf cfg col))
      = columns.map (fun c => (Except.ok c.1, c.2)) := by
  obtain ⟨hopen, hfile⟩ := createTable_true cfg fs db junkT junkC name columns hct
  have hcols2 := getTableColumns_of_file cfg hwf _ db name junkC columns hfile
  constructor
  · unfold describe
    rw [hcols2, hopen]
    have hnonempty : (mkColumns cfg junkC 0 columns).isEmpty = false := by
      cases columns with
      | nil => exact absurd rfl hne
      | cons c cs => rfl
    simp only [Bool.not_true, Bool.false_eq_true, if_false, hnonempty]
    rw [describe_lines_mkColumns cfg hwf junkC columns 0 hcols]
  · rw [hcols2]
    exact view_mkColumns cfg hwf junkC columns 0 hcols

/-- The scenario of `DatabaseTest.DescribeTable` in the sample configuration. -/
theorem createTable_describe_witness :
    describe sampleConfig
        (createTable sampleConfig (freshFS sampleConfig) testDb [] zeroJunk (str "users")
          (usersColumns sampleConfig)).2 testDb (str "users")
      = .ok (true, [(str "id", str "INT"), (str "name", str "VARCHAR"), (str "age", str "INT")]) ∧
    (getTableColumns sampleConfig
        (createTable sampleConfig (freshFS sampleConfig) testDb [] zeroJunk (str "users")
          (usersColumns sampleConfig)).2 testDb (str "users")).map
        (fun col => (colNameOf sampleConfig col, colTypeOf sampleConfig col))
      = [(Except.ok (str "id"), 0), (Except.ok (str "name"), 2), (Except.ok (str "age"), 0)] :=
  createTable_describe sampleConfig (by decide) (freshFS sampleConfig) testDb [] zeroJunk
    (str "users") (usersColumns sampleConfig) (by decide) (by decide) (by decide) (by decide)

/-! ## Decimal text -/

theorem digitsVal_append_one (ds : Bytes) (d : Nat) :
    digitsVal (ds ++ [d]) = 10 * digitsVal ds + (d - 48) := by
  simp [digitsVal, List.foldl_append]

/-- The digits `decDigits` puts in front of `acc`: a non-empty run of decimal
digits, not starting with a sign or a blank, whose value is `n`. -/
theorem decDigits_spec :
    ∀ (fuel n : Nat) (acc : Bytes), n < fuel →
      ∃ ds : Bytes, decDigits fuel n acc = ds ++ acc ∧ ds ≠ [] ∧
        (∀ d ∈ ds, isDigit d = true) ∧ digitsVal ds = n := by
  intro fuel
  induction fuel with
  | zero => intro n acc h; omega
  | succ k ih =>
    intro n acc h
    by_cases hn : n < 10
    · refine ⟨[48 + n], ?_, by simp, ?_, ?_⟩
      · simp [decDigits, hn]
      · intro d hd
        simp only [List.mem_singleton] at hd
        subst hd
        simp [isDigit]
        omega
      · simp [digitsVal]
    · obtain ⟨ds, h1, _, h3, h4⟩ := ih (n / 10) ((48 + n % 10) :: acc) (by omega)
      refine ⟨ds ++ [48 + n % 10], ?_, by simp, ?_, ?_⟩
      · simp only [decDigits, if_neg hn, h1, List.append_assoc, List.singleton_append]
      · intro d hd
        rcases List.mem_append.mp hd with h | h
        · exact h3 d h
        · simp only [List.mem_singleton] at h
          subst h
          simp [isDigit]
          omega
      · rw [digitsVal_append_one, h4]
        omega

theorem natToString_spec (n : Nat) :
    natToString n ≠ [] ∧ (∀ d ∈ natToString n, isDigit d = true) ∧
      digitsVal (natToString n) = n := by
  obtain ⟨ds, h1, h2, h3, h4⟩ := decDigits_spec (n + 1) n [] (by omega)
  have : natToString n = ds := by simp [natToString, h1]
  rw [this]
  exact ⟨h2, h3, h4⟩

theorem stoi_digits (ds : Bytes) (hne : ds ≠ []) (hd : ∀ d ∈ ds, isDigit d = true)
    (hr : digitsVal ds ≤ 2147483647) : stoi ds = .ok (digitsVal ds : Int) := by
  obtain ⟨d, t, rfl⟩ := List.exists_cons_of_ne_nil hne
  have hd0 : isDigit d = true := hd d (by simp)
  have hsp : isSpace d = false := by
    simp only [isDigit, Bool.and_eq_true, decide_eq_true_eq] at hd0
    simp [isSpace]
    omega
  have h45 : d ≠ 45 := by
    simp only [isDigit, Bool.and_eq_true, decide_eq_true_eq] at hd0
    omega
  have h43 : d ≠ 43 := by
    simp only [isDigit, Bool.and_eq_true, decide_eq_true_eq] at hd0
    omega
  have htw : (d :: t).takeWhile isDigit = d :: t := by
    rw [List.takeWhile_eq_self_iff]
    exact hd
  unfold stoi
  have hb45 : (some d == some 45) = false := by simp [h45]
  have hb43 : (some d == some 43) = false := by simp [h43]
  simp only [List.dropWhile_cons, hsp, Bool.false_eq_true, if_false, List.head?_cons,
    hb45, hb43, Bool.or_self, htw, List.isEmpty_cons]
  rw [if_pos (by omega)]

theorem stoi_minus_digits (ds : Bytes) (hne : ds ≠ []) (hd : ∀ d ∈ ds, isDigit d = true)
    (hr : digitsVal ds ≤ 2147483648) : stoi (45 :: ds) = .ok (-(digitsVal ds : Int)) := by
  have htw : ds.takeWhile isDigit = ds := by
    rw [List.takeWhile_eq_self_iff]
    exact hd
  have hem : ds.isEmpty = false := by
    cases ds with
    | nil => exact absurd rfl hne
    | cons a t => rfl
  unfold stoi
  have hsp : isSpace 45 = false := by decide
  simp only [List.dropWhile_cons, hsp, Bool.false_eq_true, if_false, List.head?_cons,
    beq_self_eq_true, Bool.true_or, if_true, List.tail_cons, htw, hem]
  rw [if_pos (by omega)]

/-- Function `std::stoi` reads back what `std::to_string` printed, for every `int`. -/
theorem stoi_to_string (v : Int) (hv : isInt32 v) : stoi (to_string v) = .ok v := by
  unfold isInt32 at hv
  obtain ⟨h1, h2, h3⟩ := natToString_spec v.natAbs
  unfold to_string
  by_cases hneg : v < 0
  · rw [if_pos hneg, stoi_minus_digits _ h1 h2 (by rw [h3]; omega), h3]
    congr 1
    omega
  · rw [if_neg hneg, stoi_digits _ h1 h2 (by rw [h3]; omega), h3]
    congr 1
    omega

/-! ## C7 -/

theorem convertToString_int (cfg : Config) (hwf : cfg.WF) (rec : Bytes)
    (hrec : rec.length = cfg.recSize) (v : Int) (hv : isInt32 v) :
    convertToString cfg (poke rec cfg.recInt (storeInt v)) cfg.INT = .ok (to_string v) := by
  have h := hwf
  simp only [Config.WF] at h
  have hp := peek_poke_same rec cfg.recInt (storeInt v) (by omega)
  rw [storeInt_length] at hp
  simp only [convertToString, if_true, hp, loadInt_storeInt v hv]

theorem convertToString_str (cfg : Config) (hwf : cfg.WF) (rec : Bytes)
    (hrec : rec.length = cfg.recSize) (s : Bytes) (type : Int)
    (ht : type = cfg.VARCHAR ∨ type = cfg.CHAR) (hs0 : ∀ b ∈ s, b ≠ 0)
    (hsl : s.length < cfg.MAX_STR_LEN) :
    convertToString cfg (poke rec cfg.recStr (strncpy s cfg.MAX_STR_LEN)) type = .ok s := by
  have h := hwf
  simp only [Config.WF] at h
  have h1 : type ≠ cfg.INT := by rcases ht with h' | h' <;> omega
  have h2 : type ≠ cfg.FLOAT := by rcases ht with h' | h' <;> omega
  simp only [convertToString, if_neg h1, if_neg h2, if_pos ht]
  apply readCStr_of_peek _ _ _ hs0
  rw [peek_poke_take _ _ _ _ (by omega) (by rw [strncpy_length]; omega)]
  exact strncpy_take s cfg.MAX_STR_LEN hs0 hsl

theorem convertValue_int (cfg : Config) (value : Bytes) (v : Int) (rec : Bytes)
    (hv : stoi value = .ok v) :
    convertValue cfg value cfg.INT rec = (true, poke rec cfg.recInt (storeInt v)) := by
  simp [convertValue, hv]

theorem convertValue_str (cfg : Config) (hwf : cfg.WF) (value : Bytes) (type : Int)
    (ht : type = cfg.VARCHAR ∨ type = cfg.CHAR) (rec : Bytes) :
    convertValue cfg value type rec
      = (true, poke rec cfg.recStr (strncpy value cfg.MAX_STR_LEN)) := by
  have h := hwf
  simp only [Config.WF] at h
  have h1 : type ≠ cfg.INT := by rcases ht with h' | h' <;> omega
  have h2 : type ≠ cfg.FLOAT := by rcases ht with h' | h' <;> omega
  simp only [convertValue, if_neg h1, if_neg h2, if_pos ht]

/-- C7: for every `int` `n`, `convertValue` accepts the decimal text of `n`
for an `INT` column and `convertToString` of the record gives that text back;
for every string `s` without NUL byte and shorter than `MAX_STR_LEN`,
`convertValue` accepts `s` for a `VARCHAR` or `CHAR` column and
`convertToString` of the record gives `s` back. -/
theorem convert_roundtrip (cfg : Config) (hwf : cfg.WF) (rec : Bytes)
    (hrec : rec.length = cfg.recSize) (n : Int) (hn : isInt32 n)
    (s : Bytes) (type : Int) (ht : type = cfg.VARCHAR ∨ type = cfg.CHAR)
    (hs0 : ∀ b ∈ s, b ≠ 0) (hsl : s.length < cfg.MAX_STR_LEN) :
    ((convertValue cfg (to_string n) cfg.INT rec).1 = true ∧
      convertToString cfg (convertValue cfg (to_string n) cfg.INT rec).2 cfg.INT
        = .ok (to_string n)) ∧
    ((convertValue cfg s type rec).1 = true ∧
      convertToString cfg (convertValue cfg s type rec).2 type = .ok s) := by
  constructor
  · rw [convertValue_int cfg _ n rec (stoi_to_string n hn)]
    exact ⟨rfl, convertToString_int cfg hwf rec hrec n hn⟩
  · rw [convertValue_str cfg hwf s type ht rec]
    exact ⟨rfl, convertToString_str cfg hwf rec hrec s type ht hs0 hsl⟩

/-- The round trip of `-120` and of `John` in the sample configuration. -/
theorem convert_roundtrip_witness :
    ((convertValue sampleConfig (to_string (-120)) sampleConfig.INT (fit 40 [])).1 = true ∧
      convertToString sampleConfig
          (convertValue sampleConfig (to_string (-120)) sampleConfig.INT (fit 40 [])).2
          sampleConfig.INT
        = .ok (to_string (-120))) ∧
    ((convertValue sampleConfig (str "John") sampleConfig.VARCHAR (fit 40 [])).1 = true ∧
      convertToString sampleConfig
          (convertValue sampleConfig (str "John") sampleConfig.VARCHAR (fit 40 [])).2
          sampleConfig.VARCHAR
        = .ok (str "John")) :=
  convert_roundtrip sampleConfig (by decide) (fit 40 []) (by decide) (-120) (by decide)
    (str "John") sampleConfig.VARCHAR (by decide) (by decide) (by decide)

/-! ## `insert` -/

theorem convertValues_length (cfg : Config) (junk : Nat → Bytes) (columns : List Bytes) :
    ∀ (values : List Bytes) (i : Nat) (records : List Bytes),
      convertValues cfg junk columns i values = some records →
      records.length = values.length := by
  intro values
  induction values with
  | nil =>
    intro i records h
    simp only [convertValues, Option.some.injEq] at h
    subst h
    rfl
  | cons v vs ih =>
    intro i records h
    simp only [convertValues] at h
    split at h
    · cases hr : convertValues cfg junk columns (i + 1) vs with
      | none => simp [hr] at h
      | some recs =>
        simp only [hr, Option.map_some', Option.some.injEq] at h
        subst h
        simp [ih (i + 1) recs hr]
    · simp at h

theorem convertValues_none (cfg : Config) (junk : Nat → Bytes) (columns : List Bytes) :
    ∀ (values : List Bytes) (k i : Nat), i < values.length →
      (convertValue cfg (values.getD i []) (colTypeOf cfg (columns.getD (k + i) []))
        (fit cfg.recSize (junk (k + i)))).1 = false →
      convertValues cfg junk columns k values = none := by
  intro values
  induction values with
  | nil => intro k i hi _; simp at hi
  | cons v vs ih =>
    intro k i hi hbad
    simp only [convertValues]
    cases i with
    | zero =>
      simp only [List.getD_cons_zero, Nat.add_zero] at hbad
      simp only [hbad, Bool.false_eq_true, if_false]
    | succ j =>
      simp only [List.getD_cons_succ] at hbad
      have hj : j < vs.length := by simpa using hi
      have hk : k + (j + 1) = (k + 1) + j := by omega
      rw [hk] at hbad
      rw [ih (k + 1) j hj hbad]
      split <;> rfl

/-- What `insert` does when it returns `true`. -/
theorem insert_true (cfg : Config) (fs : FS) (db : Database) (junk : Nat → Bytes)
    (table_name : Bytes) (values : List Bytes)
    (h : (insert cfg fs db junk table_name values).1 = true) :
    db.is_open_ = true ∧
    (getTableColumns cfg fs db table_name).length = values.length ∧
    ∃ old records : List _,
      fs.file (tablePath cfg db table_name) = some old ∧
      convertValues cfg junk (getTableColumns cfg fs db table_name) 0 values = some records ∧
      (insert cfg fs db junk table_name values).2
        = fs.write (tablePath cfg db table_name) (old ++ records.flatten) := by
  unfold insert at h ⊢
  cases ho : db.is_open_ with
  | false => simp [ho] at h
  | true =>
    simp only [ho, Bool.not_true, Bool.false_eq_true, if_false] at h ⊢
    split at h
    · simp at h
    · rename_i hc
      rw [if_neg hc]
      simp only [Bool.or_eq_true, bne_iff_ne, ne_eq, not_or, Decidable.not_not] at hc
      cases hcv : convertValues cfg junk (getTableColumns cfg fs db table_name) 0 values with
      | none => simp [hcv] at h
      | some records =>
        simp only [hcv] at h ⊢
        split at h
        · simp at h
        · rename_i hw
          rw [if_neg hw]
          cases hf : fs.file (tablePath cfg db table_name) with
          | none =>
            have : getTableColumns cfg fs db table_name = [] := by
              simp [getTableColumns, hf]
            rw [this] at hc
            simp at hc
          | some old =>
            exact ⟨trivial, hc.2, old, records, rfl, rfl, by simp [FS.append, hf]⟩

/-- Whenever `insert` returns `false` the files are the ones it was given. -/
theorem insert_false_unchanged (cfg : Config) (fs : FS) (db : Database) (junk : Nat → Bytes)
    (table_name : Bytes) (values : List Bytes)
    (h : (insert cfg fs db junk table_name values).1 = false) :
    (insert cfg fs db junk table_name values).2 = fs := by
  unfold insert at h ⊢
  by_cases h1 : (!db.is_open_) = true
  · simp only [h1, if_true]
  · simp only [h1, if_false] at h ⊢
    by_cases h2 : ((getTableColumns cfg fs db table_name).isEmpty ||
        (getTableColumns cfg fs db table_name).length != values.length) = true
    · simp [h2]
    · simp only [h2, if_false] at h ⊢
      cases hcv : convertValues cfg junk (getTableColumns cfg fs db table_name) 0 values with
      | none => rfl
      | some records =>
        simp only [hcv] at h ⊢
        by_cases h4 : (!fs.canWrite (tablePath cfg db table_name)) = true
        · simp [h4]
        · simp [h4] at h

/-! ## C5 -/

/-- C5: whenever `insert` returns `true`, the new content of the table file is
its previous content followed by the records built from the values, one per
value, so every byte the file held is still at its offset; no other file
changes. -/
theorem insert_appends (cfg : Config) (fs : FS) (db : Database) (junk : Nat → Bytes)
    (table_name : Bytes) (values : List Bytes)
    (h : (insert cfg fs db junk table_name values).1 = true) :
    ∃ old records : List _,
      fs.file (tablePath cfg db table_name) = some old ∧
      convertValues cfg junk (getTableColumns cfg fs db table_name) 0 values = some records ∧
      records.length = values.length ∧
      (insert cfg fs db junk table_name values).2.file (tablePath cfg db table_name)
        = some (old ++ records.flatten) ∧
      (∀ i, i < old.length → (old ++ records.flatten)[i]? = old[i]?) ∧
      (∀ q, q ≠ tablePath cfg db table_name →
        (insert cfg fs db junk table_name values).2.file q = fs.file q) := by
  obtain ⟨_, _, old, records, h1, h2, h3⟩ := insert_true cfg fs db junk table_name values h
  refine ⟨old, records, h1, h2, convertValues_length cfg junk _ values 0 records h2, ?_, ?_, ?_⟩
  · rw [h3]
    simp [FS.write]
  · intro i hi
    exact List.getElem?_append_left hi
  · intro q hq
    rw [h3]
    simp [FS.write, hq]

set_option maxRecDepth 100000 in
/-- The insert of `DatabaseTest.InsertAndSelect` in the sample configuration. -/
theorem insert_appends_witness :
    ∃ old records : List _,
      (usersFS sampleConfig [] zeroJunk).file (tablePath sampleConfig testDb (str "users"))
        = some old ∧
      convertValues sampleConfig zeroJunk
        (getTableColumns sampleConfig (usersFS sampleConfig [] zeroJunk) testDb (str "users")) 0
        [str "1", str "John", str "25"] = some records ∧
      records.length = [str "1", str "John", str "25"].length ∧
      (insert sampleConfig (usersFS sampleConfig [] zeroJunk) testDb zeroJunk (str "users")
          [str "1", str "John", str "25"]).2.file (tablePath sampleConfig testDb (str "users"))
        = some (old ++ records.flatten) ∧
      (∀ i, i < old.length → (old ++ records.flatten)[i]? = old[i]?) ∧
      (∀ q, q ≠ tablePath sampleConfig testDb (str "users") →
        (insert sampleConfig (usersFS sampleConfig [] zeroJunk) testDb zeroJunk (str "users")
          [str "1", str "John", str "25"]).2.file q
          = (usersFS sampleConfig [] zeroJunk).file q) :=
  insert_appends sampleConfig (usersFS sampleConfig [] zeroJunk) testDb zeroJunk (str "users")
    [str "1", str "John", str "25"] (by decide)

/-! ## When `insert` returns `false` -/

/-- Method `insert` returns `false` whenever the number of values differs from
the number of `column_def` blocks `getTableColumns` reads from the file, or
`convertValue` rejects one of the values for the type of its column; and
whenever `insert` returns `false`, the files are unchanged. -/
theorem insert_rejects (cfg : Config) (fs : FS) (db : Database) (junk : Nat → Bytes)
    (table_name : Bytes) (values : List Bytes) :
    ((values.length ≠ (getTableColumns cfg fs db table_name).length ∨
        ∃ i, i < values.length ∧
          (convertValue cfg (values.getD i [])
            (colTypeOf cfg ((getTableColumns cfg fs db table_name).getD i []))
            (fit cfg.recSize (junk i))).1 = false) →
      (insert cfg fs db junk table_name values).1 = false) ∧
    ((insert cfg fs db junk table_name values).1 = false →
      (insert cfg fs db junk table_name values).2 = fs) := by
  refine ⟨?_, insert_false_unchanged cfg fs db junk table_name values⟩
  intro hbad
  cases hr : (insert cfg fs db junk table_name values).1 with
  | false => rfl
  | true =>
    exfalso
    obtain ⟨_, hlen, old, records, _, hcv, _⟩ :=
      insert_true cfg fs db junk table_name values hr
    rcases hbad with hne | ⟨i, hi, hconv⟩
    · exact hne hlen.symm
    · have hz : 0 + i = i := by omega
      have := convertValues_none cfg junk (getTableColumns cfg fs db table_name) values 0 i hi
        (by rw [hz]; exact hconv)
      rw [this] at hcv
      cases hcv

set_option maxRecDepth 100000 in
/-- In the sample configuration `insert` of `abc` for the `INT` column `id`
returns `false` and leaves the files as they were. -/
theorem insert_rejects_witness :
    (insert sampleConfig (usersFS sampleConfig [] zeroJunk) testDb zeroJunk (str "users")
        [str "abc", str "John", str "25"]).1 = false ∧
    (insert sampleConfig (usersFS sampleConfig [] zeroJunk) testDb zeroJunk (str "users")
        [str "abc", str "John", str "25"]).2 = usersFS sampleConfig [] zeroJunk :=
  ⟨(insert_rejects sampleConfig (usersFS sampleConfig [] zeroJunk) testDb zeroJunk
      (str "users") [str "abc", str "John", str "25"]).1
      (Or.inr ⟨0, by decide, by decide⟩),
   (insert_rejects sampleConfig (usersFS sampleConfig [] zeroJunk) testDb zeroJunk
      (str "users") [str "abc", str "John", str "25"]).2 (by decide)⟩

/-! ## The table `users` of the tests -/

theorem createTable_users (cfg : Config) (junkT : Bytes) (junkC : Nat → Bytes) :
    (createTable cfg (freshFS cfg) testDb junkT junkC (str "users") (usersColumns cfg)).1
      = .ok true := by
  simp [createTable, tableExists, listTables, freshFS, testDb, FS.canWrite, FS.append,
    FS.write, readAll, readBlocks, mapE]

theorem usersFS_file (cfg : Config) (junkT : Bytes) (junkC : Nat → Bytes) :
    (usersFS cfg junkT junkC).file (tablePath cfg testDb (str "users"))
      = some (mkColumns cfg junkC 0 (usersColumns cfg)).flatten :=
  (createTable_true cfg (freshFS cfg) testDb junkT junkC (str "users") (usersColumns cfg)
    (createTable_users cfg junkT junkC)).2

theorem usersFS_columns (cfg : Config) (hwf : cfg.WF) (junkT : Bytes) (junkC : Nat → Bytes) :
    getTableColumns cfg (usersFS cfg junkT junkC) testDb (str "users")
      = mkColumns cfg junkC 0 (usersColumns cfg) :=
  getTableColumns_of_file cfg hwf _ testDb (str "users") junkC (usersColumns cfg)
    (usersFS_file cfg junkT junkC)

/-- The three records `insert(["1", "John", "25"])` builds for `users`. -/
theorem users_convertValues (cfg : Config) (hwf : cfg.WF) (junkC junk : Nat → Bytes) :
    convertValues cfg junk (mkColumns cfg junkC 0 (usersColumns cfg)) 0
        [str "1", str "John", str "25"]
      = some [poke (fit cfg.recSize (junk 0)) cfg.recInt (storeInt 1),
          poke (fit cfg.recSize (junk 1)) cfg.recStr (strncpy (str "John") cfg.MAX_STR_LEN),
          poke (fit cfg.recSize (junk 2)) cfg.recInt (storeInt 25)] := by
  have h := hwf
  simp only [Config.WF] at h
  have t0 : colTypeOf cfg (mkColumn cfg (junkC 0) (str "id", cfg.INT)) = cfg.INT :=
    colTypeOf_mkColumn cfg hwf _ _ h.2.2.2.2.2.2.1
  have t1 : colTypeOf cfg (mkColumn cfg (junkC 1) (str "name", cfg.VARCHAR)) = cfg.VARCHAR :=
    colTypeOf_mkColumn cfg hwf _ _ h.2.2.2.2.2.2.2.2.1
  have t2 : colTypeOf cfg (mkColumn cfg (junkC 2) (str "age", cfg.INT)) = cfg.INT :=
    colTypeOf_mkColumn cfg hwf _ _ h.2.2.2.2.2.2.1
  have s1 : stoi (str "1") = .ok 1 := by decide
  have s25 : stoi (str "25") = .ok 25 := by decide
  simp only [convertValues, usersColumns, mkColumns, List.getD_cons_zero, List.getD_cons_succ,
    Nat.zero_add, Nat.reduceAdd, t0, t1, t2,
    convertValue_int cfg _ 1 _ s1, convertValue_int cfg _ 25 _ s25,
    convertValue_str cfg hwf (str "John") cfg.VARCHAR (Or.inl rfl), if_true, Option.map_some']

/-- The files after `insert(["1", "John", "25"])` into `users`: the call returns
`true` and the file is the three `column_def` followed by the three records. -/
theorem users_insert (cfg : Config) (hwf : cfg.WF) (junkT : Bytes) (junkC junk : Nat → Bytes) :
    (insert cfg (usersFS cfg junkT junkC) testDb junk (str "users")
        [str "1", str "John", str "25"]).1 = true ∧
    ∃ data : Bytes,
      (insert cfg (usersFS cfg junkT junkC) testDb junk (str "users")
        [str "1", str "John", str "25"]).2.file (tablePath cfg testDb (str "users"))
        = some ((mkColumns cfg junkC 0 (usersColumns cfg)).flatten ++ data) ∧
      data.length = 3 * cfg.recSize := by
  have h := hwf
  simp only [Config.WF] at h
  have hcols := usersFS_columns cfg hwf junkT junkC
  have hfile := usersFS_file cfg junkT junkC
  have hcv := users_convertValues cfg hwf junkC junk
  have hins : insert cfg (usersFS cfg junkT junkC) testDb junk (str "users")
      [str "1", str "John", str "25"]
      = (true, (usersFS cfg junkT junkC).append (tablePath cfg testDb (str "users"))
          [poke (fit cfg.recSize (junk 0)) cfg.recInt (storeInt 1),
            poke (fit cfg.recSize (junk 1)) cfg.recStr (strncpy (str "John") cfg.MAX_STR_LEN),
            poke (fit cfg.recSize (junk 2)) cfg.recInt (storeInt 25)].flatten) := by
    have ho : testDb.is_open_ = true := rfl
    have hl : (mkColumns cfg junkC 0 (usersColumns cfg)).length = 3 := rfl
    have he : (mkColumns cfg junkC 0 (usersColumns cfg)).isEmpty = false := rfl
    unfold insert
    simp only [hcols, hcv]
    simp [ho, hl, he, FS.canWrite, hfile]
  rw [hins]
  refine ⟨rfl, [poke (fit cfg.recSize (junk 0)) cfg.recInt (storeInt 1),
    poke (fit cfg.recSize (junk 1)) cfg.recStr (strncpy (str "John") cfg.MAX_STR_LEN),
    poke (fit cfg.recSize (junk 2)) cfg.recInt (storeInt 25)].flatten, ?_, ?_⟩
  · simp only [FS.append, FS.write, hfile, if_true, Option.getD_some]
  · simp only [List.flatten_cons, List.flatten_nil, List.append_nil, List.length_append]
    rw [poke_length _ _ _ (by rw [storeInt_length, fit_length]; omega),
      poke_length _ _ _ (by rw [strncpy_length, fit_length]; omega),
      poke_length _ _ _ (by rw [storeInt_length, fit_length]; omega)]
    simp only [fit_length]
    omega

theorem users_header_length (cfg : Config) (hwf : cfg.WF) (junkC : Nat → Bytes) :
    (mkColumns cfg junkC 0 (usersColumns cfg)).flatten.length = 3 * cfg.colSize := by
  simp only [usersColumns, mkColumns, List.flatten_cons, List.flatten_nil, List.append_nil,
    List.length_append, mkColumn_length cfg hwf]
  omega

/-! ## `select` and `delete_` with the empty condition -/

theorem evaluateCondition_empty (cfg : Config) (rec : Bytes) (columns : List Bytes) :
    evaluateCondition cfg rec columns [] = .ok true := by
  simp [evaluateCondition]

theorem selectLoop_empty_length (cfg : Config) (table_columns : List Bytes)
    (selected_indices : List Nat) :
    ∀ (records : List Bytes) (rows : List (List Bytes)),
      selectLoop cfg table_columns selected_indices [] records = (.ok true, rows) →
      rows.length = records.length := by
  intro records
  induction records with
  | nil =>
    intro rows h
    simp only [selectLoop, Prod.mk.injEq, true_and] at h
    subst h
    rfl
  | cons r rs ih =>
    intro rows h
    simp only [selectLoop, evaluateCondition_empty] at h
    cases hp : projectRow cfg table_columns selected_indices r with
    | error e => simp [hp] at h
    | ok row =>
      simp only [hp, Prod.mk.injEq] at h
      obtain ⟨h1, h2⟩ := h
      subst h2
      simp only [List.length_cons]
      rw [ih _ (Prod.ext h1 rfl)]

theorem deleteLoop_empty (cfg : Config) (columns : List Bytes) :
    ∀ records : List Bytes, deleteLoop cfg columns [] records = .ok [] := by
  intro records
  induction records with
  | nil => rfl
  | cons r rs ih => simp [deleteLoop, evaluateCondition_empty, ih]

/-- With the empty condition `delete_` leaves an empty table file. -/
theorem delete_empty_condition (cfg : Config) (fs : FS) (db : Database) (table_name : Bytes)
    (hopen : db.is_open_ = true) (hcols : getTableColumns cfg fs db table_name ≠ []) :
    delete_ cfg fs db table_name [] = (.ok true, fs.write (tablePath cfg db table_name) []) := by
  unfold delete_
  have hne : (getTableColumns cfg fs db table_name).isEmpty = false := by
    cases hc : getTableColumns cfg fs db table_name with
    | nil => exact absurd hc hcols
    | cons a t => rfl
  cases hf : fs.file (tablePath cfg db table_name) with
  | none =>
    exfalso
    apply hcols
    simp [getTableColumns, hf]
  | some data =>
    simp [hopen, hne, deleteLoop_empty, FS.canWrite, hf]

theorem getTableColumns_write_nil (cfg : Config) (fs : FS) (db : Database) (table_name : Bytes) :
    getTableColumns cfg (fs.write (tablePath cfg db table_name) []) db table_name = [] := by
  simp [getTableColumns, FS.write, readAll, readBlocks]

theorem select_star_empty (cfg : Config) (fs : FS) (db : Database) (table_name data : Bytes)
    (hopen : db.is_open_ = true) (hf : fs.file (tablePath cfg db table_name) = some data)
    (hcols : getTableColumns cfg fs db table_name ≠ []) :
    select cfg fs db table_name [str "*"] []
      = selectLoop cfg (getTableColumns cfg fs db table_name)
          (List.range (getTableColumns cfg fs db table_name).length) []
          (readAll cfg.recSize data) := by
  have hne : (getTableColumns cfg fs db table_name).isEmpty = false := by
    cases hc : getTableColumns cfg fs db table_name with
    | nil => exact absurd hc hcols
    | cons a t => rfl
  unfold select
  simp [hopen, hne, selectIndices, hf]

theorem select_closed_table (cfg : Config) (fs : FS) (db : Database) (table_name : Bytes)
    (condition : Bytes) (cols : List Bytes)
    (hcols : getTableColumns cfg fs db table_name = []) :
    select cfg fs db table_name cols condition = (.ok false, []) := by
  unfold select
  simp [hcols]

/-- The column list read from `users` after the insert is not empty. -/
theorem users_after_insert_columns (cfg : Config) (hwf : cfg.WF) (fs : FS) (data : Bytes)
    (junkC : Nat → Bytes)
    (hf : fs.file (tablePath cfg testDb (str "users"))
      = some ((mkColumns cfg junkC 0 (usersColumns cfg)).flatten ++ data)) :
    getTableColumns cfg fs testDb (str "users") ≠ [] := by
  unfold getTableColumns
  rw [hf]
  simp only []
  rw [readAll_blocks cfg.colSize (colSize_pos cfg hwf) _ _
    (mkColumns_mem_length cfg hwf junkC (usersColumns cfg) 0)]
  simp [usersColumns, mkColumns]

/-! ## C1 -/

/-- C1 on the scenario of `DatabaseTest.InsertAndSelect`: after
`createTable("users", [id INT, name VARCHAR, age INT])` and a successful
`insert(["1", "John", "25"])`, `select(["*"], "")` does not deliver the one row
`["1", "John", "25"]`: the read loop starts at the first byte of the file, so
whenever it returns `true` it called the callback once for every
`sizeof(record)` bytes of the header and of the three stored values, at least
three times. -/
theorem select_after_insert_not_the_row (cfg : Config) (hwf : cfg.WF) (junkT : Bytes)
    (junkC junk : Nat → Bytes) :
    (insert cfg (usersFS cfg junkT junkC) testDb junk (str "users")
        [str "1", str "John", str "25"]).1 = true ∧
    select cfg
        (insert cfg (usersFS cfg junkT junkC) testDb junk (str "users")
          [str "1", str "John", str "25"]).2 testDb (str "users") [str "*"] []
      ≠ (.ok true, [[str "1", str "John", str "25"]]) ∧
    ∀ rows,
      select cfg
          (insert cfg (usersFS cfg junkT junkC) testDb junk (str "users")
            [str "1", str "John", str "25"]).2 testDb (str "users") [str "*"] []
        = (.ok true, rows) →
      rows.length = (3 * cfg.colSize + 3 * cfg.recSize) / cfg.recSize ∧ 3 ≤ rows.length := by
  obtain ⟨hins, data, hfile, hlen⟩ := users_insert cfg hwf junkT junkC junk
  have hcount : ∀ rows,
      select cfg
          (insert cfg (usersFS cfg junkT junkC) testDb junk (str "users")
            [str "1", str "John", str "25"]).2 testDb (str "users") [str "*"] []
        = (.ok true, rows) →
      rows.length = (3 * cfg.colSize + 3 * cfg.recSize) / cfg.recSize ∧ 3 ≤ rows.length := by
    intro rows hsel
    rw [select_star_empty cfg _ testDb (str "users") _ rfl hfile
      (users_after_insert_columns cfg hwf _ data junkC hfile)] at hsel
    have hl := selectLoop_empty_length cfg _ _ _ rows hsel
    rw [readAll_length cfg.recSize (recSize_pos cfg hwf), List.length_append,
      users_header_length cfg hwf junkC, hlen] at hl
    refine ⟨hl, ?_⟩
    rw [hl]
    have hpos := recSize_pos cfg hwf
    rw [Nat.le_div_iff_mul_le hpos]
    omega
  refine ⟨hins, ?_, hcount⟩
  intro hsel
  have := (hcount _ hsel).2
  simp at this

set_option maxRecDepth 100000 in
/-- In the sample configuration the `select` of `DatabaseTest.InsertAndSelect`
returns `true` after five calls of the callback. -/
theorem select_after_insert_witness :
    sampleConfig.WF ∧
    (select sampleConfig
        (insert sampleConfig (usersFS sampleConfig [] zeroJunk) testDb zeroJunk (str "users")
          [str "1", str "John", str "25"]).2 testDb (str "users") [str "*"] []).1 = .ok true ∧
    (select sampleConfig
        (insert sampleConfig (usersFS sampleConfig [] zeroJunk) testDb zeroJunk (str "users")
          [str "1", str "John", str "25"]).2 testDb (str "users") [str "*"] []).2.length
      = (3 * 36 + 3 * 40) / 40 :=
  ⟨by decide, by decide,
    ((select_after_insert_not_the_row sampleConfig (by decide) [] zeroJunk zeroJunk).2.2 _
      (Prod.ext (by decide) rfl)).1⟩

/-! ## C2 -/

/-- C2 on the table of the tests: after `insert(["1", "John", "25"])`,
`delete_("users", "")` returns `true`; the condition matches every row, so the
claim expects `select(["*"], "")` to return `true` with no row, but the rewrite
also dropped the column definitions and `select` returns `false`. -/
theorem select_after_delete_fails (cfg : Config) (hwf : cfg.WF) (junkT : Bytes)
    (junkC junk : Nat → Bytes) :
    (delete_ cfg
        (insert cfg (usersFS cfg junkT junkC) testDb junk (str "users")
          [str "1", str "John", str "25"]).2 testDb (str "users") []).1 = .ok true ∧
    select cfg
        (delete_ cfg
          (insert cfg (usersFS cfg junkT junkC) testDb junk (str "users")
            [str "1", str "John", str "25"]).2 testDb (str "users") []).2
        testDb (str "users") [str "*"] []
      = (.ok false, []) := by
  obtain ⟨_, data, hfile, _⟩ := users_insert cfg hwf junkT junkC junk
  rw [delete_empty_condition cfg _ testDb (str "users") rfl
    (users_after_insert_columns cfg hwf _ data junkC hfile)]
  exact ⟨rfl, select_closed_table cfg _ testDb (str "users") [] [str "*"]
    (getTableColumns_write_nil cfg _ testDb (str "users"))⟩

/-- The same two calls in the sample configuration. -/
theorem select_after_delete_witness :
    sampleConfig.WF ∧
    (delete_ sampleConfig
        (insert sampleConfig (usersFS sampleConfig [] zeroJunk) testDb zeroJunk (str "users")
          [str "1", str "John", str "25"]).2 testDb (str "users") []).1 = .ok true ∧
    select sampleConfig
        (delete_ sampleConfig
          (insert sampleConfig (usersFS sampleConfig [] zeroJunk) testDb zeroJunk (str "users")
            [str "1", str "John", str "25"]).2 testDb (str "users") []).2
        testDb (str "users") [str "*"] []
      = (.ok false, []) :=
  ⟨by decide, select_after_delete_fails sampleConfig (by decide) [] zeroJunk zeroJunk⟩

/-! ## C3 -/

/-- C3 on the table of the tests: `getTableColumns` reads three columns, of
types `INT`, `VARCHAR`, `INT`, from the new table `users`;
`delete_("users", "")` returns `true` and leaves an empty file, from which
`getTableColumns` reads no column. -/
theorem delete_drops_schema (cfg : Config) (hwf : cfg.WF) (junkT : Bytes)
    (junkC : Nat → Bytes) :
    (getTableColumns cfg (usersFS cfg junkT junkC) testDb (str "users")).map (colTypeOf cfg)
      = [cfg.INT, cfg.VARCHAR, cfg.INT] ∧
    (delete_ cfg (usersFS cfg junkT junkC) testDb (str "users") []).1 = .ok true ∧
    (delete_ cfg (usersFS cfg junkT junkC) testDb (str "users") []).2.file
        (tablePath cfg testDb (str "users")) = some [] ∧
    getTableColumns cfg (delete_ cfg (usersFS cfg junkT junkC) testDb (str "users") []).2
        testDb (str "users") = [] := by
  have h := hwf
  simp only [Config.WF] at h
  have hcols := usersFS_columns cfg hwf junkT junkC
  have hne : getTableColumns cfg (usersFS cfg junkT junkC) testDb (str "users") ≠ [] := by
    rw [hcols]
    simp [usersColumns, mkColumns]
  rw [delete_empty_condition cfg _ testDb (str "users") rfl hne]
  refine ⟨?_, rfl, by simp [FS.write], getTableColumns_write_nil cfg _ testDb (str "users")⟩
  rw [hcols]
  simp only [usersColumns, mkColumns, List.map_cons, List.map_nil]
  rw [colTypeOf_mkColumn cfg hwf _ (str "id", cfg.INT) h.2.2.2.2.2.2.1,
    colTypeOf_mkColumn cfg hwf _ (str "name", cfg.VARCHAR) h.2.2.2.2.2.2.2.2.1,
    colTypeOf_mkColumn cfg hwf _ (str "age", cfg.INT) h.2.2.2.2.2.2.1]

/-- The same call in the sample configuration. -/
theorem delete_drops_schema_witness :
    sampleConfig.WF ∧
    (getTableColumns sampleConfig (usersFS sampleConfig [] zeroJunk) testDb (str "users")).map
        (colTypeOf sampleConfig) = [0, 2, 0] ∧
    (delete_ sampleConfig (usersFS sampleConfig [] zeroJunk) testDb (str "users") []).1
      = .ok true ∧
    (delete_ sampleConfig (usersFS sampleConfig [] zeroJunk) testDb (str "users") []).2.file
        (tablePath sampleConfig testDb (str "users")) = some [] ∧
    getTableColumns sampleConfig
        (delete_ sampleConfig (usersFS sampleConfig [] zeroJunk) testDb (str "users") []).2
        testDb (str "users") = [] :=
  ⟨by decide, delete_drops_schema sampleConfig (by decide) [] zeroJunk⟩

/-! ## `evaluateCondition` -/

/-- A condition of three words on a column of the schema is the operator
applied to the text of the column value and to the third word. -/
theorem evaluateCondition_clause (cfg : Config) (rec : Bytes) (columns : List Bytes)
    (condition col_name op value r1 r2 r3 : Bytes) (i : Nat) (col col_value : Bytes)
    (h1 : nextWord condition = some (col_name, r1)) (h2 : nextWord r1 = some (op, r2))
    (h3 : nextWord r2 = some (value, r3))
    (hcol : findColumn cfg col_name columns = .ok (some (i, col)))
    (hval : convertToString cfg rec (colTypeOf cfg col) = .ok col_value) :
    evaluateCondition cfg rec columns condition
      = applyOp cfg op (colTypeOf cfg col) col_value value := by
  have hne : condition.isEmpty = false := by
    cases condition with
    | nil => simp [nextWord] at h1
    | cons a t => rfl
  simp only [evaluateCondition, hne, Bool.false_eq_true, if_false, h1, h2, h3, hcol, hval]

theorem convertToString_INT (cfg : Config) (rec : Bytes) :
    convertToString cfg rec cfg.INT = .ok (to_string (loadInt (peek rec cfg.recInt 4))) := by
  simp [convertToString]

theorem applyOp_eq (cfg : Config) (type : Int) (a b : Bytes) :
    applyOp cfg (str "=") type a b = .ok (a == b) := by
  simp [applyOp]

theorem applyOp_ne (cfg : Config) (type : Int) (a b : Bytes) :
    applyOp cfg (str "!=") type a b = .ok (a != b) := by
  unfold applyOp
  rw [if_neg (by decide), if_pos rfl]

theorem applyOp_lt_int (cfg : Config) (a b : Bytes) :
    applyOp cfg (str "<") cfg.INT a b = cmpWith stoi (fun x y => decide (x < y)) a b := by
  unfold applyOp
  rw [if_neg (by decide), if_neg (by decide), if_pos rfl, if_pos rfl]

theorem applyOp_gt_int (cfg : Config) (a b : Bytes) :
    applyOp cfg (str ">") cfg.INT a b = cmpWith stoi (fun x y => decide (x > y)) a b := by
  unfold applyOp
  rw [if_neg (by decide), if_neg (by decide), if_neg (by decide), if_pos rfl, if_pos rfl]

theorem applyOp_le_int (cfg : Config) (a b : Bytes) :
    applyOp cfg (str "<=") cfg.INT a b = cmpWith stoi (fun x y => decide (x ≤ y)) a b := by
  unfold applyOp
  rw [if_neg (by decide), if_neg (by decide), if_neg (by decide), if_neg (by decide),
    if_pos rfl, if_pos rfl]

theorem applyOp_ge_int (cfg : Config) (a b : Bytes) :
    applyOp cfg (str ">=") cfg.INT a b = cmpWith stoi (fun x y => decide (x ≥ y)) a b := by
  unfold applyOp
  rw [if_neg (by decide), if_neg (by decide), if_neg (by decide), if_neg (by decide),
    if_neg (by decide), if_pos rfl, if_pos rfl]

theorem cmpWith_stoi_ok (rel : Int → Int → Bool) (v n : Int) (hv : isInt32 v) (lit : Bytes)
    (hlit : stoi lit = .ok n) : cmpWith stoi rel (to_string v) lit = .ok (rel v n) := by
  simp [cmpWith, stoi_to_string v hv, hlit]

theorem cmpWith_stoi_error (rel : Int → Int → Bool) (v : Int) (hv : isInt32 v) (lit : Bytes)
    (e : Fault) (hlit : stoi lit = .error e) :
    cmpWith stoi rel (to_string v) lit = .error e := by
  simp [cmpWith, stoi_to_string v hv, hlit]

/-! ## C8 -/

/-- C8: for a condition `<column> <op> <literal>` on an `INT` column holding `v`
and a literal that `std::stoi` reads as `n`, the operators `<`, `>`, `<=`, `>=`
return the numeric relation between `v` and `n`, but `=` and `!=` compare the
decimal text of `v` with the literal as strings. -/
theorem int_comparison (cfg : Config) (rec : Bytes) (columns : List Bytes)
    (condition col_name op lit r1 r2 r3 : Bytes) (i : Nat) (col : Bytes) (n : Int)
    (h1 : nextWord condition = some (col_name, r1)) (h2 : nextWord r1 = some (op, r2))
    (h3 : nextWord r2 = some (lit, r3))
    (hcol : findColumn cfg col_name columns = .ok (some (i, col)))
    (htype : colTypeOf cfg col = cfg.INT) (hlit : stoi lit = .ok n) :
    (op = str "<" → evaluateCondition cfg rec columns condition
      = .ok (decide (loadInt (peek rec cfg.recInt 4) < n))) ∧
    (op = str ">" → evaluateCondition cfg rec columns condition
      = .ok (decide (loadInt (peek rec cfg.recInt 4) > n))) ∧
    (op = str "<=" → evaluateCondition cfg rec columns condition
      = .ok (decide (loadInt (peek rec cfg.recInt 4) ≤ n))) ∧
    (op = str ">=" → evaluateCondition cfg rec columns condition
      = .ok (decide (loadInt (peek rec cfg.recInt 4) ≥ n))) ∧
    (op = str "=" → evaluateCondition cfg rec columns condition
      = .ok (to_string (loadInt (peek rec cfg.recInt 4)) == lit)) ∧
    (op = str "!=" → evaluateCondition cfg rec columns condition
      = .ok (to_string (loadInt (peek rec cfg.recInt 4)) != lit)) := by
  have hv : convertToString cfg rec (colTypeOf cfg col)
      = .ok (to_string (loadInt (peek rec cfg.recInt 4))) := by
    rw [htype, convertToString_INT]
  have hev := evaluateCondition_clause cfg rec columns condition col_name op lit r1 r2 r3 i col
    _ h1 h2 h3 hcol hv
  have hr := isInt32_loadInt (peek rec cfg.recInt 4)
  rw [hev, htype]
  refine ⟨?_, ?_, ?_, ?_, ?_, ?_⟩ <;> intro hop <;> subst hop
  · rw [applyOp_lt_int, cmpWith_stoi_ok _ _ n hr lit hlit]
  · rw [applyOp_gt_int, cmpWith_stoi_ok _ _ n hr lit hlit]
  · rw [applyOp_le_int, cmpWith_stoi_ok _ _ n hr lit hlit]
  · rw [applyOp_ge_int, cmpWith_stoi_ok _ _ n hr lit hlit]
  · rw [applyOp_eq]
  · rw [applyOp_ne]

/-- For `age` = 25 in the sample configuration, `age = 025` is `false` while
`age <= 025` and `age >= 025` are `true`. -/
theorem int_comparison_witness :
    evaluateCondition sampleConfig rec25 sampleColumns (str "age = 025") = .ok false ∧
    evaluateCondition sampleConfig rec25 sampleColumns (str "age <= 025") = .ok true ∧
    evaluateCondition sampleConfig rec25 sampleColumns (str "age >= 025") = .ok true :=
  ⟨(int_comparison sampleConfig rec25 sampleColumns (str "age = 025") (str "age") (str "=")
      (str "025") (str " = 025") (str " 025") [] 2 (sampleColumns.getD 2 []) 25
      (by decide) (by decide) (by decide) (by decide) (by decide) (by decide)).2.2.2.2.1 rfl,
   (int_comparison sampleConfig rec25 sampleColumns (str "age <= 025") (str "age") (str "<=")
      (str "025") (str " <= 025") (str " 025") [] 2 (sampleColumns.getD 2 []) 25
      (by decide) (by decide) (by decide) (by decide) (by decide) (by decide)).2.2.1 rfl,
   (int_comparison sampleConfig rec25 sampleColumns (str "age >= 025") (str "age") (str ">=")
      (str "025") (str " >= 025") (str " 025") [] 2 (sampleColumns.getD 2 []) 25
      (by decide) (by decide) (by decide) (by decide) (by decide) (by decide)).2.2.2.1 rfl⟩

/-! ## C9 -/

theorem to_string_ne_of_stoi_error (v : Int) (hv : isInt32 v) (lit : Bytes) (e : Fault)
    (hlit : stoi lit = .error e) : to_string v ≠ lit := by
  intro h
  rw [← h, stoi_to_string v hv] at hlit
  cases hlit

/-- C9 on an `INT` column: for a condition `<column> <op> <literal>` whose
literal `std::stoi` rejects with the exception `e`, the operators `<`, `>`,
`<=`, `>=` do not return: `evaluateCondition` leaves by the exception `e`; and
`!=` returns `true`. -/
theorem unparsable_literal (cfg : Config) (rec : Bytes) (columns : List Bytes)
    (condition col_name op lit r1 r2 r3 : Bytes) (i : Nat) (col : Bytes) (e : Fault)
    (h1 : nextWord condition = some (col_name, r1)) (h2 : nextWord r1 = some (op, r2))
    (h3 : nextWord r2 = some (lit, r3))
    (hcol : findColumn cfg col_name columns = .ok (some (i, col)))
    (htype : colTypeOf cfg col = cfg.INT) (hlit : stoi lit = .error e) :
    (op ∈ [str "<", str ">", str "<=", str ">="] →
      evaluateCondition cfg rec columns condition = .error e) ∧
    (op = str "!=" → evaluateCondition cfg rec columns condition = .ok true) := by
  have hv : convertToString cfg rec (colTypeOf cfg col)
      = .ok (to_string (loadInt (peek rec cfg.recInt 4))) := by
    rw [htype, convertToString_INT]
  have hev := evaluateCondition_clause cfg rec columns condition col_name op lit r1 r2 r3 i col
    _ h1 h2 h3 hcol hv
  have hr := isInt32_loadInt (peek rec cfg.recInt 4)
  rw [hev, htype]
  constructor
  · intro hop
    simp only [List.mem_cons, List.mem_singleton, List.not_mem_nil, or_false] at hop
    rcases hop with rfl | rfl | rfl | rfl
    · rw [applyOp_lt_int, cmpWith_stoi_error _ _ hr lit e hlit]
    · rw [applyOp_gt_int, cmpWith_stoi_error _ _ hr lit e hlit]
    · rw [applyOp_le_int, cmpWith_stoi_error _ _ hr lit e hlit]
    · rw [applyOp_ge_int, cmpWith_stoi_error _ _ hr lit e hlit]
  · intro hop
    subst hop
    rw [applyOp_ne]
    have := to_string_ne_of_stoi_error _ hr lit e hlit
    simp [this]

/-- In the sample configuration `age > abc` ends in `std::invalid_argument`,
in `select` and in `delete_` as well, and `age != abc` matches. -/
theorem unparsable_literal_witness :
    evaluateCondition sampleConfig rec25 sampleColumns (str "age > abc")
      = .error .invalid_argument ∧
    evaluateCondition sampleConfig rec25 sampleColumns (str "age != abc") = .ok true ∧
    (select sampleConfig (usersFS sampleConfig [] zeroJunk) testDb (str "users") [str "*"]
      (str "age > abc")).1 = .error .invalid_argument ∧
    (delete_ sampleConfig (usersFS sampleConfig [] zeroJunk) testDb (str "users")
      (str "age > abc")).1 = .error .invalid_argument :=
  ⟨(unparsable_literal sampleConfig rec25 sampleColumns (str "age > abc") (str "age") (str ">")
      (str "abc") (str " > abc") (str " abc") [] 2 (sampleColumns.getD 2 []) .invalid_argument
      (by decide) (by decide) (by decide) (by decide) (by decide) (by decide)).1 (by decide),
   (unparsable_literal sampleConfig rec25 sampleColumns (str "age != abc") (str "age")
      (str "!=") (str "abc") (str " != abc") (str " abc") [] 2 (sampleColumns.getD 2 [])
      .invalid_argument
      (by decide) (by decide) (by decide) (by decide) (by decide) (by decide)).2 rfl,
   by decide, by decide⟩

/-! ## A condition on an absent column -/

theorem findColumn_absent (cfg : Config) (col_name : Bytes) :
    ∀ columns : List Bytes,
      (∀ c ∈ columns, (colNameOf cfg c).isOk = true ∧ colNameOf cfg c ≠ .ok col_name) →
      findColumn cfg col_name columns = .ok none := by
  intro columns
  induction columns with
  | nil => intro _; rfl
  | cons c cs ih =>
    intro h
    obtain ⟨hok, hne⟩ := h c (by simp)
    cases hn : colNameOf cfg c with
    | error e => simp [hn, Except.isOk, Except.toBool] at hok
    | ok n =>
      have hne2 : n ≠ col_name := by
        intro heq
        apply hne
        rw [hn, heq]
      simp only [findColumn, hn, if_neg hne2, ih (fun d hd => h d (by simp [hd]))]

theorem evaluateCondition_absent (cfg : Config) (rec : Bytes) (columns : List Bytes)
    (condition col_name rest : Bytes) (hword : nextWord condition = some (col_name, rest))
    (habs : ∀ c ∈ columns, (colNameOf cfg c).isOk = true ∧ colNameOf cfg c ≠ .ok col_name) :
    evaluateCondition cfg rec columns condition = .ok false := by
  have hne : condition.isEmpty = false := by
    cases condition with
    | nil => simp [nextWord] at hword
    | cons a t => rfl
  simp only [evaluateCondition, hne, Bool.false_eq_true, if_false, hword]
  cases h2 : nextWord rest with
  | none => rfl
  | some p2 =>
    obtain ⟨op, r2⟩ := p2
    simp only []
    cases h3 : nextWord r2 with
    | none => rfl
    | some p3 =>
      obtain ⟨value, r3⟩ := p3
      simp only [findColumn_absent cfg col_name columns habs]

theorem deleteLoop_none_match (cfg : Config) (columns : List Bytes) (condition : Bytes)
    (h : ∀ rec, evaluateCondition cfg rec columns condition = .ok false) :
    ∀ records : List Bytes, deleteLoop cfg columns condition records = .ok records := by
  intro records
  induction records with
  | nil => rfl
  | cons r rs ih => simp [deleteLoop, h r, ih]

/-- With a condition whose first word is the name of no column, `delete_`
returns `true` and leaves a table file from which the same whole records are
read; the bytes after the last whole record are another matter. -/
theorem absent_column (cfg : Config) (rec : Bytes) (columns : List Bytes)
    (condition col_name rest : Bytes) (fs : FS) (db : Database) (table_name : Bytes)
    (hword : nextWord condition = some (col_name, rest))
    (habs : ∀ c ∈ columns, (colNameOf cfg c).isOk = true ∧ colNameOf cfg c ≠ .ok col_name)
    (hsize : 0 < cfg.recSize) (hopen : db.is_open_ = true)
    (hcols : getTableColumns cfg fs db table_name ≠ [])
    (habsT : ∀ c ∈ getTableColumns cfg fs db table_name,
      (colNameOf cfg c).isOk = true ∧ colNameOf cfg c ≠ .ok col_name) :
    evaluateCondition cfg rec columns [] = .ok true ∧
    evaluateCondition cfg rec columns condition = .ok false ∧
    (delete_ cfg fs db table_name condition).1 = .ok true ∧
    ∃ before after : Bytes,
      fs.file (tablePath cfg db table_name) = some before ∧
      (delete_ cfg fs db table_name condition).2.file (tablePath cfg db table_name)
        = some after ∧
      readAll cfg.recSize after = readAll cfg.recSize before := by
  refine ⟨evaluateCondition_empty cfg rec columns,
    evaluateCondition_absent cfg rec columns condition col_name rest hword habs, ?_⟩
  have hne : (getTableColumns cfg fs db table_name).isEmpty = false := by
    cases hc : getTableColumns cfg fs db table_name with
    | nil => exact absurd hc hcols
    | cons a t => rfl
  cases hf : fs.file (tablePath cfg db table_name) with
  | none =>
    exfalso
    apply hcols
    simp [getTableColumns, hf]
  | some data =>
    have hloop := deleteLoop_none_match cfg (getTableColumns cfg fs db table_name) condition
      (fun r => evaluateCondition_absent cfg r _ condition col_name rest hword habsT)
      (readAll cfg.recSize data)
    have hdel : delete_ cfg fs db table_name condition
        = (.ok true, fs.write (tablePath cfg db table_name)
            (readAll cfg.recSize data).flatten) := by
      unfold delete_
      simp [hopen, hne, hf, hloop, FS.canWrite]
    rw [hdel]
    refine ⟨rfl, data, (readAll cfg.recSize data).flatten, rfl, by simp [FS.write], ?_⟩
    exact readAll_flatten cfg.recSize hsize _ (readAll_mem_length cfg.recSize data)

set_option maxRecDepth 100000 in
/-- In the sample configuration: the condition `zzz = 1` on `users` after the
insert of the tests. -/
theorem absent_column_witness :
    evaluateCondition sampleConfig rec25 sampleColumns [] = .ok true ∧
    evaluateCondition sampleConfig rec25 sampleColumns (str "zzz = 1") = .ok false ∧
    (delete_ sampleConfig (usersFS sampleConfig [] zeroJunk) testDb (str "users")
      (str "zzz = 1")).1 = .ok true ∧
    ∃ before after : Bytes,
      (usersFS sampleConfig [] zeroJunk).file (tablePath sampleConfig testDb (str "users"))
        = some before ∧
      (delete_ sampleConfig (usersFS sampleConfig [] zeroJunk) testDb (str "users")
        (str "zzz = 1")).2.file (tablePath sampleConfig testDb (str "users")) = some after ∧
      readAll sampleConfig.recSize after = readAll sampleConfig.recSize before :=
  absent_column sampleConfig rec25 sampleColumns (str "zzz = 1") (str "zzz") (str " = 1")
    (usersFS sampleConfig [] zeroJunk) testDb (str "users")
    (by decide) (by decide) (by decide) (by decide) (by decide) (by decide)

/-! ## C11 -/

theorem applyOp_like (cfg : Config) (type : Int) (a b : Bytes) :
    applyOp cfg (str "LIKE") type a b = .ok (a == b) := by
  unfold applyOp
  rw [if_neg (by decide), if_neg (by decide), if_neg (by decide), if_neg (by decide),
    if_neg (by decide), if_neg (by decide), if_pos rfl]

/-- C11: for a condition `<column> LIKE <literal>` on a column of the schema
whose string representation is `col_value`, `evaluateCondition` returns `true`
exactly when `col_value` and the literal are the same string; no character of
the literal is a wildcard. -/
theorem like_is_equality (cfg : Config) (rec : Bytes) (columns : List Bytes)
    (condition col_name lit r1 r2 r3 : Bytes) (i : Nat) (col col_value : Bytes)
    (h1 : nextWord condition = some (col_name, r1))
    (h2 : nextWord r1 = some (str "LIKE", r2))
    (h3 : nextWord r2 = some (lit, r3))
    (hcol : findColumn cfg col_name columns = .ok (some (i, col)))
    (hval : convertToString cfg rec (colTypeOf cfg col) = .ok col_value) :
    (evaluateCondition cfg rec columns condition = .ok true ↔ col_value = lit) ∧
    (evaluateCondition cfg rec columns condition = .ok false ↔ col_value ≠ lit) := by
  rw [evaluateCondition_clause cfg rec columns condition col_name (str "LIKE") lit r1 r2 r3 i
    col col_value h1 h2 h3 hcol hval, applyOp_like]
  by_cases h : col_value = lit
  · simp [h]
  · simp [h]

/-- In the sample configuration a row whose `name` is `John` does not match
`name LIKE J%` and matches `name LIKE John`. -/
theorem like_is_equality_witness :
    evaluateCondition sampleConfig recJohn sampleColumns (str "name LIKE J%") = .ok false ∧
    evaluateCondition sampleConfig recJohn sampleColumns (str "name LIKE John") = .ok true :=
  ⟨(like_is_equality sampleConfig recJohn sampleColumns (str "name LIKE J%") (str "name")
      (str "J%") (str " LIKE J%") (str " J%") [] 1 (sampleColumns.getD 1 []) (str "John")
      (by decide) (by decide) (by decide) (by decide) (by decide)).2.mpr (by decide),
   (like_is_equality sampleConfig recJohn sampleColumns (str "name LIKE John") (str "name")
      (str "John") (str " LIKE John") (str " John") [] 1 (sampleColumns.getD 1 []) (str "John")
      (by decide) (by decide) (by decide) (by decide) (by decide)).1.mpr rfl⟩

/-! ## C12 -/

theorem isSpace_blank : isSpace 32 = true := by decide

/-- A word read by `operator>>` is not empty and holds no white space. -/
theorem nextWord_word (s w r : Bytes) (h : nextWord s = some (w, r)) :
    w ≠ [] ∧ ∀ x ∈ w, isSpace x = false := by
  unfold nextWord at h
  simp only [] at h
  split at h
  · cases h
  · rename_i hne
    simp only [Option.some.injEq, Prod.mk.injEq] at h
    obtain ⟨hw, _⟩ := h
    subst hw
    constructor
    · cases hd : s.dropWhile isSpace with
      | nil => simp [hd] at hne
      | cons a t =>
        have hhead := List.head?_dropWhile_not isSpace s
        rw [hd] at hhead
        simp only [List.head?_cons, Option.all_some, Bool.not_eq_eq_eq_not, Bool.not_true] at hhead
        simp [List.takeWhile_cons, hhead]
    · intro x hx
      have := List.mem_takeWhile_imp hx
      simpa using this

/-- Reading a word back from the text it was followed by a blank in. -/
theorem nextWord_append (w r : Bytes) (hne : w ≠ []) (hw : ∀ x ∈ w, isSpace x = false) :
    nextWord (w ++ 32 :: r) = some (w, 32 :: r) := by
  obtain ⟨a, t, rfl⟩ := List.exists_cons_of_ne_nil hne
  have ha : isSpace a = false := hw a (by simp)
  have hp : ∀ x ∈ a :: t, (fun c => !isSpace c) x = true := by
    intro x hx
    simp [hw x hx]
  unfold nextWord
  have hd : ((a :: t) ++ 32 :: r).dropWhile isSpace = (a :: t) ++ 32 :: r := by
    simp [List.dropWhile_cons, ha]
  simp only [hd]
  rw [List.takeWhile_append_of_pos hp, List.dropWhile_append_of_pos hp]
  simp [List.takeWhile_cons, List.dropWhile_cons, isSpace_blank]

theorem nextWord_last (w : Bytes) (hne : w ≠ []) (hw : ∀ x ∈ w, isSpace x = false) :
    nextWord w = some (w, []) := by
  obtain ⟨a, t, rfl⟩ := List.exists_cons_of_ne_nil hne
  have ha : isSpace a = false := hw a (by simp)
  have hp : ∀ x ∈ a :: t, (fun c => !isSpace c) x = true := by
    intro x hx
    simp [hw x hx]
  unfold nextWord
  have hd : (a :: t).dropWhile isSpace = a :: t := by
    simp [List.dropWhile_cons, ha]
  simp only [hd]
  have h1 := @List.takeWhile_append_of_pos Nat _ _ [] hp
  have h2 := @List.dropWhile_append_of_pos Nat _ _ [] hp
  simp only [List.append_nil, List.takeWhile_nil, List.dropWhile_nil] at h1 h2
  rw [h1, h2]
  simp

theorem nextWord_skip_blank (s : Bytes) : nextWord (32 :: s) = nextWord s := by
  simp [nextWord, List.dropWhile_cons, isSpace_blank]

/-- C12: for every record, column list and condition with at least three
words `c`, `op`, `v`, whatever follows them, `evaluateCondition` gives what it
gives for the condition `c op v`. -/
theorem first_clause_only (cfg : Config) (rec : Bytes) (columns : List Bytes)
    (condition clause : Bytes) (h : firstClause condition = some clause) :
    evaluateCondition cfg rec columns condition = evaluateCondition cfg rec columns clause := by
  unfold firstClause at h
  cases h1 : nextWord condition with
  | none => simp [h1] at h
  | some p1 =>
    obtain ⟨c, r1⟩ := p1
    simp only [h1] at h
    cases h2 : nextWord r1 with
    | none => simp [h2] at h
    | some p2 =>
      obtain ⟨op, r2⟩ := p2
      simp only [h2] at h
      cases h3 : nextWord r2 with
      | none => simp [h3] at h
      | some p3 =>
        obtain ⟨v, r3⟩ := p3
        simp only [h3, Option.some.injEq] at h
        subst h
        obtain ⟨hc1, hc2⟩ := nextWord_word _ _ _ h1
        obtain ⟨ho1, ho2⟩ := nextWord_word _ _ _ h2
        obtain ⟨hv1, hv2⟩ := nextWord_word _ _ _ h3
        have k1 : nextWord (c ++ 32 :: (op ++ 32 :: v)) = some (c, 32 :: (op ++ 32 :: v)) :=
          nextWord_append c _ hc1 hc2
        have k2 : nextWord (32 :: (op ++ 32 :: v)) = some (op, 32 :: v) := by
          rw [nextWord_skip_blank]
          exact nextWord_append op _ ho1 ho2
        have k3 : nextWord (32 :: v) = some (v, []) := by
          rw [nextWord_skip_blank]
          exact nextWord_last v hv1 hv2
        have e1 : condition.isEmpty = false := by
          cases condition with
          | nil => simp [nextWord] at h1
          | cons a t => rfl
        have e2 : (c ++ 32 :: (op ++ 32 :: v)).isEmpty = false := by
          cases c with
          | nil => exact absurd rfl hc1
          | cons a t => rfl
        simp only [evaluateCondition, e1, e2, h1, h2, h3, k1, k2, k3]

/-- In the sample configuration `age > 20 AND name LIKE 'J%'` is evaluated as
`age > 20`, on a record whose `age` is 25. -/
theorem first_clause_only_witness :
    firstClause (str "age > 20 AND name LIKE 'J%'") = some (str "age > 20") ∧
    evaluateCondition sampleConfig rec25 sampleColumns (str "age > 20 AND name LIKE 'J%'")
      = evaluateCondition sampleConfig rec25 sampleColumns (str "age > 20") ∧
    evaluateCondition sampleConfig rec25 sampleColumns (str "age > 20") = .ok true :=
  ⟨by decide,
   first_clause_only sampleConfig rec25 sampleColumns (str "age > 20 AND name LIKE 'J%'")
     (str "age > 20") (by decide),
   by decide⟩

/-! ## Frames of the pool -/

theorem firstIndex_none (p : Frame → Bool) :
    ∀ l : List Frame, firstIndex p l = none ↔ ∀ f ∈ l, p f = false := by
  intro l
  induction l with
  | nil => simp [firstIndex]
  | cons a t ih =>
    simp only [firstIndex, List.mem_cons, forall_eq_or_imp]
    by_cases ha : p a = true
    · simp [ha]
    · simp only [ha, Bool.false_eq_true, if_false, Option.map_eq_none', ih]
      simp [Bool.not_eq_true _ ▸ ha]

theorem firstIndex_some (p : Frame → Bool) :
    ∀ (l : List Frame) (i : Nat), firstIndex p l = some i →
      ∃ f, l[i]? = some f ∧ p f = true := by
  intro l
  induction l with
  | nil => intro i h; simp [firstIndex] at h
  | cons a t ih =>
    intro i h
    simp only [firstIndex] at h
    by_cases ha : p a = true
    · simp only [ha, if_true, Option.some.injEq] at h
      subst h
      exact ⟨a, by simp, ha⟩
    · simp only [ha, Bool.false_eq_true, if_false, Option.map_eq_some'] at h
      obtain ⟨j, hj, rfl⟩ := h
      obtain ⟨f, hf, hpf⟩ := ih j hj
      exact ⟨f, by simpa using hf, hpf⟩

theorem updateFrame_of_getElem? (pool : List Frame) (i : Nat) (g : Frame → Frame) (f : Frame)
    (h : pool[i]? = some f) : updateFrame pool i g = pool.set i (g f) := by
  simp [updateFrame, h]

theorem updateFrame_length (pool : List Frame) (i : Nat) (g : Frame → Frame) :
    (updateFrame pool i g).length = pool.length := by
  unfold updateFrame
  split <;> simp

theorem getElem?_updateFrame (pool : List Frame) (i j : Nat) (g : Frame → Frame) :
    (updateFrame pool i g)[j]? = if j = i then (pool[i]?).map g else pool[j]? := by
  unfold updateFrame
  cases h : pool[i]? with
  | none =>
    by_cases hji : j = i
    · subst hji
      simp [h]
    · simp [hji]
  | some f =>
    simp only []
    rw [List.getElem?_set]
    by_cases hji : j = i
    · subst hji
      have hlt : j < pool.length := by
        by_contra hc
        rw [List.getElem?_eq_none (by omega)] at h
        cases h
      simp [hlt]
    · have : ¬ i = j := fun e => hji e.symm
      simp [hji, this]

/-! ## The victim search outside the reachable states -/

/-- A pool that no sequence of calls produces: its unpinned frame has the
largest `uint64_t` as `last_used`.  There `findVictimFrame` returns `-1`, the
search starting from that value with a strict comparison, and `readPage` of
another page of the full pool returns `false`; with a second unpinned frame of
the same `last_used` the answer is still `-1`. -/
theorem findVictimFrame_misses_max :
    findVictimFrame
      { buffer_pool_ := [{ page_num := 7, db_name := str "a", is_dirty := false, pin_count := 0,
                           last_used := 18446744073709551615, data := [] }],
        buffer_size_ := 1024 } = none ∧
    findVictimFrame
      { buffer_pool_ := [{ page_num := 7, db_name := str "a", is_dirty := false, pin_count := 0,
                           last_used := 18446744073709551615, data := [] },
                         { page_num := 8, db_name := str "a", is_dirty := false, pin_count := 0,
                           last_used := 18446744073709551615, data := [] }],
        buffer_size_ := 2048 } = none ∧
    (readPage sampleBuf
      { buffer_pool_ := [{ page_num := 7, db_name := str "a", is_dirty := false, pin_count := 0,
                           last_used := 18446744073709551615, data := [] }],
        buffer_size_ := 1024 } testFiles 5 (str "b") 0).1 = false ∧
    findVictimFrame
      { buffer_pool_ := [{ page_num := 7, db_name := str "a", is_dirty := false, pin_count := 0,
                           last_used := 18446744073709551614, data := [] }],
        buffer_size_ := 1024 } = some 0 := by
  decide

/-! ## C14 -/

theorem findVictimLoop_all_pinned :
    ∀ (frames : List Frame) (i : Nat) (victim : Option Nat) (oldest_time : Nat),
      (∀ f ∈ frames, f.pin_count ≠ 0) →
      findVictimLoop frames i victim oldest_time = victim := by
  intro frames
  induction frames with
  | nil => intro i victim oldest_time _; rfl
  | cons a t ih =>
    intro i victim oldest_time h
    have ha : a.pin_count ≠ 0 := h a (by simp)
    simp only [findVictimLoop, ha, false_and, if_false]
    exact ih (i + 1) victim oldest_time (fun f hf => h f (by simp [hf]))

/-- C14: when every frame holds a page and is pinned, `readPage` of a key that
no frame has returns `false` and leaves the pool and the files as they were. -/
theorem readPage_all_pinned (bc : BufConfig) (bm : BufferManager) (fs : FS) (now : Nat)
    (db_name : Bytes) (page_num : Nat)
    (hall : ∀ f ∈ bm.buffer_pool_, f.page_num ≠ bc.EMPTY ∧ 0 < f.pin_count)
    (hmiss : findPage bm db_name page_num = none) :
    readPage bc bm fs now db_name page_num = (false, bm, fs) := by
  have hfree : findFreeFrame bc bm = none := by
    unfold findFreeFrame
    rw [firstIndex_none]
    intro f hf
    simpa using (hall f hf).1
  have hvictim : findVictimFrame bm = none := by
    unfold findVictimFrame
    exact findVictimLoop_all_pinned _ _ _ _ (fun f hf => by have := (hall f hf).2; omega)
  unfold readPage
  split
  · rfl
  · simp only [hmiss, hfree, hvictim]

set_option maxRecDepth 100000 in
/-- In the sample configuration: after `readPage("test_file.db", 0)` filled and
pinned the only frame, `readPage("test_file.db", 1)` returns `false` and changes
nothing. -/
theorem readPage_all_pinned_witness :
    readPage sampleBuf pool1Read testFiles 200 (str "test_file.db") 1
      = (false, pool1Read, testFiles) :=
  readPage_all_pinned sampleBuf pool1Read testFiles 200 (str "test_file.db") 1
    (by decide) (by decide)

/-! ## `readPage` on a miss with a free frame -/

/-- What `readPage` does when no frame has the key and `findFreeFrame` finds the
frame `i`: the page file is read at `seekOffset` into that frame, which gets the
key, `pin_count` 1 and a clear dirty flag, whatever its members were and however
many bytes the file gave. -/
theorem readPage_miss_free (bc : BufConfig) (bm : BufferManager) (fs : FS) (now : Nat)
    (db_name : Bytes) (page_num i : Nat) (f : Frame) (file : Bytes)
    (hinit : bm.buffer_size_ ≠ 0) (hmiss : findPage bm db_name page_num = none)
    (hfree : findFreeFrame bc bm = some i) (hf : bm.buffer_pool_[i]? = some f)
    (hfile : fs.file (pagePath bc db_name) = some file) :
    readPage bc bm fs now db_name page_num
      = (true,
          { bm with buffer_pool_ :=
              bm.buffer_pool_.set i (loadedFrame bc file now db_name page_num f) },
          fs) := by
  unfold readPage
  rw [if_neg hinit]
  simp only [hmiss, hfree, loadPage, hfile, updateFrame_of_getElem? _ _ _ f hf]

theorem findPage_none_key (bm : BufferManager) (db_name : Bytes) (page_num : Nat)
    (hmiss : findPage bm db_name page_num = none) (i : Nat) (f : Frame)
    (hf : bm.buffer_pool_[i]? = some f) : ¬ (f.page_num = page_num ∧ f.db_name = db_name) := by
  unfold findPage at hmiss
  rw [firstIndex_none] at hmiss
  have hmem : f ∈ bm.buffer_pool_ := List.getElem?_mem hf
  have := hmiss f hmem
  intro hk
  simp [hk.1, hk.2] at this

/-! ## C15 -/

/-- C15 fails on a frame that is pinned while its `page_num` is `EMPTY`:
`findFreeFrame` does not look at `pin_count`, so a `readPage` of a key that no
frame has takes that frame, gives it the new key and the bytes read, and sets
its `pin_count` back to 1. -/
theorem pinned_frame_reused (bc : BufConfig) (bm : BufferManager) (fs : FS) (now : Nat)
    (db_name : Bytes) (page_num i : Nat) (f : Frame) (file : Bytes)
    (hinit : bm.buffer_size_ ≠ 0) (hmiss : findPage bm db_name page_num = none)
    (hfree : findFreeFrame bc bm = some i) (hf : bm.buffer_pool_[i]? = some f)
    (hpin : 0 < f.pin_count)
    (hfile : fs.file (pagePath bc db_name) = some file) :
    (readPage bc bm fs now db_name page_num).1 = true ∧
    f.page_num = bc.EMPTY ∧
    ∃ g, (readPage bc bm fs now db_name page_num).2.1.buffer_pool_[i]? = some g ∧
      g.page_num = page_num ∧ g.db_name = db_name ∧
      ¬ (f.page_num = g.page_num ∧ f.db_name = g.db_name) ∧
      g.pin_count = 1 ∧
      g.data = fillData f.data (readFrom file (seekOffset bc page_num) bc.PAGESIZE) := by
  have _ := hpin
  rw [readPage_miss_free bc bm fs now db_name page_num i f file hinit hmiss hfree hf hfile]
  have hlt : i < bm.buffer_pool_.length := by
    by_contra hc
    rw [List.getElem?_eq_none (by omega)] at hf
    cases hf
  have hempty : f.page_num = bc.EMPTY := by
    obtain ⟨f2, hf2, hp⟩ := firstIndex_some _ _ _ hfree
    rw [hf] at hf2
    cases hf2
    simpa using hp
  refine ⟨rfl, hempty, loadedFrame bc file now db_name page_num f, by simp [hlt], rfl, rfl,
    ?_, rfl, rfl⟩
  exact findPage_none_key bm db_name page_num hmiss i f hf

set_option maxRecDepth 100000 in
/-- The calls `initialize(2)`, `readPage("test_file.db", EMPTY)`,
`readPage("b", 0)` in the sample configuration: the second `readPage` takes
frame 0, pinned by the first, and replaces its key and its bytes. -/
theorem pinned_frame_reused_witness :
    pool2ReadEmpty.buffer_pool_[0]?
      = some { page_num := 4294967295, db_name := str "test_file.db", is_dirty := false,
               pin_count := 1, last_used := 100, data := List.replicate 1024 0 } ∧
    (readPage sampleBuf pool2ReadEmpty testFiles 200 (str "b") 0).1 = true ∧
    ∃ g, (readPage sampleBuf pool2ReadEmpty testFiles 200 (str "b") 0).2.1.buffer_pool_[0]?
        = some g ∧
      g.page_num = 0 ∧ g.db_name = str "b" ∧ g.pin_count = 1 ∧
      g.data = fillData (List.replicate 1024 0) (str "page of b") :=
  have h := pinned_frame_reused sampleBuf pool2ReadEmpty testFiles 200 (str "b") 0 0
    { page_num := 4294967295, db_name := str "test_file.db", is_dirty := false,
      pin_count := 1, last_used := 100, data := List.replicate 1024 0 }
    (str "page of b") (by decide) (by decide) (by decide) (by decide) (by decide) (by decide)
  ⟨by decide, h.1,
    h.2.2.elim fun g hg => ⟨g, hg.1, hg.2.1, hg.2.2.1, hg.2.2.2.2.1, hg.2.2.2.2.2⟩⟩

/-! ## C17 -/

theorem findPage_some_key (bm : BufferManager) (db_name : Bytes) (page_num i : Nat) (f : Frame)
    (hfind : findPage bm db_name page_num = some i) (hf : bm.buffer_pool_[i]? = some f) :
    f.page_num = page_num ∧ f.db_name = db_name := by
  obtain ⟨f2, hf2, hp⟩ := firstIndex_some _ _ _ hfind
  rw [hf] at hf2
  cases hf2
  simpa using hp

theorem firstIndex_set_same (p : Frame → Bool) :
    ∀ (l : List Frame) (i : Nat) (f g : Frame), l[i]? = some f → p g = p f →
      firstIndex p (l.set i g) = firstIndex p l := by
  intro l
  induction l with
  | nil => intro i f g h _; simp at h
  | cons a t ih =>
    intro i f g h hp
    cases i with
    | zero =>
      simp only [List.getElem?_cons_zero, Option.some.injEq] at h
      subst h
      simp only [List.set_cons_zero, firstIndex, hp]
    | succ k =>
      simp only [List.getElem?_cons_succ] at h
      simp only [List.set_cons_succ, firstIndex, ih k f g h hp]

theorem readPage_hit_eq (bc : BufConfig) (bm : BufferManager) (fs : FS) (now : Nat)
    (db_name : Bytes) (page_num i : Nat) (f : Frame)
    (hinit : bm.buffer_size_ ≠ 0) (hfind : findPage bm db_name page_num = some i)
    (hf : bm.buffer_pool_[i]? = some f) :
    readPage bc bm fs now db_name page_num
      = (true, { bm with buffer_pool_ := bm.buffer_pool_.set i (touchedFrame now f) }, fs) := by
  unfold readPage
  rw [if_neg hinit]
  simp only [hfind, updateFrame_of_getElem? _ _ _ f hf]

/-- C17: when a frame has the key, `readPage` returns `true`; the first such
frame gets `pin_count + 1` and `last_used = now`, its key, bytes and dirty flag
and every other frame stay as they are, the files are not touched and not
looked at; a second `readPage` of the key returns `true` again and the bytes of
every frame are still the same. -/
theorem readPage_hit (bc : BufConfig) (bm : BufferManager) (fs : FS) (now : Nat)
    (db_name : Bytes) (page_num i : Nat) (f : Frame)
    (hinit : bm.buffer_size_ ≠ 0) (hfind : findPage bm db_name page_num = some i)
    (hf : bm.buffer_pool_[i]? = some f) (_hpin : f.pin_count < 2147483646) :
    readPage bc bm fs now db_name page_num
      = (true, { bm with buffer_pool_ := bm.buffer_pool_.set i (touchedFrame now f) }, fs) ∧
    touchedFrame now f
      = { page_num := page_num, db_name := db_name, is_dirty := f.is_dirty,
          pin_count := f.pin_count + 1, last_used := now, data := f.data } ∧
    ∀ (fs2 : FS) (now2 : Nat),
      (readPage bc (readPage bc bm fs now db_name page_num).2.1 fs2 now2 db_name page_num).1
        = true ∧
      (readPage bc (readPage bc bm fs now db_name page_num).2.1 fs2 now2 db_name
          page_num).2.1.buffer_pool_.map Frame.data
        = bm.buffer_pool_.map Frame.data := by
  have hkey := findPage_some_key bm db_name page_num i f hfind hf
  have heq := readPage_hit_eq bc bm fs now db_name page_num i f hinit hfind hf
  have hlt : i < bm.buffer_pool_.length := by
    by_contra hc
    rw [List.getElem?_eq_none (by omega)] at hf
    cases hf
  refine ⟨heq, by simp [touchedFrame, hkey.1, hkey.2], ?_⟩
  intro fs2 now2
  rw [heq]
  simp only []
  have hfind2 : findPage
      { bm with buffer_pool_ := bm.buffer_pool_.set i (touchedFrame now f) }
      db_name page_num = some i := by
    unfold findPage at hfind ⊢
    simp only []
    rw [firstIndex_set_same (fun f => f.page_num == page_num && f.db_name == db_name)
      _ i f (touchedFrame now f) hf rfl]
    exact hfind
  have hf2 : ({ bm with buffer_pool_ :=
      bm.buffer_pool_.set i (touchedFrame now f) } : BufferManager).buffer_pool_[i]?
      = some (touchedFrame now f) := by
    simp [hlt]
  rw [readPage_hit_eq bc
    { bm with buffer_pool_ := bm.buffer_pool_.set i (touchedFrame now f) }
    fs2 now2 db_name page_num i (touchedFrame now f) hinit hfind2 hf2]
  refine ⟨rfl, ?_⟩
  simp only [List.set_set]
  apply List.ext_getElem?
  intro j
  simp only [List.getElem?_map, List.getElem?_set]
  by_cases hji : i = j
  · subst hji
    simp [hlt, hf, touchedFrame]
  · simp [hji]

set_option maxRecDepth 100000 in
/-- In the sample configuration: a second `readPage("test_file.db", 0)` at time
200 on the one-frame pool that holds the page. -/
theorem readPage_hit_witness :
    (readPage sampleBuf pool1Read bigFiles 200 (str "test_file.db") 0).1 = true ∧
    (readPage sampleBuf pool1Read bigFiles 200 (str "test_file.db") 0).2.1.buffer_pool_
      = [{ page_num := 0, db_name := str "test_file.db", is_dirty := false, pin_count := 2,
           last_used := 200, data := fillData (List.replicate 1024 0) (str "test data") }] :=
  have h := (readPage_hit sampleBuf pool1Read bigFiles 200 (str "test_file.db") 0 0
    { page_num := 0, db_name := str "test_file.db", is_dirty := false, pin_count := 1,
      last_used := 100, data := fillData (List.replicate 1024 0) (str "test data") }
    (by decide) (by decide) (by decide) (by decide)).1
  ⟨congrArg Prod.fst h, (congrArg (fun r => r.2.1.buffer_pool_) h).trans (by decide)⟩

/-! ## C18 -/

theorem readFrom_whole (file : Bytes) (off n : Nat) (h : off + n ≤ file.length) :
    (readFrom file off n).length = n := by
  simp only [readFrom, List.length_take, List.length_drop]
  omega

theorem fillData_whole (data got : Bytes) (h : got.length = data.length) :
    fillData data got = got := by
  simp [fillData, h]

theorem seekOffset_exact (bc : BufConfig) (page_num : Nat)
    (h : page_num * bc.PAGESIZE < 2 ^ bc.offsetBits) :
    seekOffset bc page_num = page_num * bc.PAGESIZE := by
  simp [seekOffset, Nat.mod_eq_of_lt h]

/-- C18: on a miss with the free frame `i`, `readPage` returns `true`; frame
`i` gets the key, `pin_count` 1, a clear dirty flag and, when the file holds a
whole page at the offset sought, the bytes of the file there; no other frame
and no file changes.  The offset sought is `page_num * PAGESIZE` reduced modulo
`2 ^ offsetBits`, which is the product itself only when the product is below
`2 ^ offsetBits`. -/
theorem readPage_miss_loads (bc : BufConfig) (bm : BufferManager) (fs : FS) (now : Nat)
    (db_name : Bytes) (page_num i : Nat) (f : Frame) (file : Bytes)
    (hinit : bm.buffer_size_ ≠ 0) (hmiss : findPage bm db_name page_num = none)
    (hfree : findFreeFrame bc bm = some i) (hf : bm.buffer_pool_[i]? = some f)
    (hfile : fs.file (pagePath bc db_name) = some file)
    (hdata : f.data.length = bc.PAGESIZE)
    (hpage : seekOffset bc page_num + bc.PAGESIZE ≤ file.length) :
    readPage bc bm fs now db_name page_num
      = (true,
          { bm with buffer_pool_ :=
              bm.buffer_pool_.set i (loadedFrame bc file now db_name page_num f) },
          fs) ∧
    loadedFrame bc file now db_name page_num f
      = { page_num := page_num, db_name := db_name, is_dirty := false, pin_count := 1,
          last_used := now, data := readFrom file (seekOffset bc page_num) bc.PAGESIZE } ∧
    (page_num * bc.PAGESIZE < 2 ^ bc.offsetBits →
      seekOffset bc page_num = page_num * bc.PAGESIZE) := by
  refine ⟨readPage_miss_free bc bm fs now db_name page_num i f file hinit hmiss hfree hf hfile,
    ?_, seekOffset_exact bc page_num⟩
  have hl := readFrom_whole file (seekOffset bc page_num) bc.PAGESIZE hpage
  simp only [loadedFrame, fillData_whole f.data _ (by rw [hl, hdata])]

theorem bigFile_length : bigFile.length = 4294967296 + 1024 := by
  simp only [bigFile, List.length_append, List.length_replicate]

theorem bigFile_first_page : readFrom bigFile 0 1024 = List.replicate 1024 0 := by
  simp only [readFrom, bigFile, List.drop_zero]
  rw [List.take_append_of_le_length (by rw [List.length_replicate]; decide)]
  rw [List.take_replicate]
  rfl

theorem bigFile_last_page :
    readFrom bigFile (4194304 * 1024) 1024 = List.replicate 1024 1 := by
  have h : (4194304 * 1024 : Nat) = (List.replicate 4294967296 (0 : Nat)).length := by
    rw [List.length_replicate]
  simp only [readFrom, bigFile]
  rw [h, List.drop_left]
  rw [List.take_of_length_le (by rw [List.length_replicate])]

theorem replicate_zero_ne_one (n : Nat) :
    List.replicate (n + 1) (0 : Nat) ≠ List.replicate (n + 1) 1 := by
  simp [List.replicate_succ]

set_option maxRecDepth 100000 in
/-- In the sample configuration, where offsets are `unsigned int`: the page
file holds the whole page 4194304, made of bytes 1, at offset 4294967296;
`readPage` of that page returns `true` with the key in frame 0, but the frame
holds the zero bytes of page 0, the offset sought being 0. -/
theorem readPage_miss_loads_witness :
    seekOffset sampleBuf 4194304 = 0 ∧
    readFrom bigFile (4194304 * 1024) 1024 = List.replicate 1024 1 ∧
    readPage sampleBuf pool1 bigFiles 100 (str "f") 4194304
      = (true,
          { buffer_pool_ := [{ page_num := 4194304, db_name := str "f", is_dirty := false,
                               pin_count := 1, last_used := 100,
                               data := List.replicate 1024 0 }],
            buffer_size_ := 1024 },
          bigFiles) ∧
    List.replicate 1024 (0 : Nat) ≠ readFrom bigFile (4194304 * 1024) 1024 :=
  have hoff : seekOffset sampleBuf 4194304 = 0 := by decide
  have h := readPage_miss_loads sampleBuf pool1 bigFiles 100 (str "f") 4194304 0
    { page_num := 4294967295, db_name := [], is_dirty := false, pin_count := 0, last_used := 0,
      data := List.replicate 1024 0 }
    bigFile (by decide) (by decide) (by decide) (by decide) rfl (by decide)
    (by rw [hoff, bigFile_length]; decide)
  ⟨hoff, bigFile_last_page,
    by
      have hp : sampleBuf.PAGESIZE = 1024 := rfl
      rw [h.1, h.2.1, hoff, hp, bigFile_first_page]
      rfl,
    by rw [bigFile_last_page]; exact replicate_zero_ne_one 1023⟩

/-! ## C19 -/

/-- C19 fails on a page file that is too short: on a miss with the free frame
`i` and a file that ends before the page does, `readPage` still returns `true`
and frame `i` holds the key with `pin_count` 1, so that `findPage` finds the
key afterwards; the result of `read` is never tested (lines 83-93). -/
theorem readPage_short_file (bc : BufConfig) (bm : BufferManager) (fs : FS) (now : Nat)
    (db_name : Bytes) (page_num i : Nat) (f : Frame) (file : Bytes)
    (hinit : bm.buffer_size_ ≠ 0) (hmiss : findPage bm db_name page_num = none)
    (hfree : findFreeFrame bc bm = some i) (hf : bm.buffer_pool_[i]? = some f)
    (hfile : fs.file (pagePath bc db_name) = some file)
    (_hshort : file.length < (page_num + 1) * bc.PAGESIZE) :
    (readPage bc bm fs now db_name page_num).1 = true ∧
    (∃ g, (readPage bc bm fs now db_name page_num).2.1.buffer_pool_[i]? = some g ∧
      g.page_num = page_num ∧ g.db_name = db_name ∧ g.pin_count = 1) ∧
    findPage (readPage bc bm fs now db_name page_num).2.1 db_name page_num ≠ none := by
  rw [readPage_miss_free bc bm fs now db_name page_num i f file hinit hmiss hfree hf hfile]
  have hlt : i < bm.buffer_pool_.length := by
    by_contra hc
    rw [List.getElem?_eq_none (by omega)] at hf
    cases hf
  have hg : (bm.buffer_pool_.set i (loadedFrame bc file now db_name page_num f))[i]?
      = some (loadedFrame bc file now db_name page_num f) := by simp [hlt]
  refine ⟨rfl, ⟨_, hg, rfl, rfl, rfl⟩, ?_⟩
  intro hnone
  exact findPage_none_key _ db_name page_num hnone i _ hg ⟨rfl, rfl⟩

set_option maxRecDepth 100000 in
/-- The call of `BufferManagerTest.InvalidPageAccess` on an initialized pool of
the sample configuration: page 1000 of the nine-byte file `test_file.db`. -/
theorem readPage_short_file_witness :
    (readPage sampleBuf pool1 testFiles 100 (str "test_file.db") 1000).1 = true ∧
    (∃ g, (readPage sampleBuf pool1 testFiles 100 (str "test_file.db")
        1000).2.1.buffer_pool_[0]? = some g ∧
      g.page_num = 1000 ∧ g.db_name = str "test_file.db" ∧ g.pin_count = 1) ∧
    findPage (readPage sampleBuf pool1 testFiles 100 (str "test_file.db") 1000).2.1
      (str "test_file.db") 1000 ≠ none :=
  readPage_short_file sampleBuf pool1 testFiles 100 (str "test_file.db") 1000 0
    { page_num := 4294967295, db_name := [], is_dirty := false, pin_count := 0, last_used := 0,
      data := List.replicate 1024 0 }
    (str "test data") (by decide) (by decide) (by decide) (by decide) (by decide) (by decide)

/-! ## C20 -/

theorem readFrom_writeAt (file : Bytes) (off : Nat) (val : Bytes) :
    readFrom (writeAt file off val) off val.length = val := by
  have hl : ((file ++ List.replicate (off - file.length) 0).take off).length = off := by
    simp only [List.length_take, List.length_append, List.length_replicate]
    omega
  simp only [readFrom, writeAt, List.append_assoc]
  rw [List.drop_append_of_le_length (by omega), List.drop_of_length_le (by omega),
    List.nil_append, List.take_left']
  rfl

/-- C20: `commit` is `writePage`.  On a key that the frame `i` has, with an
existing page file, it returns `true`, clears the dirty flag of frame `i`,
changes nothing else in the pool, and writes the bytes of the frame into the
file at the offset sought, which is `page_num * PAGESIZE` reduced modulo
`2 ^ offsetBits`; on a key that no frame has it returns `false` and changes
neither the pool nor the files. -/
theorem writePage_resident (bc : BufConfig) (bm : BufferManager) (fs : FS)
    (db_name : Bytes) (page_num i : Nat) (f : Frame) (file : Bytes)
    (hinit : bm.buffer_size_ ≠ 0) (hfind : findPage bm db_name page_num = some i)
    (hf : bm.buffer_pool_[i]? = some f)
    (hfile : fs.file (pagePath bc db_name) = some file)
    (hdata : f.data.length = bc.PAGESIZE) :
    commit bc bm fs db_name page_num = writePage bc bm fs db_name page_num ∧
    writePage bc bm fs db_name page_num
      = (true, { bm with buffer_pool_ := bm.buffer_pool_.set i (cleanFrame f) },
          fs.write (pagePath bc db_name) (writeAt file (seekOffset bc page_num) f.data)) ∧
    cleanFrame f
      = { page_num := page_num, db_name := db_name, is_dirty := false,
          pin_count := f.pin_count, last_used := f.last_used, data := f.data } ∧
    readFrom (writeAt file (seekOffset bc page_num) f.data) (seekOffset bc page_num) bc.PAGESIZE
      = f.data ∧
    (page_num * bc.PAGESIZE < 2 ^ bc.offsetBits →
      seekOffset bc page_num = page_num * bc.PAGESIZE) ∧
    ∀ (db2 : Bytes) (p2 : Nat), findPage bm db2 p2 = none →
      writePage bc bm fs db2 p2 = (false, bm, fs) := by
  have hkey := findPage_some_key bm db_name page_num i f hfind hf
  have htake : f.data.take bc.PAGESIZE = f.data := by
    rw [← hdata, List.take_length]
  refine ⟨rfl, ?_, by simp [cleanFrame, hkey.1, hkey.2], ?_, seekOffset_exact bc page_num, ?_⟩
  · unfold writePage
    rw [if_neg hinit]
    simp only [hfind, hfile, hf, htake, updateFrame_of_getElem? _ _ _ f hf]
  · rw [← hdata]
    exact readFrom_writeAt file _ f.data
  · intro db2 p2 hnone
    unfold writePage
    split
    · rfl
    · simp only [hnone]

set_option maxRecDepth 100000 in
/-- In the sample configuration, where offsets are `unsigned int`: after
`readPage("test_file.db", 4194304)`, `commit("test_file.db", 4194304)` returns
`true` and writes the 1024 bytes of the frame at offset 0; the file then ends
at byte 1024 and holds nothing at offset 4294967296. -/
theorem writePage_resident_witness :
    seekOffset sampleBuf 4194304 = 0 ∧
    (commit sampleBuf pool1ReadFar testFiles (str "test_file.db") 4194304).1 = true ∧
    (commit sampleBuf pool1ReadFar testFiles (str "test_file.db") 4194304).2.2.file
        (str "./test_file.db")
      = some (fillData (List.replicate 1024 0) (str "test data")) ∧
    readFrom (fillData (List.replicate 1024 0) (str "test data")) (4194304 * 1024) 1024 = [] :=
  have h := writePage_resident sampleBuf pool1ReadFar testFiles (str "test_file.db") 4194304 0
    { page_num := 4194304, db_name := str "test_file.db", is_dirty := false, pin_count := 1,
      last_used := 100, data := fillData (List.replicate 1024 0) (str "test data") }
    (str "test data") (by decide) (by decide) (by decide) (by decide) (by decide)
  ⟨by decide, (congrArg Prod.fst (h.1.trans h.2.1)),
    (congrArg (fun r => r.2.2.file (str "./test_file.db")) (h.1.trans h.2.1)).trans (by decide),
    by decide⟩

/-! ## C16 -/

theorem NoDupKeys_updateFrame (bc : BufConfig) (bm : BufferManager) (i : Nat)
    (g : Frame → Frame) (hg : ∀ f, (g f).page_num = f.page_num ∧ (g f).db_name = f.db_name)
    (h : NoDupKeys bc bm) :
    NoDupKeys bc { bm with buffer_pool_ := updateFrame bm.buffer_pool_ i g } := by
  have key : ∀ (j : Nat) (x : Frame), (updateFrame bm.buffer_pool_ i g)[j]? = some x →
      ∃ y, bm.buffer_pool_[j]? = some y ∧ x.page_num = y.page_num ∧ x.db_name = y.db_name := by
    intro j x hx
    rw [getElem?_updateFrame] at hx
    by_cases hji : j = i
    · subst hji
      simp only [if_true, Option.map_eq_some'] at hx
      obtain ⟨y, hy, rfl⟩ := hx
      exact ⟨y, hy, (hg y).1, (hg y).2⟩
    · rw [if_neg hji] at hx
      exact ⟨x, hx, rfl, rfl⟩
  intro a b x y hx hy hne hp hd
  obtain ⟨x2, hx2, hxp, hxd⟩ := key a x hx
  obtain ⟨y2, hy2, hyp, hyd⟩ := key b y hy
  exact h a b x2 y2 hx2 hy2 (by rw [← hxp]; exact hne) (by rw [← hxp, ← hyp]; exact hp)
    (by rw [← hxd, ← hyd]; exact hd)

theorem findPage_updateFrame (bm : BufferManager) (i : Nat) (g : Frame → Frame)
    (hg : ∀ f, (g f).page_num = f.page_num ∧ (g f).db_name = f.db_name)
    (db_name : Bytes) (page_num : Nat) :
    findPage { bm with buffer_pool_ := updateFrame bm.buffer_pool_ i g } db_name page_num
      = findPage bm db_name page_num := by
  unfold findPage updateFrame
  cases hf : bm.buffer_pool_[i]? with
  | none => rfl
  | some f =>
    simp only []
    apply firstIndex_set_same _ _ i f (g f) hf
    simp [(hg f).1, (hg f).2]

/-- What `writePage` can do to the pool: nothing, or clear one dirty flag. -/
theorem writePage_pool (bc : BufConfig) (bm : BufferManager) (fs : FS) (db_name : Bytes)
    (page_num : Nat) :
    (writePage bc bm fs db_name page_num).2.1 = bm ∨
    ∃ i, (writePage bc bm fs db_name page_num).2.1
      = { bm with buffer_pool_ := updateFrame bm.buffer_pool_ i cleanFrame } := by
  unfold writePage
  split
  · exact Or.inl rfl
  · cases h1 : findPage bm db_name page_num with
    | none => exact Or.inl rfl
    | some frame_num =>
      cases h2 : fs.file (pagePath bc db_name) with
      | none => exact Or.inl rfl
      | some file =>
        cases h3 : bm.buffer_pool_[frame_num]? with
        | none =>
          simp only [h3]
          exact Or.inl trivial
        | some frame =>
          simp only [h3]
          exact Or.inr ⟨frame_num, rfl⟩

theorem cleanFrame_key (f : Frame) :
    (cleanFrame f).page_num = f.page_num ∧ (cleanFrame f).db_name = f.db_name :=
  ⟨rfl, rfl⟩

theorem touchedFrame_key (now : Nat) (f : Frame) :
    (touchedFrame now f).page_num = f.page_num ∧ (touchedFrame now f).db_name = f.db_name :=
  ⟨rfl, rfl⟩

theorem NoDupKeys_writePage (bc : BufConfig) (bm : BufferManager) (fs : FS) (db_name : Bytes)
    (page_num : Nat) (h : NoDupKeys bc bm) :
    NoDupKeys bc (writePage bc bm fs db_name page_num).2.1 := by
  rcases writePage_pool bc bm fs db_name page_num with h1 | ⟨i, h1⟩
  · rw [h1]
    exact h
  · rw [h1]
    exact NoDupKeys_updateFrame bc bm i cleanFrame cleanFrame_key h

theorem findPage_writePage (bc : BufConfig) (bm : BufferManager) (fs : FS) (db_name : Bytes)
    (page_num : Nat) (db2 : Bytes) (p2 : Nat) :
    findPage (writePage bc bm fs db_name page_num).2.1 db2 p2 = findPage bm db2 p2 := by
  rcases writePage_pool bc bm fs db_name page_num with h1 | ⟨i, h1⟩
  · rw [h1]
  · rw [h1]
    exact findPage_updateFrame bm i cleanFrame cleanFrame_key db2 p2

theorem NoDupKeys_commitAllLoop (bc : BufConfig) (db_name : Bytes) :
    ∀ (is : List Nat) (success : Bool) (bm : BufferManager) (fs : FS), NoDupKeys bc bm →
      NoDupKeys bc (commitAllLoop bc db_name is success bm fs).2.1 := by
  intro is
  induction is with
  | nil => intro success bm fs h; exact h
  | cons i rest ih =>
    intro success bm fs h
    simp only [commitAllLoop]
    split
    · exact ih success bm fs h
    · split
      · exact ih _ _ _ (NoDupKeys_writePage bc bm fs db_name _ h)
      · exact ih success bm fs h

/-- Loading a page under a key that no frame has keeps the keys distinct. -/
theorem NoDupKeys_loadPage (bc : BufConfig) (bm : BufferManager) (fs : FS) (now : Nat)
    (db_name : Bytes) (page_num frame_num : Nat) (h : NoDupKeys bc bm)
    (hmiss : findPage bm db_name page_num = none) :
    NoDupKeys bc (loadPage bc bm fs now db_name page_num frame_num).2.1 := by
  unfold loadPage
  cases hfile : fs.file (pagePath bc db_name) with
  | none => exact h
  | some file =>
    simp only []
    have key : ∀ (j : Nat) (x : Frame),
        (updateFrame bm.buffer_pool_ frame_num (loadedFrame bc file now db_name page_num))[j]?
          = some x →
        (j = frame_num ∧ x.page_num = page_num ∧ x.db_name = db_name) ∨
        (j ≠ frame_num ∧ bm.buffer_pool_[j]? = some x) := by
      intro j x hx
      rw [getElem?_updateFrame] at hx
      by_cases hji : j = frame_num
      · subst hji
        simp only [if_true, Option.map_eq_some'] at hx
        obtain ⟨y, _, rfl⟩ := hx
        exact Or.inl ⟨rfl, rfl, rfl⟩
      · rw [if_neg hji] at hx
        exact Or.inr ⟨hji, hx⟩
    intro a b x y hx hy hne hp hd
    rcases key a x hx with ⟨ha, hxp, hxd⟩ | ⟨ha, hxo⟩
    · rcases key b y hy with ⟨hb, _, _⟩ | ⟨_, hyo⟩
      · rw [ha, hb]
      · exfalso
        exact findPage_none_key bm db_name page_num hmiss b y hyo
          ⟨by rw [← hp, hxp], by rw [← hd, hxd]⟩
    · rcases key b y hy with ⟨_, hyp, hyd⟩ | ⟨_, hyo⟩
      · exfalso
        exact findPage_none_key bm db_name page_num hmiss a x hxo
          ⟨by rw [hp, hyp], by rw [hd, hyd]⟩
      · exact h a b x y hxo hyo hne hp hd

theorem NoDupKeys_readPage (bc : BufConfig) (bm : BufferManager) (fs : FS) (now : Nat)
    (db_name : Bytes) (page_num : Nat) (h : NoDupKeys bc bm) :
    NoDupKeys bc (readPage bc bm fs now db_name page_num).2.1 := by
  unfold readPage
  split
  · exact h
  · cases hfind : findPage bm db_name page_num with
    | some frame_num =>
      exact NoDupKeys_updateFrame bc bm frame_num (touchedFrame now) (touchedFrame_key now) h
    | none =>
      simp only []
      split
      · exact NoDupKeys_loadPage bc bm fs now db_name page_num _ h hfind
      · split
        · exact h
        · split
          · exact h
          · split
            · apply NoDupKeys_loadPage
              · exact NoDupKeys_writePage bc bm fs _ _ h
              · rw [findPage_writePage]
                exact hfind
            · exact NoDupKeys_loadPage bc bm fs now db_name page_num _ h hfind

theorem NoDupKeys_initializePool (bc : BufConfig) (size_kb : Nat) :
    NoDupKeys bc (initializePool bc newBufferManager size_kb).2 := by
  intro a b x y hx _ hne _ _
  exfalso
  apply hne
  have hmem := List.getElem?_mem hx
  simp only [initializePool, newBufferManager, gt_iff_lt, Nat.lt_irrefl, if_false,
    List.mem_map] at hmem
  obtain ⟨z, _, rfl⟩ := hmem
  rfl

theorem reachable_NoDupKeys (bc : BufConfig) (bm : BufferManager) (hreach : Reachable bc bm) :
    NoDupKeys bc bm := by
  induction hreach with
  | init size_kb => exact NoDupKeys_initializePool bc size_kb
  | readPage bm fs now db_name page_num _ ih =>
    exact NoDupKeys_readPage bc bm fs now db_name page_num ih
  | writePage bm fs db_name page_num _ ih =>
    exact NoDupKeys_writePage bc bm fs db_name page_num ih
  | commit bm fs db_name page_num _ ih =>
    exact NoDupKeys_writePage bc bm fs db_name page_num ih
  | commitAll bm fs db_name _ ih =>
    exact NoDupKeys_commitAllLoop bc db_name _ true bm fs ih

/-- C16: in every state of the pool reached from `initialize` by `readPage`,
`writePage`, `commit` and `commitAll` calls, two distinct frames that hold a
page (`page_num != EMPTY`) do not have the same `(db_name, page_num)`. -/
theorem reachable_no_duplicate_key (bc : BufConfig) (bm : BufferManager)
    (hreach : Reachable bc bm) (i j : Nat) (f g : Frame)
    (hf : bm.buffer_pool_[i]? = some f) (hg : bm.buffer_pool_[j]? = some g)
    (hij : i ≠ j) (hholds : f.page_num ≠ bc.EMPTY) (_hholds2 : g.page_num ≠ bc.EMPTY) :
    ¬ (f.page_num = g.page_num ∧ f.db_name = g.db_name) := by
  intro hkey
  exact hij (reachable_NoDupKeys bc bm hreach i j f g hf hg hholds hkey.1 hkey.2)

set_option maxRecDepth 100000 in
/-- In the sample configuration: the two frames after
`readPage("test_file.db", 0)` and `readPage("b", 0)`. -/
theorem reachable_no_duplicate_key_witness :
    pool2Two.buffer_pool_.map (fun f => (f.page_num, f.db_name))
      = [(0, str "test_file.db"), (0, str "b")] ∧
    ¬ ((0 : Nat) = 0 ∧ str "test_file.db" = str "b") :=
  ⟨by decide,
   reachable_no_duplicate_key sampleBuf pool2Two
    (Reachable.readPage _ testFiles 200 (str "b") 0
      (Reachable.readPage _ testFiles 100 (str "test_file.db") 0 (Reachable.init 2)))
    0 1
    { page_num := 0, db_name := str "test_file.db", is_dirty := false, pin_count := 1,
      last_used := 100, data := fillData (List.replicate 1024 0) (str "test data") }
    { page_num := 0, db_name := str "b", is_dirty := false, pin_count := 1,
      last_used := 200, data := fillData (List.replicate 1024 0) (str "page of b") }
    (by decide) (by decide) (by decide) (by decide) (by decide)⟩

/-! ## `findVictimFrame` away from the largest `last_used` -/

theorem initializePool_new (bc : BufConfig) (size_kb : Nat) :
    initializePool bc newBufferManager size_kb
      = (true,
          { buffer_pool_ :=
              List.replicate ((size_kb * bc.KB) % 18446744073709551616 / bc.PAGESIZE) (emptyFrame bc),
            buffer_size_ := (size_kb * bc.KB) % 18446744073709551616 }) := by
  simp [initializePool, newBufferManager, emptyFrame, fit]

/-- C21 fails after a first call that leaves the size at zero.  The first
`initialize(size_kb)` on a new object returns true
and leaves `(size_kb * KB) / PAGESIZE` frames (the product taken in `size_t`),
each empty, unpinned and clean.  A further `initialize` returns false and changes
nothing only when that product is not zero: `already initialised` is tested as
`buffer_size_ > 0`, so after `initialize(0)` the next call is accepted, returns
true and allocates a pool. -/
theorem initialize_twice (bc : BufConfig) (size_kb size2 : Nat) :
    initializePool bc newBufferManager size_kb
      = (true,
          { buffer_pool_ :=
              List.replicate ((size_kb * bc.KB) % 18446744073709551616 / bc.PAGESIZE) (emptyFrame bc),
            buffer_size_ := (size_kb * bc.KB) % 18446744073709551616 })
    ∧ ((size_kb * bc.KB) % 18446744073709551616 ≠ 0 →
        initializePool bc (initializePool bc newBufferManager size_kb).2 size2
          = (false, (initializePool bc newBufferManager size_kb).2))
    ∧ ((size_kb * bc.KB) % 18446744073709551616 = 0 →
        initializePool bc (initializePool bc newBufferManager size_kb).2 size2
          = (true, (initializePool bc newBufferManager size2).2)) := by
  refine ⟨initializePool_new bc size_kb, ?_, ?_⟩
  · intro h
    rw [initializePool_new]
    simp only [initializePool]
    rw [if_pos (Nat.pos_of_ne_zero h)]
  · intro h
    rw [initializePool_new, h]
    simp only [Nat.zero_div, List.replicate_zero]
    have h2 := initializePool_new bc size2
    rw [h2]
    exact h2

/-- Witness for C21 in the sample configuration: `initialize(0)` followed by
`initialize(1)`; the second call returns true and allocates the one-frame
pool. -/
theorem initialize_twice_witness :
    (0 * sampleBuf.KB) % 18446744073709551616 = 0
    ∧ initializePool sampleBuf (initializePool sampleBuf newBufferManager 0).2 1
        = (true, pool1) :=
  ⟨by decide, (initialize_twice sampleBuf 0 1).2.2 (by decide)⟩

/-! ## No call unpins a frame -/

/-- C23: when `listTables` returns a list that contains `name`,
`createTable(name, columns)` returns `false` and leaves every file, the catalog
and the table file among them, as it is. -/
theorem createTable_existing (cfg : Config) (fs : FS) (db : Database) (junkT : Bytes)
    (junkC : Nat → Bytes) (name : Bytes) (columns : List (Bytes × Int)) (tables : List Bytes)
    (hlist : listTables cfg fs db = .ok tables) (hmem : name ∈ tables) :
    createTable cfg fs db junkT junkC name columns = (.ok false, fs) := by
  unfold createTable
  cases ho : db.is_open_ with
  | false => simp
  | true =>
    have hc : tables.contains name = true := by simpa using hmem
    simp only [tableExists, hlist, hc]
    simp

set_option maxRecDepth 100000 in
/-- Witness for C23 in the sample configuration: `createTable("users", ...)` a
second time, with other columns. -/
theorem createTable_existing_witness :
    listTables sampleConfig (usersFS sampleConfig [] zeroJunk) testDb = .ok [str "users"] ∧
    createTable sampleConfig (usersFS sampleConfig [] zeroJunk) testDb [] zeroJunk (str "users")
        [(str "id", sampleConfig.INT)]
      = (.ok false, usersFS sampleConfig [] zeroJunk) :=
  ⟨by decide,
    createTable_existing sampleConfig (usersFS sampleConfig [] zeroJunk) testDb [] zeroJunk
      (str "users") [(str "id", sampleConfig.INT)] [str "users"] (by decide) (by decide)⟩

/-! ## The catalog after `createTable` and `dropTable` -/

theorem mkTableInfo_length (cfg : Config) (hwf : cfg.WF) (junk name : Bytes) (n : Nat) :
    (mkTableInfo cfg junk name n).length = cfg.megaSize := by
  have h := hwf
  simp only [Config.WF] at h
  unfold mkTableInfo
  have h1 : (poke (fit cfg.megaSize junk) cfg.megaName (strncpy name cfg.MAX_TABLE_NAME)).length
      = cfg.megaSize := by
    rw [poke_length _ _ _ (by rw [strncpy_length, fit_length]; omega), fit_length]
  rw [poke_length _ _ _ (by rw [storeInt_length, h1]; omega), h1]

theorem megaName_mkTableInfo (cfg : Config) (hwf : cfg.WF) (junk name : Bytes) (n : Nat)
    (h0 : ∀ b ∈ name, b ≠ 0) (hl : name.length < cfg.MAX_TABLE_NAME) :
    readCStr (mkTableInfo cfg junk name n) cfg.megaName = .ok name := by
  have h := hwf
  simp only [Config.WF] at h
  unfold mkTableInfo
  apply readCStr_of_peek _ _ _ h0
  have h1 : (poke (fit cfg.megaSize junk) cfg.megaName (strncpy name cfg.MAX_TABLE_NAME)).length
      = cfg.megaSize := by
    rw [poke_length _ _ _ (by rw [strncpy_length, fit_length]; omega), fit_length]
  rw [peek_poke_other _ _ _ _ _ (by rw [storeInt_length, h1]; omega)
    (by rw [storeInt_length]; omega)]
  rw [peek_poke_take _ _ _ _ (by rw [fit_length]; omega) (by rw [strncpy_length]; omega)]
  exact strncpy_take name cfg.MAX_TABLE_NAME h0 hl

theorem megaSize_pos (cfg : Config) (hwf : cfg.WF) : 0 < cfg.megaSize := by
  have h := hwf
  simp only [Config.WF] at h
  omega

theorem mapE_append_one {α β : Type} (f : α → Except Fault β) (a : α) (b : β) :
    ∀ (as : List α) (bs : List β), mapE f as = .ok bs → f a = .ok b →
      mapE f (as ++ [a]) = .ok (bs ++ [b]) := by
  intro as
  induction as with
  | nil =>
    intro bs h hb
    simp only [mapE] at h
    cases h
    simp [mapE, hb]
  | cons x xs ih =>
    intro bs h hb
    simp only [mapE] at h
    cases hx : f x with
    | error e => simp [hx] at h
    | ok y =>
      cases hxs : mapE f xs with
      | error e => simp [hx, hxs] at h
      | ok ys =>
        simp only [hx, hxs] at h
        cases h
        simp [mapE, hx, ih ys hxs hb]

/-- The list of names after one block was appended to a catalog made of whole
blocks. -/
theorem listTables_appended (cfg : Config) (hwf : cfg.WF) (fs fs2 : FS) (db : Database)
    (data block name : Bytes) (tables : List Bytes)
    (hopen : db.is_open_ = true) (hsys : fs.file (sysPath cfg db) = some data)
    (hwhole : (readAll cfg.megaSize data).flatten = data)
    (hlist : listTables cfg fs db = .ok tables)
    (hlen : block.length = cfg.megaSize) (hname : readCStr block cfg.megaName = .ok name)
    (hsys2 : fs2.file (sysPath cfg db) = some (data ++ block)) :
    listTables cfg fs2 db = .ok (tables ++ [name]) := by
  have hpos := megaSize_pos cfg hwf
  simp only [listTables, hopen, hsys, Bool.not_true, Bool.false_eq_true, if_false] at hlist
  simp only [listTables, hopen, hsys2, Bool.not_true, Bool.false_eq_true, if_false]
  have hr : readAll cfg.megaSize (data ++ block) = readAll cfg.megaSize data ++ [block] := by
    conv_lhs => rw [← hwhole]
    rw [readAll_blocks cfg.megaSize hpos _ _ (readAll_mem_length _ _)]
    have hb := readAll_cons cfg.megaSize hpos block [] hlen
    rw [List.append_nil, readAll_short cfg.megaSize [] (by simpa using hpos)] at hb
    rw [hb]
  rw [hr]
  exact mapE_append_one _ block name _ _ hlist hname

theorem append_sys_file (cfg : Config) (fs : FS) (db : Database) (data block : Bytes)
    (hsys : fs.file (sysPath cfg db) = some data) :
    (fs.append (sysPath cfg db) block).file (sysPath cfg db) = some (data ++ block) := by
  simp [FS.append, FS.write, hsys]

/-- A `createTable` that returns `true` for a name that fits its slot appends
the name to the list `listTables` returns. -/
theorem createTable_appends_name (cfg : Config) (hwf : cfg.WF) (fs : FS) (db : Database)
    (junkT : Bytes) (junkC : Nat → Bytes) (name : Bytes) (columns : List (Bytes × Int))
    (data : Bytes) (tables : List Bytes)
    (hsys : fs.file (sysPath cfg db) = some data)
    (hwhole : (readAll cfg.megaSize data).flatten = data)
    (hlist : listTables cfg fs db = .ok tables)
    (h0 : ∀ b ∈ name, b ≠ 0) (hl : name.length < cfg.MAX_TABLE_NAME)
    (halias : tablePath cfg db name ≠ sysPath cfg db)
    (hres : (createTable cfg fs db junkT junkC name columns).1 = .ok true) :
    listTables cfg (createTable cfg fs db junkT junkC name columns).2 db
      = .ok (tables ++ [name]) := by
  have hopen := (createTable_true cfg fs db junkT junkC name columns hres).1
  have hblock := megaName_mkTableInfo cfg hwf junkT name columns.length h0 hl
  have hlen := mkTableInfo_length cfg hwf junkT name columns.length
  have hne : sysPath cfg db ≠ tablePath cfg db name := fun h => halias h.symm
  unfold createTable at hres ⊢
  cases hc : tables.contains name with
  | true =>
    simp only [hopen, Bool.not_true, Bool.false_eq_true, if_false, tableExists, hlist, hc] at hres
    simp at hres
  | false =>
    simp only [hopen, Bool.not_true, Bool.false_eq_true, if_false, tableExists, hlist, hc]
      at hres ⊢
    by_cases h1 : fs.canWrite (sysPath cfg db) = true
    · simp only [h1, Bool.not_true, Bool.false_eq_true, if_false] at hres ⊢
      by_cases h2 : (fs.append (sysPath cfg db)
          (mkTableInfo cfg junkT name columns.length)).canWrite (tablePath cfg db name) = true
      · simp only [h2, Bool.not_true, Bool.false_eq_true, if_false]
        apply listTables_appended cfg hwf fs _ db data _ name tables hopen hsys hwhole
          hlist hlen hblock
        simp [FS.append, FS.write, hsys, hne]
      · simp [h2] at hres
    · simp [h1] at hres

/-- C24 fails on a `createTable` whose table file cannot be created: the call
fails and is listed all the same, the catalog entry being written before the
table file is opened (lines 132-139).  For a new name that fits its slot, on a
catalog of whole blocks, when the table file cannot be created `createTable`
returns `false` and `listTables` returns the old list with the name appended. -/
theorem createTable_failed_is_listed (cfg : Config) (hwf : cfg.WF) (fs : FS) (db : Database)
    (junkT : Bytes) (junkC : Nat → Bytes) (name : Bytes) (columns : List (Bytes × Int))
    (data : Bytes) (tables : List Bytes)
    (hopen : db.is_open_ = true)
    (hsys : fs.file (sysPath cfg db) = some data)
    (hwhole : (readAll cfg.megaSize data).flatten = data)
    (hlist : listTables cfg fs db = .ok tables) (hnew : name ∉ tables)
    (h0 : ∀ b ∈ name, b ≠ 0) (hl : name.length < cfg.MAX_TABLE_NAME)
    (hno : fs.canWrite (tablePath cfg db name) = false) :
    (createTable cfg fs db junkT junkC name columns).1 = .ok false ∧
    listTables cfg (createTable cfg fs db junkT junkC name columns).2 db
      = .ok (tables ++ [name]) := by
  have hblock := megaName_mkTableInfo cfg hwf junkT name columns.length h0 hl
  have hlen := mkTableInfo_length cfg hwf junkT name columns.length
  have hc : tables.contains name = false := by simpa using hnew
  have h1 : fs.canWrite (sysPath cfg db) = true := by simp [FS.canWrite, hsys]
  have hne : tablePath cfg db name ≠ sysPath cfg db := by
    intro h
    rw [h, h1] at hno
    cases hno
  have h2 : (fs.append (sysPath cfg db)
      (mkTableInfo cfg junkT name columns.length)).canWrite (tablePath cfg db name) = false := by
    simp only [FS.canWrite, Bool.or_eq_false_iff] at hno ⊢
    simp only [FS.append, FS.write, if_neg hne]
    exact hno
  have hct : createTable cfg fs db junkT junkC name columns
      = (.ok false, fs.append (sysPath cfg db) (mkTableInfo cfg junkT name columns.length)) := by
    unfold createTable
    simp only [hopen, Bool.not_true, Bool.false_eq_true, if_false, tableExists, hlist, hc, h1, h2,
      Bool.not_false, if_true]
  rw [hct]
  exact ⟨rfl, listTables_appended cfg hwf fs _ db data _ name tables hopen hsys hwhole hlist hlen
    hblock (append_sys_file cfg fs db data _ hsys)⟩

set_option maxRecDepth 100000 in
/-- Witness for C24 in the sample configuration: `createTable("a/b", ...)` on
the fresh fixture, where `./test_db_a/` is no directory, returns `false`, and
`listTables` returns `["a/b"]`. -/
theorem createTable_failed_is_listed_witness :
    (createTable sampleConfig flatDirFS testDb [] zeroJunk (str "a/b")
      (usersColumns sampleConfig)).1 = .ok false ∧
    listTables sampleConfig (createTable sampleConfig flatDirFS testDb [] zeroJunk (str "a/b")
      (usersColumns sampleConfig)).2 testDb = .ok ([] ++ [str "a/b"]) :=
  createTable_failed_is_listed sampleConfig (by decide) flatDirFS testDb [] zeroJunk (str "a/b")
    (usersColumns sampleConfig) [] [] rfl (by decide) (by decide) (by decide) (by decide)
    (by decide) (by decide) (by decide)

theorem dropLoop_spec (cfg : Config) (name : Bytes) :
    ∀ (blocks : List Bytes) (names : List Bytes),
      mapE (fun m => readCStr m cfg.megaName) blocks = .ok names →
      ∃ kept, dropLoop cfg name blocks = .ok kept ∧
        mapE (fun m => readCStr m cfg.megaName) kept = .ok (names.filter (fun n => n ≠ name)) ∧
        ∀ b ∈ kept, b ∈ blocks := by
  intro blocks
  induction blocks with
  | nil =>
    intro names h
    simp only [mapE] at h
    cases h
    exact ⟨[], rfl, rfl, fun b hb => hb⟩
  | cons x xs ih =>
    intro names h
    simp only [mapE] at h
    cases hx : readCStr x cfg.megaName with
    | error e => simp [hx] at h
    | ok y =>
      cases hxs : mapE (fun m => readCStr m cfg.megaName) xs with
      | error e => simp [hx, hxs] at h
      | ok ys =>
        simp only [hx, hxs] at h
        cases h
        obtain ⟨kept, hk, hm, hsub⟩ := ih ys hxs
        by_cases hy : y = name
        · refine ⟨kept, ?_, ?_, fun b hb => List.mem_cons_of_mem _ (hsub b hb)⟩
          · simp [dropLoop, hx, hk, hy]
          · simp [hy, hm]
        · refine ⟨x :: kept, ?_, ?_, ?_⟩
          · simp [dropLoop, hx, hk, hy]
          · simp [mapE, hx, hm, hy]
          · intro b hb
            rcases List.mem_cons.mp hb with h1 | h1
            · rw [h1]
              exact List.mem_cons_self _ _
            · exact List.mem_cons_of_mem _ (hsub b h1)

/-- Method `dropTable` on an open database whose catalog can be listed, for a
name whose table file is not the catalog file: the result tells whether there
was a table file, and `listTables` then returns the old list without the name,
the other names in their order. -/
theorem dropTable_removes_name (cfg : Config) (hwf : cfg.WF) (fs : FS) (db : Database)
    (name data : Bytes) (tables : List Bytes)
    (hopen : db.is_open_ = true) (hsys : fs.file (sysPath cfg db) = some data)
    (hlist : listTables cfg fs db = .ok tables)
    (halias : tablePath cfg db name ≠ sysPath cfg db) :
    (dropTable cfg fs db name).1 = .ok (fs.file (tablePath cfg db name)).isSome ∧
    listTables cfg (dropTable cfg fs db name).2 db = .ok (tables.filter (fun n => n ≠ name)) := by
  have hpos := megaSize_pos cfg hwf
  have hne : sysPath cfg db ≠ tablePath cfg db name := fun h => halias h.symm
  simp only [listTables, hopen, hsys, Bool.not_true, Bool.false_eq_true, if_false] at hlist
  obtain ⟨kept, hk, hm, hsub⟩ := dropLoop_spec cfg name _ _ hlist
  have hw : fs.canWrite (sysPath cfg db) = true := by simp [FS.canWrite, hsys]
  have hd : dropTable cfg fs db name
      = (.ok ((fs.write (sysPath cfg db) kept.flatten).file (tablePath cfg db name)).isSome,
          (fs.write (sysPath cfg db) kept.flatten).remove (tablePath cfg db name)) := by
    unfold dropTable
    simp only [hopen, Bool.not_true, Bool.false_eq_true, if_false, hsys, hk, hw]
  rw [hd]
  constructor
  · simp [FS.write, halias]
  · have hfile : ((fs.write (sysPath cfg db) kept.flatten).remove (tablePath cfg db name)).file
        (sysPath cfg db) = some kept.flatten := by
      simp [FS.write, FS.remove, hne]
    simp only [listTables, hopen, hfile, Bool.not_true, Bool.false_eq_true, if_false]
    rw [readAll_flatten cfg.megaSize hpos kept
      (fun b hb => readAll_mem_length _ _ b (hsub b hb))]
    exact hm

/-! ## Names as long as their slot -/

set_option maxRecDepth 100000 in
/-- C25 fails on a name that fills its slot.  In the sample configuration, `createTable` with a name of
`MAX_TABLE_NAME` letters returns `true` twice in a row: the name is compared
with what `listTables` reads back from the slot, which has no room for the
terminator and is read on into `num_columns`.  The catalog then holds the same
block twice and `listTables` returns the same string twice. -/
theorem long_name_listed_twice :
    (createTable sampleConfig (freshFS sampleConfig) testDb [] zeroJunk longName
      (usersColumns sampleConfig)).1 = .ok true ∧
    listTables sampleConfig longFS testDb = .ok [longName ++ [3]] ∧
    (createTable sampleConfig longFS testDb [] zeroJunk longName
      (usersColumns sampleConfig)).1 = .ok true ∧
    listTables sampleConfig
      (createTable sampleConfig longFS testDb [] zeroJunk longName (usersColumns sampleConfig)).2
      testDb = .ok [longName ++ [3], longName ++ [3]] ∧
    ((createTable sampleConfig longFS testDb [] zeroJunk longName
      (usersColumns sampleConfig)).2.file (sysPath sampleConfig testDb)).map (readAll 36)
      = some [longName ++ [3, 0, 0, 0], longName ++ [3, 0, 0, 0]] := by
  decide

/-! ## The table named like the catalog -/

theorem tablePath_sys (cfg : Config) (db : Database) :
    tablePath cfg db (str "sys") = sysPath cfg db := by
  simp only [tablePath, sysPath, List.append_assoc]
  rfl

/-- C26 fails on the name `sys`.  On the fresh fixture, where no table was created,
`dropTable("sys")` returns `true` and the catalog file is gone afterwards: the
table file of the name `sys` is the catalog file `DBPATH + db_name_ + "_sys"`
itself, which the last line of `dropTable` removes. -/
theorem dropTable_sys (cfg : Config) :
    listTables cfg (freshFS cfg) testDb = .ok [] ∧
    (freshFS cfg).file (sysPath cfg testDb) = some [] ∧
    (dropTable cfg (freshFS cfg) testDb (str "sys")).1 = .ok true ∧
    (dropTable cfg (freshFS cfg) testDb (str "sys")).2.file (sysPath cfg testDb) = none := by
  have ho : testDb.is_open_ = true := rfl
  have hf : (freshFS cfg).file (sysPath cfg testDb) = some [] := by simp [freshFS]
  have hw : (freshFS cfg).canWrite (sysPath cfg testDb) = true := by simp [FS.canWrite, hf]
  refine ⟨?_, hf, ?_, ?_⟩
  · simp only [listTables, ho, hf, Bool.not_true, Bool.false_eq_true, if_false]
    rfl
  · simp only [dropTable, ho, hf, hw, Bool.not_true, Bool.false_eq_true, if_false, readAll,
      List.length_nil, readBlocks, dropLoop, tablePath_sys]
    simp [FS.write]
  · simp only [dropTable, ho, hf, hw, Bool.not_true, Bool.false_eq_true, if_false, readAll,
      List.length_nil, readBlocks, dropLoop, tablePath_sys]
    simp [FS.write, FS.remove]

/-! ## No database open -/

/-- C27: while no database is open, `createTable`, `dropTable`, `insert`,
`select`, `delete_` and `describe` return `false` for every argument and
whatever the files are, the files are what they were, `select` hands no row to
the callback, `describe` prints nothing, and `listTables` returns the empty
list. -/
theorem closed_database (cfg : Config) (fs : FS) (db : Database) (junkT : Bytes)
    (junkC : Nat → Bytes) (name : Bytes) (columns : List (Bytes × Int)) (values names : List Bytes)
    (condition : Bytes) (hclosed : db.is_open_ = false) :
    createTable cfg fs db junkT junkC name columns = (.ok false, fs) ∧
    dropTable cfg fs db name = (.ok false, fs) ∧
    insert cfg fs db junkC name values = (false, fs) ∧
    select cfg fs db name names condition = (.ok false, []) ∧
    delete_ cfg fs db name condition = (.ok false, fs) ∧
    describe cfg fs db name = .ok (false, []) ∧
    listTables cfg fs db = .ok [] := by
  simp [createTable, dropTable, insert, select, delete_, describe, listTables, hclosed]

/-- Witness for C27: the closed database of the fixture, the files of the
sample configuration after `createTable("users", ...)`. -/
theorem closed_database_witness :
    createTable sampleConfig (usersFS sampleConfig [] zeroJunk)
        { is_open_ := false, db_name_ := [] } [] zeroJunk (str "users")
        (usersColumns sampleConfig) = (.ok false, usersFS sampleConfig [] zeroJunk) ∧
    select sampleConfig (usersFS sampleConfig [] zeroJunk) { is_open_ := false, db_name_ := [] }
      (str "users") [str "*"] [] = (.ok false, []) :=
  have h := closed_database sampleConfig (usersFS sampleConfig [] zeroJunk)
    { is_open_ := false, db_name_ := [] } [] zeroJunk (str "users") (usersColumns sampleConfig)
    [] [str "*"] [] rfl
  ⟨h.1, h.2.2.2.1⟩

/-! ## Open and closed -/

theorem dbPath_sys_ne (cfg : Config) (name : Bytes) :
    dbPath cfg name ++ str "_sys" ≠ dbPath cfg name := by
  intro h
  have hl := congrArg List.length h
  simp [str] at hl

/-- C28: with a database open, `create` and `open` return `false` and change
neither the object nor the files.  With none open, `create` returns `true`
when the page file and the catalog file can be written, `open` returns `true`
exactly when the path of the page file exists, and both then leave `isOpen()`
true with `name` as the current database.  Method `close` returns `true` and
leaves `isOpen()` false when a database is open, and returns `false` and
changes nothing when none is; `drop(name)` of the open database leaves
`isOpen()` false. -/
theorem open_closed_state (cfg : Config) (pc : PageConfig) (fs : FS) (dirs : Bytes → Bool)
    (db : Database) (junk : Nat → Bytes) (name : Bytes) (num_pages : Nat)
    (entries : List Bytes) :
    (db.is_open_ = true →
      create cfg pc fs db junk name num_pages = (false, fs, db) ∧
      open_ cfg fs dirs db name = (false, db)) ∧
    ((create cfg pc fs db junk name num_pages).1 = true →
      isOpen (create cfg pc fs db junk name num_pages).2.2 = true ∧
      (create cfg pc fs db junk name num_pages).2.2.db_name_ = name) ∧
    (db.is_open_ = false → fs.canWrite (dbPath cfg name) = true →
      fs.canWrite (dbPath cfg name ++ str "_sys") = true →
      (create cfg pc fs db junk name num_pages).1 = true ∧
      (create cfg pc fs db junk name num_pages).2.2 = { is_open_ := true, db_name_ := name }) ∧
    ((open_ cfg fs dirs db name).1 = true →
      isOpen (open_ cfg fs dirs db name).2 = true ∧
      (open_ cfg fs dirs db name).2.db_name_ = name) ∧
    (db.is_open_ = false →
      ((fs.file (dbPath cfg name)).isSome || dirs (dbPath cfg name)) = true →
      open_ cfg fs dirs db name = (true, { is_open_ := true, db_name_ := name })) ∧
    (db.is_open_ = false →
      ((fs.file (dbPath cfg name)).isSome || dirs (dbPath cfg name)) = false →
      open_ cfg fs dirs db name = (false, db)) ∧
    (db.is_open_ = true → (close db).1 = true ∧ isOpen (close db).2 = false) ∧
    (db.is_open_ = false → close db = (false, db)) ∧
    (db.is_open_ = true → db.db_name_ = name →
      isOpen (drop cfg fs db entries name).2.2 = false) := by
  refine ⟨?_, ?_, ?_, ?_, ?_, ?_, ?_, ?_, ?_⟩
  · intro h
    simp [create, open_, h]
  · intro h
    unfold create at h ⊢
    by_cases h1 : db.is_open_ = true
    · simp [h1] at h
    · by_cases h2 : fs.canWrite (dbPath cfg name) = true
      · simp only [h1, h2, Bool.not_true, Bool.false_eq_true, if_false] at h ⊢
        split at h
        · simp at h
        · rename_i h3
          rw [if_neg h3]
          exact ⟨rfl, rfl⟩
      · simp [h1, h2] at h
  · intro h1 h2 h3
    have hne := dbPath_sys_ne cfg name
    have h4 : (fs.write (dbPath cfg name)
        (mkPage pc (junk 0) pc.HEADER_PAGE ++
          ((List.range (num_pages - 1)).map
            (fun k => mkPage pc (junk (k + 1)) (k + 2))).flatten)).canWrite
        (dbPath cfg name ++ str "_sys") = true := by
      simp only [FS.canWrite, FS.write, if_neg hne] at h3 ⊢
      exact h3
    unfold create
    simp only [h1, h2, h4, Bool.not_true, Bool.false_eq_true, if_false, and_self]
  · intro h
    unfold open_ at h ⊢
    by_cases h1 : db.is_open_ = true
    · simp [h1] at h
    · by_cases h2 : ((fs.file (dbPath cfg name)).isSome || dirs (dbPath cfg name)) = true
      · simp only [h1, h2, Bool.not_true, Bool.false_eq_true, if_false, isOpen, and_self]
      · simp [h1, h2] at h
  · intro h1 h2
    simp only [open_, h1, h2, Bool.not_true, Bool.false_eq_true, if_false]
  · intro h1 h2
    simp only [open_, h1, h2, Bool.not_false, Bool.false_eq_true, if_false, if_true]
  · intro h
    simp [close, isOpen, h]
  · intro h
    simp [close, h]
  · intro h hn
    simp [drop, close, isOpen, h, hn]

set_option maxRecDepth 100000 in
/-- Witness for C28 in the sample configuration: `create("test_db", 2)` in an
empty directory opens the database; on the files it leaves, `open("test_db")`
on a closed object opens the database and `open("other")` returns `false`;
`open("")` opens the directory `./` as a database; with
a database open, `create` and `open` return `false`, `close` returns `true`, and
`drop("test_db")` closes it; `close` on the closed object returns `false`. -/
theorem open_closed_state_witness :
    ((create sampleConfig samplePages emptyFS closedDb zeroJunk (str "test_db") 2).1 = true ∧
      (create sampleConfig samplePages emptyFS closedDb zeroJunk (str "test_db") 2).2.2
        = testDb) ∧
    open_ sampleConfig
        (create sampleConfig samplePages emptyFS closedDb zeroJunk (str "test_db") 2).2.1
        sampleDirs closedDb (str "test_db") = (true, testDb) ∧
    open_ sampleConfig
        (create sampleConfig samplePages emptyFS closedDb zeroJunk (str "test_db") 2).2.1
        sampleDirs closedDb (str "other") = (false, closedDb) ∧
    open_ sampleConfig emptyFS sampleDirs closedDb []
      = (true, { is_open_ := true, db_name_ := [] }) ∧
    (create sampleConfig samplePages (freshFS sampleConfig) testDb zeroJunk (str "other") 2
        = (false, freshFS sampleConfig, testDb) ∧
      open_ sampleConfig (freshFS sampleConfig) sampleDirs testDb (str "other")
        = (false, testDb)) ∧
    ((close testDb).1 = true ∧ isOpen (close testDb).2 = false) ∧
    close closedDb = (false, closedDb) ∧
    isOpen (drop sampleConfig (freshFS sampleConfig) testDb [] (str "test_db")).2.2 = false :=
  have hc := open_closed_state sampleConfig samplePages emptyFS sampleDirs closedDb zeroJunk
    (str "test_db") 2 []
  have hp := open_closed_state sampleConfig samplePages
    (create sampleConfig samplePages emptyFS closedDb zeroJunk (str "test_db") 2).2.1
    sampleDirs closedDb zeroJunk (str "test_db") 2 []
  have hq := open_closed_state sampleConfig samplePages
    (create sampleConfig samplePages emptyFS closedDb zeroJunk (str "test_db") 2).2.1
    sampleDirs closedDb zeroJunk (str "other") 2 []
  have he := open_closed_state sampleConfig samplePages emptyFS sampleDirs closedDb zeroJunk
    [] 2 []
  have ho := open_closed_state sampleConfig samplePages (freshFS sampleConfig) sampleDirs testDb
    zeroJunk (str "other") 2 []
  have hd := open_closed_state sampleConfig samplePages (freshFS sampleConfig) sampleDirs testDb
    zeroJunk (str "test_db") 2 []
  ⟨hc.2.2.1 rfl (by decide) (by decide), hp.2.2.2.2.1 rfl (by decide),
    hq.2.2.2.2.2.1 rfl (by decide), he.2.2.2.2.1 rfl (by decide), ho.1 rfl, hd.2.2.2.2.2.2.1 rfl, hc.2.2.2.2.2.2.2.1 rfl,
    hd.2.2.2.2.2.2.2.2 rfl rfl⟩

/-! ## The column list of `select` -/

theorem findColumn_ok (cfg : Config) (col_name : Bytes) :
    ∀ columns : List Bytes, (∀ c ∈ columns, (colNameOf cfg c).isOk = true) →
      ∃ r, findColumn cfg col_name columns = .ok r := by
  intro columns
  induction columns with
  | nil => intro _; exact ⟨none, rfl⟩
  | cons c cs ih =>
    intro h
    have hok := h c (by simp)
    obtain ⟨r, hr⟩ := ih (fun d hd => h d (by simp [hd]))
    cases hn : colNameOf cfg c with
    | error e => simp [hn, Except.isOk, Except.toBool] at hok
    | ok n =>
      by_cases heq : n = col_name
      · exact ⟨some (0, c), by simp [findColumn, hn, heq]⟩
      · cases r with
        | none => exact ⟨none, by simp [findColumn, hn, hr, heq]⟩
        | some ic => exact ⟨some (ic.1 + 1, ic.2), by simp [findColumn, hn, hr, heq]⟩

theorem findColumn_some_spec (cfg : Config) (col_name : Bytes) :
    ∀ (columns : List Bytes) (i : Nat) (col : Bytes),
      findColumn cfg col_name columns = .ok (some (i, col)) →
      columns[i]? = some col ∧ colNameOf cfg col = .ok col_name ∧
      ∀ j c, j < i → columns[j]? = some c → colNameOf cfg c ≠ .ok col_name := by
  intro columns
  induction columns with
  | nil => intro i col h; simp [findColumn] at h
  | cons c cs ih =>
    intro i col h
    simp only [findColumn] at h
    cases hn : colNameOf cfg c with
    | error e => simp [hn] at h
    | ok n =>
      simp only [hn] at h
      by_cases heq : n = col_name
      · rw [if_pos heq] at h
        simp only [Except.ok.injEq, Option.some.injEq, Prod.mk.injEq] at h
        obtain ⟨h1, h2⟩ := h
        subst h1
        subst h2
        refine ⟨by simp, by rw [hn, heq], ?_⟩
        intro j _ hj
        omega
      · rw [if_neg heq] at h
        cases hr : findColumn cfg col_name cs with
        | error e => simp [hr] at h
        | ok r =>
          cases r with
          | none => simp [hr] at h
          | some ic =>
            simp only [hr, Except.ok.injEq, Option.some.injEq, Prod.mk.injEq] at h
            obtain ⟨h1, h2⟩ := h
            obtain ⟨g1, g2, g3⟩ := ih ic.1 ic.2 hr
            subst h1
            subst h2
            refine ⟨by simpa using g1, g2, ?_⟩
            intro j d hj hd
            cases j with
            | zero =>
              simp only [List.getElem?_cons_zero, Option.some.injEq] at hd
              subst hd
              rw [hn]
              intro hc
              cases hc
              exact heq rfl
            | succ k =>
              simp only [List.getElem?_cons_succ] at hd
              exact g3 k d (by omega) hd

theorem selectFold_bad (cfg : Config) (table_columns : List Bytes) (bad : Bytes)
    (hread : ∀ c ∈ table_columns, (colNameOf cfg c).isOk = true)
    (habs : ∀ c ∈ table_columns, colNameOf cfg c ≠ .ok bad) :
    ∀ columns : List Bytes, bad ∈ columns →
      columns.foldr (fun col_name acc =>
        match findColumn cfg col_name table_columns with
        | .error e => .error e
        | .ok none => .ok none
        | .ok (some (i, _)) =>
          match acc with
          | .error e => .error e
          | .ok none => .ok none
          | .ok (some is) => .ok (some (i :: is))) (.ok (some []))
        = (.ok none : Except Fault (Option (List Nat))) := by
  intro columns
  induction columns with
  | nil => intro h; simp at h
  | cons n ns ih =>
    intro h
    simp only [List.foldr_cons]
    obtain ⟨r, hr⟩ := findColumn_ok cfg n table_columns hread
    cases r with
    | none => simp only [hr]
    | some ic =>
      simp only [hr]
      rcases List.mem_cons.mp h with h1 | h1
      · subst h1
        rw [findColumn_absent cfg bad table_columns (fun c hc => ⟨hread c hc, habs c hc⟩)] at hr
        cases hr
      · rw [ih h1]

theorem selectFold_found (cfg : Config) (table_columns : List Bytes) :
    ∀ (columns : List Bytes) (idxs : List Nat),
      List.Forall₂ (fun n i => ∃ col, findColumn cfg n table_columns = .ok (some (i, col)))
        columns idxs →
      columns.foldr (fun col_name acc =>
        match findColumn cfg col_name table_columns with
        | .error e => .error e
        | .ok none => .ok none
        | .ok (some (i, _)) =>
          match acc with
          | .error e => .error e
          | .ok none => .ok none
          | .ok (some is) => .ok (some (i :: is))) (.ok (some []))
        = (.ok (some idxs) : Except Fault (Option (List Nat))) := by
  intro columns idxs h
  induction h with
  | nil => rfl
  | cons hhead _ ih =>
    obtain ⟨col, hcol⟩ := hhead
    simp only [List.foldr_cons, hcol, ih]

/-- The column list of `select` against the blocks `getTableColumns` reads, the
stored names being terminated C strings.  When the
requested list is not `["*"]` and contains a name that no column has, compared
byte for byte, `select` returns `false` and hands no row to the callback.  With
`["*"]` the selected indices are `0, 1, ...` in the order of the columns.
Otherwise, when every requested name is found, the selected indices are those
of the requested names in the order requested, each the position of the first
column with that name, and `select` runs its read loop with them: each row is
`projectRow` over these indices, value by value in their order. -/
theorem select_column_list (cfg : Config) (fs : FS) (db : Database)
    (table_name data : Bytes) (columns : List Bytes) (condition bad : Bytes) (idxs : List Nat)
    (hread : ∀ c ∈ getTableColumns cfg fs db table_name, (colNameOf cfg c).isOk = true) :
    (columns ≠ [str "*"] → bad ∈ columns →
      (∀ c ∈ getTableColumns cfg fs db table_name, colNameOf cfg c ≠ .ok bad) →
      select cfg fs db table_name columns condition = (.ok false, [])) ∧
    selectIndices cfg (getTableColumns cfg fs db table_name) [str "*"]
      = .ok (some (List.range (getTableColumns cfg fs db table_name).length)) ∧
    (columns ≠ [str "*"] →
      List.Forall₂ (fun n i => ∃ col,
        findColumn cfg n (getTableColumns cfg fs db table_name) = .ok (some (i, col)))
        columns idxs →
      selectIndices cfg (getTableColumns cfg fs db table_name) columns = .ok (some idxs) ∧
      List.Forall₂ (fun n i => ∃ col,
        (getTableColumns cfg fs db table_name)[i]? = some col ∧ colNameOf cfg col = .ok n ∧
        ∀ j c, j < i → (getTableColumns cfg fs db table_name)[j]? = some c →
          colNameOf cfg c ≠ .ok n) columns idxs ∧
      (db.is_open_ = true → getTableColumns cfg fs db table_name ≠ [] →
        fs.file (tablePath cfg db table_name) = some data →
        select cfg fs db table_name columns condition
          = selectLoop cfg (getTableColumns cfg fs db table_name) idxs condition
              (readAll cfg.recSize data))) := by
  refine ⟨?_, ?_, ?_⟩
  · intro hstar hmem habs
    have hsel : selectIndices cfg (getTableColumns cfg fs db table_name) columns = .ok none := by
      unfold selectIndices
      rw [if_neg hstar]
      exact selectFold_bad cfg _ bad hread habs columns hmem
    unfold select
    by_cases ho : db.is_open_ = true
    · simp only [ho, Bool.not_true, Bool.false_eq_true, if_false, hsel]
      split <;> rfl
    · simp [ho]
  · simp [selectIndices]
  · intro hstar hall
    have hsel : selectIndices cfg (getTableColumns cfg fs db table_name) columns
        = .ok (some idxs) := by
      unfold selectIndices
      rw [if_neg hstar]
      exact selectFold_found cfg _ columns idxs hall
    refine ⟨hsel, ?_, ?_⟩
    · exact List.Forall₂.imp (fun {n i} h => by
        obtain ⟨col, hcol⟩ := h
        exact ⟨col, findColumn_some_spec cfg n _ i col hcol⟩) hall
    · intro ho hcols hf
      have hne : (getTableColumns cfg fs db table_name).isEmpty = false := by
        cases hc : getTableColumns cfg fs db table_name with
        | nil => exact absurd hc hcols
        | cons a t => rfl
      unfold select
      simp only [ho, Bool.not_true, Bool.false_eq_true, if_false, hne, hsel, hf]

set_option maxRecDepth 100000 in
/-- On the table `users (id, name, age)` of the sample configuration, right
after `createTable`: the list `["id", "Name"]` is refused, `Name` being no column,
and the list `["name", "id"]` selects the indices 1 and 0, in that order. -/
theorem select_column_list_witness :
    select sampleConfig (usersFS sampleConfig [] zeroJunk) testDb (str "users")
      [str "id", str "Name"] [] = (.ok false, []) ∧
    selectIndices sampleConfig
      (getTableColumns sampleConfig (usersFS sampleConfig [] zeroJunk) testDb (str "users"))
      [str "name", str "id"] = .ok (some [1, 0]) :=
  have hbad := (select_column_list sampleConfig (usersFS sampleConfig [] zeroJunk) testDb
    (str "users") [] [str "id", str "Name"] [] (str "Name") [] (by decide)).1
    (by decide) (by decide) (by decide)
  have hgood := ((select_column_list sampleConfig (usersFS sampleConfig [] zeroJunk) testDb
    (str "users") [] [str "name", str "id"] [] [] [1, 0] (by decide)).2.2
    (by decide)
    (List.Forall₂.cons ⟨mkColumn sampleConfig [] (str "name", 2), by decide⟩
      (List.Forall₂.cons ⟨mkColumn sampleConfig [] (str "id", 0), by decide⟩
        List.Forall₂.nil))).1
  ⟨hbad, hgood⟩

/-! ## A string as long as its slot -/

theorem strncpy_long (s : Bytes) (n : Nat) (hs : ∀ b ∈ s, b ≠ 0) (hn : n ≤ s.length) :
    strncpy s n = s.take n := by
  unfold strncpy
  rw [c_str_of_no_zero s hs, List.take_append_of_le_length hn]

theorem c_str_append_no_zero (s t : Bytes) (hs : ∀ b ∈ s, b ≠ 0) :
    c_str (s ++ t) = s ++ c_str t := by
  induction s with
  | nil => simp
  | cons a r ih =>
    have ha : a ≠ 0 := hs a (by simp)
    have hr : ∀ b ∈ r, b ≠ 0 := fun b hb => hs b (by simp [hb])
    have := ih hr
    simp only [c_str] at this
    simp [c_str, ha, this]

theorem drop_poke (mem : Bytes) (off : Nat) (val : Bytes) (h : off ≤ mem.length) :
    (poke mem off val).drop off = val ++ mem.drop (off + val.length) := by
  have h1 : (mem.take off).length = off := by simp [h]
  simp only [poke, List.append_assoc]
  rw [List.drop_append_of_le_length (by omega)]
  rw [List.drop_of_length_le (by omega), List.nil_append]

/-- C30 fails on every value that fills the slot.  For a `VARCHAR` or `CHAR` column and a value without NUL
byte that is at least `MAX_STR_LEN` bytes long, `convertValue` succeeds and
fills the slot with the first `MAX_STR_LEN` bytes of the value, with no
terminator; `convertToString` of that record then reads on after the slot: it
gives the prefix followed by the bytes of the record up to their first NUL, and
leaves the record when there is none. -/
theorem long_string_read_back (cfg : Config) (hwf : cfg.WF) (rec value : Bytes) (type : Int)
    (ht : type = cfg.VARCHAR ∨ type = cfg.CHAR) (hrec : rec.length = cfg.recSize)
    (h0 : ∀ b ∈ value, b ≠ 0) (hlen : cfg.MAX_STR_LEN ≤ value.length) :
    (convertValue cfg value type rec).1 = true ∧
    peek (convertValue cfg value type rec).2 cfg.recStr cfg.MAX_STR_LEN
      = value.take cfg.MAX_STR_LEN ∧
    convertToString cfg (convertValue cfg value type rec).2 type
      = if (rec.drop (cfg.recStr + cfg.MAX_STR_LEN)).contains 0 then
          .ok (value.take cfg.MAX_STR_LEN ++ c_str (rec.drop (cfg.recStr + cfg.MAX_STR_LEN)))
        else .error .overread := by
  have h := hwf
  simp only [Config.WF] at h
  have h1 : type ≠ cfg.INT := by rcases ht with h' | h' <;> omega
  have h2 : type ≠ cfg.FLOAT := by rcases ht with h' | h' <;> omega
  have hoff : cfg.recStr ≤ rec.length := by omega
  have hpre : ∀ b ∈ value.take cfg.MAX_STR_LEN, b ≠ 0 :=
    fun b hb => h0 b (List.mem_of_mem_take hb)
  have hpl : (value.take cfg.MAX_STR_LEN).length = cfg.MAX_STR_LEN := by
    rw [List.length_take]
    omega
  rw [convertValue_str cfg hwf value type ht rec, strncpy_long value _ h0 hlen]
  refine ⟨rfl, ?_, ?_⟩
  · have := peek_poke_same rec cfg.recStr (value.take cfg.MAX_STR_LEN) hoff
    rw [hpl] at this
    exact this
  · simp only [convertToString, if_neg h1, if_neg h2, if_pos ht, readCStr]
    rw [drop_poke rec cfg.recStr _ hoff, hpl, c_str_append_no_zero _ _ hpre]
    have hc : (value.take cfg.MAX_STR_LEN ++ rec.drop (cfg.recStr + cfg.MAX_STR_LEN)).contains 0
        = (rec.drop (cfg.recStr + cfg.MAX_STR_LEN)).contains 0 := by
      have hnot : ¬ (0 ∈ value.take cfg.MAX_STR_LEN) := fun hm => hpre 0 hm rfl
      rw [Bool.eq_iff_iff]
      simp [hnot]
    rw [hc]

set_option maxRecDepth 100000 in
/-- Witness for C30 in the sample configuration, where `str_val` is the last
member of `record`: a value of 33 letters `a` in a `VARCHAR` column is stored
as 32 letters, and reading the record back leaves the record. -/
theorem long_string_read_back_witness :
    (convertValue sampleConfig (List.replicate 33 97) sampleConfig.VARCHAR (fit 40 [])).1 = true ∧
    convertToString sampleConfig
      (convertValue sampleConfig (List.replicate 33 97) sampleConfig.VARCHAR (fit 40 [])).2
      sampleConfig.VARCHAR = .error .overread :=
  have h := long_string_read_back sampleConfig (by decide) (fit 40 []) (List.replicate 33 97)
    sampleConfig.VARCHAR (Or.inl rfl) (by decide) (by decide) (by decide)
  ⟨h.1, h.2.2⟩

/-! ## Text after the digits -/

theorem stoi_digits_then (ds : Bytes) (c : Nat) (rest : Bytes) (hne : ds ≠ [])
    (hd : ∀ d ∈ ds, isDigit d = true) (hc : isDigit c = false)
    (hr : digitsVal ds ≤ 2147483647) : stoi (ds ++ c :: rest) = .ok (digitsVal ds : Int) := by
  obtain ⟨d, t, rfl⟩ := List.exists_cons_of_ne_nil hne
  have hd0 : isDigit d = true := hd d (by simp)
  have hsp : isSpace d = false := by
    simp only [isDigit, Bool.and_eq_true, decide_eq_true_eq] at hd0
    simp [isSpace]
    omega
  have h45 : d ≠ 45 := by
    simp only [isDigit, Bool.and_eq_true, decide_eq_true_eq] at hd0
    omega
  have h43 : d ≠ 43 := by
    simp only [isDigit, Bool.and_eq_true, decide_eq_true_eq] at hd0
    omega
  have htw : (d :: (t ++ c :: rest)).takeWhile isDigit = d :: t := by
    have h1 := @List.takeWhile_append_of_pos Nat isDigit (d :: t) (c :: rest) hd
    rw [List.cons_append] at h1
    rw [h1]
    simp [List.takeWhile_cons, hc]
  unfold stoi
  have hb45 : (some d == some 45) = false := by simp [h45]
  have hb43 : (some d == some 43) = false := by simp [h43]
  simp only [List.cons_append, List.dropWhile_cons, hsp, Bool.false_eq_true, if_false,
    List.head?_cons, hb45, hb43, Bool.or_self, htw, List.isEmpty_cons]
  rw [if_pos (by omega)]

set_option maxRecDepth 100000 in
/-- C31 fails on text that starts with digits.  For an `INT` column,
`convertValue` rejects `abc`, the empty text and `99999999999`, but it accepts
digits followed by anything that is no digit, as `std::stoi` converts the
leading digits and ignores the rest: the record is the one the digits alone
give.  In the sample configuration `insert(["12abc", "John", "25"])` into
`users` returns `true` and leaves the files that `insert(["12", "John", "25"])`
leaves. -/
theorem trailing_text_accepted (cfg : Config) (rec ds rest : Bytes) (c : Nat)
    (hne : ds ≠ []) (hd : ∀ d ∈ ds, isDigit d = true) (hc : isDigit c = false)
    (hr : digitsVal ds ≤ 2147483647) :
    convertValue cfg (str "abc") cfg.INT rec = (false, rec) ∧
    convertValue cfg [] cfg.INT rec = (false, rec) ∧
    convertValue cfg (str "99999999999") cfg.INT rec = (false, rec) ∧
    convertValue cfg (ds ++ c :: rest) cfg.INT rec
      = (true, poke rec cfg.recInt (storeInt (digitsVal ds))) ∧
    convertValue cfg (ds ++ c :: rest) cfg.INT rec = convertValue cfg ds cfg.INT rec ∧
    (insert sampleConfig (usersFS sampleConfig [] zeroJunk) testDb zeroJunk (str "users")
      [str "12abc", str "John", str "25"]).1 = true ∧
    (insert sampleConfig (usersFS sampleConfig [] zeroJunk) testDb zeroJunk (str "users")
      [str "12abc", str "John", str "25"]).2.file (tablePath sampleConfig testDb (str "users"))
      = (insert sampleConfig (usersFS sampleConfig [] zeroJunk) testDb zeroJunk (str "users")
          [str "12", str "John", str "25"]).2.file
          (tablePath sampleConfig testDb (str "users")) := by
  have h1 : stoi (str "abc") = .error .invalid_argument := by decide
  have h2 : stoi [] = .error .invalid_argument := by decide
  have h3 : stoi (str "99999999999") = .error .out_of_range := by decide
  have h4 := stoi_digits_then ds c rest hne hd hc hr
  have h5 := stoi_digits ds hne hd hr
  refine ⟨by simp [convertValue, h1], by simp [convertValue, h2], by simp [convertValue, h3],
    convertValue_int cfg _ _ rec h4, ?_, by decide, by decide⟩
  rw [convertValue_int cfg _ _ rec h4, convertValue_int cfg _ _ rec h5]

/-- Witness for C31: the text `12abc` is stored as the integer 12. -/
theorem trailing_text_accepted_witness :
    convertValue sampleConfig (str "12abc") sampleConfig.INT (fit 40 [])
      = (true, poke (fit 40 []) sampleConfig.recInt (storeInt 12)) :=
  (trailing_text_accepted sampleConfig (fit 40 []) (str "12") (str "bc") 97 (by decide)
    (by decide) (by decide) (by decide)).2.2.2.1

/-! ## After deleting every row -/

theorem delete_true_open (cfg : Config) (fs : FS) (db : Database) (table_name condition : Bytes)
    (hres : (delete_ cfg fs db table_name condition).1 = .ok true) :
    db.is_open_ = true ∧ getTableColumns cfg fs db table_name ≠ [] := by
  unfold delete_ at hres
  cases ho : db.is_open_ with
  | false => simp [ho] at hres
  | true =>
    refine ⟨rfl, ?_⟩
    intro hc
    simp [ho, hc] at hres

/-- C39: after `delete_(table, "")` returned `true` the table file is empty and
`getTableColumns` reads no column from it; `insert`, `select`, `delete_` and
`describe` on that table then return `false`, whatever their other arguments,
and leave the files as they are, so that the same holds after any number of
such calls. -/
theorem delete_all_disables_table (cfg : Config) (fs : FS) (db : Database) (table_name : Bytes)
    (junk : Nat → Bytes) (values columns : List Bytes) (condition : Bytes)
    (hres : (delete_ cfg fs db table_name []).1 = .ok true) :
    (delete_ cfg fs db table_name []).2.file (tablePath cfg db table_name) = some [] ∧
    getTableColumns cfg (delete_ cfg fs db table_name []).2 db table_name = [] ∧
    insert cfg (delete_ cfg fs db table_name []).2 db junk table_name values
      = (false, (delete_ cfg fs db table_name []).2) ∧
    select cfg (delete_ cfg fs db table_name []).2 db table_name columns condition
      = (.ok false, []) ∧
    delete_ cfg (delete_ cfg fs db table_name []).2 db table_name condition
      = (.ok false, (delete_ cfg fs db table_name []).2) ∧
    describe cfg (delete_ cfg fs db table_name []).2 db table_name = .ok (false, []) := by
  obtain ⟨hopen, hcols⟩ := delete_true_open cfg fs db table_name [] hres
  rw [delete_empty_condition cfg fs db table_name hopen hcols]
  have hg := getTableColumns_write_nil cfg fs db table_name
  refine ⟨by simp [FS.write], hg, ?_, ?_, ?_, ?_⟩
  · simp [insert, hg]
  · exact select_closed_table cfg _ db table_name condition columns hg
  · simp [delete_, hg]
  · simp [describe, hg]

set_option maxRecDepth 100000 in
/-- Witness for C39 on the table `users` of the sample configuration, right
after `createTable`. -/
theorem delete_all_disables_table_witness :
    getTableColumns sampleConfig
      (delete_ sampleConfig (usersFS sampleConfig [] zeroJunk) testDb (str "users") []).2
      testDb (str "users") = [] ∧
    describe sampleConfig
      (delete_ sampleConfig (usersFS sampleConfig [] zeroJunk) testDb (str "users") []).2
      testDb (str "users") = .ok (false, []) :=
  have h := delete_all_disables_table sampleConfig (usersFS sampleConfig [] zeroJunk) testDb
    (str "users") zeroJunk [] [] [] (by decide)
  ⟨h.2.1, h.2.2.2.2.2⟩

/-! ## The pool never evicts -/

theorem mem_updateFrame (pool : List Frame) (i : Nat) (g : Frame → Frame) (x : Frame)
    (hx : x ∈ updateFrame pool i g) : x ∈ pool ∨ ∃ f ∈ pool, x = g f := by
  obtain ⟨j, hj⟩ := List.mem_iff_getElem?.mp hx
  rw [getElem?_updateFrame] at hj
  by_cases hji : j = i
  · rw [if_pos hji] at hj
    cases hf : pool[i]? with
    | none => simp [hf] at hj
    | some f =>
      simp only [hf, Option.map_some', Option.some.injEq] at hj
      exact Or.inr ⟨f, List.getElem?_mem hf, hj.symm⟩
  · rw [if_neg hji] at hj
    exact Or.inl (List.getElem?_mem hj)

theorem PinnedClean_updateFrame (bc : BufConfig) (pool : List Frame) (i : Nat)
    (g : Frame → Frame) (h : PinnedClean bc pool)
    (hg : ∀ f, (f.is_dirty = false ∧ (f.page_num ≠ bc.EMPTY → 1 ≤ f.pin_count)) →
      (g f).is_dirty = false ∧ ((g f).page_num ≠ bc.EMPTY → 1 ≤ (g f).pin_count)) :
    PinnedClean bc (updateFrame pool i g) := by
  intro x hx
  rcases mem_updateFrame pool i g x hx with h1 | ⟨f, hf, rfl⟩
  · exact h x h1
  · exact hg f (h f hf)

theorem PinnedClean_writePage (bc : BufConfig) (bm : BufferManager) (fs : FS) (db_name : Bytes)
    (page_num : Nat) (h : PinnedClean bc bm.buffer_pool_) :
    PinnedClean bc (writePage bc bm fs db_name page_num).2.1.buffer_pool_ := by
  rcases writePage_pool bc bm fs db_name page_num with h1 | ⟨i, h1⟩
  · rw [h1]
    exact h
  · rw [h1]
    exact PinnedClean_updateFrame bc _ i cleanFrame h (fun f hf => ⟨rfl, hf.2⟩)

theorem PinnedClean_loadPage (bc : BufConfig) (bm : BufferManager) (fs : FS) (now : Nat)
    (db_name : Bytes) (page_num frame_num : Nat) (h : PinnedClean bc bm.buffer_pool_) :
    PinnedClean bc (loadPage bc bm fs now db_name page_num frame_num).2.1.buffer_pool_ := by
  unfold loadPage
  cases hfile : fs.file (pagePath bc db_name) with
  | none => exact h
  | some file =>
    exact PinnedClean_updateFrame bc _ frame_num _ h
      (fun f _ => ⟨rfl, fun _ => by simp [loadedFrame]⟩)

theorem PinnedClean_readPage (bc : BufConfig) (bm : BufferManager) (fs : FS) (now : Nat)
    (db_name : Bytes) (page_num : Nat) (h : PinnedClean bc bm.buffer_pool_) :
    PinnedClean bc (readPage bc bm fs now db_name page_num).2.1.buffer_pool_ := by
  unfold readPage
  split
  · exact h
  · cases h1 : findPage bm db_name page_num with
    | some frame_num =>
      exact PinnedClean_updateFrame bc _ frame_num (touchedFrame now) h
        (fun f hf => ⟨hf.1, fun hp => by
          have := hf.2 hp
          simp only [touchedFrame]
          omega⟩)
    | none =>
      cases h2 : findFreeFrame bc bm with
      | some frame_num => exact PinnedClean_loadPage bc bm fs now db_name page_num frame_num h
      | none =>
        cases h3 : findVictimFrame bm with
        | none => exact h
        | some frame_num =>
          simp only []
          cases h4 : bm.buffer_pool_[frame_num]? with
          | none => exact h
          | some victim =>
            simp only []
            split
            · exact PinnedClean_loadPage bc _ _ now db_name page_num frame_num
                (PinnedClean_writePage bc bm fs _ _ h)
            · exact PinnedClean_loadPage bc bm fs now db_name page_num frame_num h

theorem PinnedClean_commitAllLoop (bc : BufConfig) (db_name : Bytes) :
    ∀ (is : List Nat) (success : Bool) (bm : BufferManager) (fs : FS),
      PinnedClean bc bm.buffer_pool_ →
      PinnedClean bc (commitAllLoop bc db_name is success bm fs).2.1.buffer_pool_ := by
  intro is
  induction is with
  | nil => intro success bm fs h; exact h
  | cons i rest ih =>
    intro success bm fs h
    simp only [commitAllLoop]
    split
    · exact ih success bm fs h
    · split
      · exact ih _ _ _ (PinnedClean_writePage bc bm fs db_name _ h)
      · exact ih success bm fs h

theorem reachable_PinnedClean (bc : BufConfig) (bm : BufferManager) (hreach : Reachable bc bm) :
    PinnedClean bc bm.buffer_pool_ := by
  induction hreach with
  | init size_kb =>
    rw [initializePool_new]
    intro f hf
    rw [List.mem_replicate] at hf
    rw [hf.2]
    exact ⟨rfl, fun hp => absurd rfl hp⟩
  | readPage bm fs now db_name page_num _ ih =>
    exact PinnedClean_readPage bc bm fs now db_name page_num ih
  | writePage bm fs db_name page_num _ ih =>
    exact PinnedClean_writePage bc bm fs db_name page_num ih
  | commit bm fs db_name page_num _ ih =>
    exact PinnedClean_writePage bc bm fs db_name page_num ih
  | commitAll bm fs db_name _ ih =>
    exact PinnedClean_commitAllLoop bc db_name _ true bm fs ih

theorem commitAllLoop_clean (bc : BufConfig) (db_name : Bytes) (bm : BufferManager) (fs : FS)
    (h : ∀ f ∈ bm.buffer_pool_, f.is_dirty = false) :
    ∀ (is : List Nat) (success : Bool),
      commitAllLoop bc db_name is success bm fs = (success, bm, fs) := by
  intro is
  induction is with
  | nil => intro success; rfl
  | cons i rest ih =>
    intro success
    simp only [commitAllLoop]
    cases hf : bm.buffer_pool_[i]? with
    | none => exact ih success
    | some frame =>
      have hd := h frame (List.getElem?_mem hf)
      simp only [hd, Bool.false_eq_true, and_false, if_false]
      exact ih success

theorem findVictimFrame_none_of_full (bc : BufConfig) (bm : BufferManager)
    (h : PinnedClean bc bm.buffer_pool_) (hfree : findFreeFrame bc bm = none) :
    findVictimFrame bm = none := by
  unfold findFreeFrame at hfree
  rw [firstIndex_none] at hfree
  unfold findVictimFrame
  apply findVictimLoop_all_pinned
  intro f hf
  have hp : f.page_num ≠ bc.EMPTY := by
    have := hfree f hf
    simpa using this
  have := (h f hf).2 hp
  omega

theorem resident_updateFrame (pool : List Frame) (i j : Nat) (g : Frame → Frame) (f : Frame)
    (hf : pool[i]? = some f)
    (hg : j = i → (g f).page_num = f.page_num ∧ (g f).db_name = f.db_name ∧ (g f).data = f.data) :
    ∃ x, (updateFrame pool j g)[i]? = some x ∧ x.page_num = f.page_num ∧
      x.db_name = f.db_name ∧ x.data = f.data := by
  rw [getElem?_updateFrame]
  by_cases hij : i = j
  · subst hij
    rw [if_pos rfl, hf]
    exact ⟨g f, rfl, hg rfl⟩
  · rw [if_neg hij]
    exact ⟨f, hf, rfl, rfl, rfl⟩

theorem resident_writePage (bc : BufConfig) (bm : BufferManager) (fs : FS) (db_name : Bytes)
    (page_num i : Nat) (f : Frame) (hf : bm.buffer_pool_[i]? = some f) :
    ∃ x, (writePage bc bm fs db_name page_num).2.1.buffer_pool_[i]? = some x ∧
      x.page_num = f.page_num ∧ x.db_name = f.db_name ∧ x.data = f.data := by
  rcases writePage_pool bc bm fs db_name page_num with h1 | ⟨j, h1⟩
  · rw [h1]
    exact ⟨f, hf, rfl, rfl, rfl⟩
  · rw [h1]
    exact resident_updateFrame _ i j cleanFrame f hf (fun _ => ⟨rfl, rfl, rfl⟩)

theorem resident_readPage (bc : BufConfig) (bm : BufferManager) (fs : FS) (now : Nat)
    (db_name : Bytes) (page_num i : Nat) (f : Frame)
    (h : PinnedClean bc bm.buffer_pool_) (hf : bm.buffer_pool_[i]? = some f)
    (hp : f.page_num ≠ bc.EMPTY) :
    ∃ x, (readPage bc bm fs now db_name page_num).2.1.buffer_pool_[i]? = some x ∧
      x.page_num = f.page_num ∧ x.db_name = f.db_name ∧ x.data = f.data := by
  unfold readPage
  split
  · exact ⟨f, hf, rfl, rfl, rfl⟩
  · cases h1 : findPage bm db_name page_num with
    | some frame_num =>
      exact resident_updateFrame _ i frame_num (touchedFrame now) f hf (fun _ => ⟨rfl, rfl, rfl⟩)
    | none =>
      cases h2 : findFreeFrame bc bm with
      | some frame_num =>
        simp only [loadPage]
        cases hfile : fs.file (pagePath bc db_name) with
        | none => exact ⟨f, hf, rfl, rfl, rfl⟩
        | some file =>
          apply resident_updateFrame _ i frame_num _ f hf
          intro hji
          exfalso
          obtain ⟨f2, hf2, hp2⟩ := firstIndex_some _ _ _ h2
          rw [hji, hf] at hf2
          cases hf2
          apply hp
          simpa using hp2
      | none =>
        rw [findVictimFrame_none_of_full bc bm h h2]
        exact ⟨f, hf, rfl, rfl, rfl⟩

set_option maxRecDepth 100000 in
/-- C38 fails on the page number `EMPTY`.  In every state of the pool reached
from `initialize` by `readPage`, `writePage`, `commit` and `commitAll` calls,
every frame is clean and every frame that holds a page is pinned; when no frame
is free `findVictimFrame` finds no victim and `readPage` of a key that no frame
has returns `false` and changes nothing; `commitAll` writes nothing; and a
frame that holds a page keeps its key and its bytes through `readPage` and
`writePage`.  But a pin count does decrease, and more keys than frames are
fetched: in the sample configuration the one-frame pool takes the keys
`("test_file.db", EMPTY)` and `("b", EMPTY)` one after the other, and in the
two-frame pool the frame fetched twice under `("test_file.db", EMPTY)`, with
`pin_count` 2, is given to `("b", 0)` with `pin_count` 1. -/
theorem pool_never_evicts (bc : BufConfig) (bm : BufferManager) (fs : FS) (now : Nat)
    (db_name : Bytes) (page_num : Nat) (hreach : Reachable bc bm) :
    PinnedClean bc bm.buffer_pool_ ∧
    (findFreeFrame bc bm = none → findVictimFrame bm = none) ∧
    (findPage bm db_name page_num = none → findFreeFrame bc bm = none →
      readPage bc bm fs now db_name page_num = (false, bm, fs)) ∧
    commitAll bc bm fs db_name = (true, bm, fs) ∧
    (∀ (i : Nat) (f : Frame), bm.buffer_pool_[i]? = some f → f.page_num ≠ bc.EMPTY →
      (∃ x, (readPage bc bm fs now db_name page_num).2.1.buffer_pool_[i]? = some x ∧
        x.page_num = f.page_num ∧ x.db_name = f.db_name ∧ x.data = f.data) ∧
      (∃ x, (writePage bc bm fs db_name page_num).2.1.buffer_pool_[i]? = some x ∧
        x.page_num = f.page_num ∧ x.db_name = f.db_name ∧ x.data = f.data)) ∧
    ((readPage sampleBuf pool1 testFiles 100 (str "test_file.db") sampleBuf.EMPTY).1 = true ∧
      (readPage sampleBuf
        (readPage sampleBuf pool1 testFiles 100 (str "test_file.db") sampleBuf.EMPTY).2.1
        testFiles 200 (str "b") sampleBuf.EMPTY).1 = true) ∧
    (((readPage sampleBuf pool2ReadEmpty testFiles 200 (str "test_file.db")
        sampleBuf.EMPTY).2.1.buffer_pool_[0]?).map Frame.pin_count = some 2 ∧
      ((readPage sampleBuf
        (readPage sampleBuf pool2ReadEmpty testFiles 200 (str "test_file.db")
          sampleBuf.EMPTY).2.1
        testFiles 300 (str "b") 0).2.1.buffer_pool_[0]?).map Frame.pin_count = some 1) := by
  have hinv := reachable_PinnedClean bc bm hreach
  refine ⟨hinv, findVictimFrame_none_of_full bc bm hinv, ?_, ?_, ?_, by decide, by decide⟩
  · intro hmiss hfree
    unfold readPage
    split
    · rfl
    · simp only [hmiss, hfree, findVictimFrame_none_of_full bc bm hinv hfree]
  · exact commitAllLoop_clean bc db_name bm fs (fun f hf => (hinv f hf).1) _ true
  · intro i f hf hp
    exact ⟨resident_readPage bc bm fs now db_name page_num i f hinv hf hp,
      resident_writePage bc bm fs db_name page_num i f hf⟩

set_option maxRecDepth 100000 in
/-- Witness for C38: the one-frame pool of the sample configuration after
`readPage("test_file.db", 0)`; `readPage("b", 0)` then returns `false` and
`commitAll` writes nothing. -/
theorem pool_never_evicts_witness :
    readPage sampleBuf pool1Read testFiles 200 (str "b") 0 = (false, pool1Read, testFiles) ∧
    commitAll sampleBuf pool1Read testFiles (str "b") = (true, pool1Read, testFiles) :=
  have h := pool_never_evicts sampleBuf pool1Read testFiles 200 (str "b") 0
    (Reachable.readPage _ _ _ _ _ (Reachable.init 1))
  ⟨h.2.2.1 (by decide) (by decide), h.2.2.2.1⟩

/-! ## The indices of `printTable` -/

theorem widenRow_spec :
    ∀ (row : List Bytes) (col_widths : List Nat) (i : Nat),
      (i + row.length ≤ col_widths.length →
        ∃ widened, widenRow col_widths i row = .ok widened ∧
          widened.length = col_widths.length) ∧
      (i ≤ col_widths.length → col_widths.length < i + row.length →
        widenRow col_widths i row = .error .overread) := by
  intro row
  induction row with
  | nil =>
    intro col_widths i
    exact ⟨fun _ => ⟨col_widths, rfl, rfl⟩, fun h1 h => by simp at h; omega⟩
  | cons cell rest ih =>
    intro col_widths i
    constructor
    · intro h
      simp only [List.length_cons] at h
      have hi : i < col_widths.length := by omega
      obtain ⟨widened, hw, hl⟩ := (ih (col_widths.set i (max col_widths[i] cell.length))
        (i + 1)).1 (by rw [List.length_set]; omega)
      refine ⟨widened, ?_, by rw [hl, List.length_set]⟩
      simp only [widenRow, List.getElem?_eq_getElem hi]
      exact hw
    · intro h1 h
      simp only [List.length_cons] at h
      by_cases hi : i < col_widths.length
      · simp only [widenRow, List.getElem?_eq_getElem hi]
        exact (ih _ (i + 1)).2 (by rw [List.length_set]; omega) (by rw [List.length_set]; omega)
      · simp only [widenRow, List.getElem?_eq_none (by omega : col_widths.length ≤ i)]

theorem widenRows_fits :
    ∀ (rows : List (List Bytes)) (col_widths : List Nat),
      (∀ row ∈ rows, row.length ≤ col_widths.length) →
      ∃ widened, widenRows col_widths rows = .ok widened ∧
        widened.length = col_widths.length := by
  intro rows
  induction rows with
  | nil => intro col_widths _; exact ⟨col_widths, rfl, rfl⟩
  | cons row rest ih =>
    intro col_widths h
    obtain ⟨w1, hw1, hl1⟩ := (widenRow_spec row col_widths 0).1
      (by have := h row (by simp); omega)
    obtain ⟨w2, hw2, hl2⟩ := ih w1 (fun r hr => by rw [hl1]; exact h r (by simp [hr]))
    exact ⟨w2, by simp only [widenRows, hw1, hw2], by rw [hl2, hl1]⟩

theorem widenRows_long :
    ∀ (rows : List (List Bytes)) (col_widths : List Nat) (long : List Bytes),
      long ∈ rows → col_widths.length < long.length →
      widenRows col_widths rows = .error .overread := by
  intro rows
  induction rows with
  | nil => intro col_widths long h; simp at h
  | cons row rest ih =>
    intro col_widths long hmem hlong
    by_cases hrow : row.length ≤ col_widths.length
    · obtain ⟨w1, hw1, hl1⟩ := (widenRow_spec row col_widths 0).1 (by omega)
      have hin : long ∈ rest := by
        rcases List.mem_cons.mp hmem with h1 | h1
        · subst h1
          omega
        · exact h1
      simp only [widenRows, hw1]
      exact ih w1 long hin (by omega)
    · have := (widenRow_spec row col_widths 0).2 (Nat.zero_le _) (by omega)
      simp only [widenRows, this]

theorem printTableRow_fits (col_widths : List Nat) :
    ∀ (row : List Bytes) (i : Nat), i + row.length ≤ col_widths.length →
      ∃ out, printTableRow col_widths i row = .ok out := by
  intro row
  induction row with
  | nil => intro i _; exact ⟨[10], rfl⟩
  | cons cell rest ih =>
    intro i h
    simp only [List.length_cons] at h
    have hi : i < col_widths.length := by omega
    obtain ⟨out, hout⟩ := ih (i + 1) (by omega)
    simp only [printTableRow, List.getElem?_eq_getElem hi, hout]
    exact ⟨_, rfl⟩

theorem mapE_ok {α β : Type} (f : α → Except Fault β) :
    ∀ as : List α, (∀ a ∈ as, ∃ b, f a = .ok b) → ∃ bs, mapE f as = .ok bs := by
  intro as
  induction as with
  | nil => intro _; exact ⟨[], rfl⟩
  | cons a rest ih =>
    intro h
    obtain ⟨b, hb⟩ := h a (by simp)
    obtain ⟨bs, hbs⟩ := ih (fun x hx => h x (by simp [hx]))
    exact ⟨b :: bs, by simp only [mapE, hb, hbs]⟩

/-- C40 fails on a row with more cells than there are headers.  The vector
`col_widths` has `headers.size()` elements and the loops index it with the
cells of each row: when no row is longer than the header list `printTable`
stays inside the vector, and when some row is longer it leaves the vector. -/
theorem printTable_indices (headers : List Bytes) (rows : List (List Bytes))
    (hh : headers ≠ []) :
    ((∀ row ∈ rows, row.length ≤ headers.length) → ∃ out, printTable headers rows = .ok out) ∧
    (∀ long ∈ rows, headers.length < long.length →
      printTable headers rows = .error .overread) := by
  have hhe : headers.isEmpty = false := by
    cases headers with
    | nil => exact absurd rfl hh
    | cons a t => rfl
  constructor
  · intro hfit
    unfold printTable
    cases hre : rows.isEmpty with
    | true => exact ⟨[], by simp [hhe]⟩
    | false =>
      obtain ⟨cw, hcw, hl⟩ := widenRows_fits rows (headers.map List.length)
        (by simpa using hfit)
      rw [List.length_map] at hl
      obtain ⟨head, hhead⟩ := printTableRow_fits cw headers 0 (by omega)
      obtain ⟨lines, hlines⟩ := mapE_ok (printTableRow cw 0) rows
        (fun r hr => printTableRow_fits cw r 0 (by have := hfit r hr; omega))
      simp only [hhe, Bool.false_or, Bool.false_eq_true, if_false, hcw, hhead, hlines]
      exact ⟨_, rfl⟩
  · intro long hmem hlong
    have hre : rows.isEmpty = false := by
      cases rows with
      | nil => simp at hmem
      | cons a t => rfl
    unfold printTable
    simp only [hhe, hre, Bool.false_or, Bool.false_eq_true, if_false,
      widenRows_long rows (headers.map List.length) long hmem (by simpa using hlong)]

/-- Witness for C40: what `main` passes for `SELECT *` on a table of three
columns, the header `*` and a row of three cells; with three headers the same
row is printed. -/
theorem printTable_indices_witness :
    printTable [str "*"] [[str "1", str "John", str "25"]] = .error .overread ∧
    ∃ out, printTable [str "id", str "name", str "age"] [[str "1", str "John", str "25"]]
      = .ok out :=
  ⟨(printTable_indices [str "*"] [[str "1", str "John", str "25"]] (by decide)).2
      [str "1", str "John", str "25"] (by decide) (by decide),
    (printTable_indices [str "id", str "name", str "age"] [[str "1", str "John", str "25"]]
      (by decide)).1 (by decide)⟩

/-! ## The words of a query -/

theorem nextWord_rest_length (s w r : Bytes) (h : nextWord s = some (w, r)) :
    r.length < s.length := by
  unfold nextWord at h
  simp only [] at h
  split at h
  · cases h
  · rename_i hne
    simp only [Option.some.injEq, Prod.mk.injEq] at h
    obtain ⟨_, hr⟩ := h
    subst hr
    cases hs : s.dropWhile isSpace with
    | nil => simp [hs] at hne
    | cons a t =>
      have ha : isSpace a = false := by
        have := @List.head?_dropWhile_not Nat isSpace s
        simp only [hs, List.head?_cons] at this
        simpa using this
      have h1 : (s.dropWhile isSpace).length ≤ s.length := (List.dropWhile_suffix _).length_le
      rw [hs] at h1
      simp only [List.dropWhile_cons, ha, Bool.not_false, if_true]
      have h2 : (t.dropWhile (fun c => !isSpace c)).length ≤ t.length :=
        (List.dropWhile_suffix _).length_le
      simp only [List.length_cons] at h1
      omega

theorem wordsFuel_fuel :
    ∀ (n fuel1 fuel2 : Nat) (s : Bytes), s.length ≤ n → n ≤ fuel1 → n ≤ fuel2 →
      wordsFuel fuel1 s = wordsFuel fuel2 s := by
  intro n
  induction n with
  | zero =>
    intro fuel1 fuel2 s hs _ _
    have : s = [] := List.length_eq_zero.mp (by omega)
    subst this
    cases fuel1 <;> cases fuel2 <;> simp [wordsFuel, nextWord]
  | succ n ih =>
    intro fuel1 fuel2 s hs h1 h2
    obtain ⟨f1, rfl⟩ : ∃ f1, fuel1 = f1 + 1 := ⟨fuel1 - 1, by omega⟩
    obtain ⟨f2, rfl⟩ : ∃ f2, fuel2 = f2 + 1 := ⟨fuel2 - 1, by omega⟩
    simp only [wordsFuel]
    cases hw : nextWord s with
    | none => rfl
    | some wr =>
      obtain ⟨w, r⟩ := wr
      have := nextWord_rest_length s w r hw
      simp only []
      rw [ih f1 f2 r (by omega) (by omega) (by omega)]

theorem words_eq (s : Bytes) :
    words s = match nextWord s with
      | none => []
      | some (w, r) => w :: words r := by
  cases hl : s.length with
  | zero =>
    have : s = [] := List.length_eq_zero.mp hl
    subst this
    rfl
  | succ k =>
    unfold words
    rw [hl]
    simp only [wordsFuel]
    cases hw : nextWord s with
    | none => rfl
    | some wr =>
      obtain ⟨w, r⟩ := wr
      have := nextWord_rest_length s w r hw
      simp only []
      rw [wordsFuel_fuel r.length k r.length r (le_refl _) (by omega) (le_refl _)]

theorem words_blank (s : Bytes) : words (32 :: s) = words s := by
  rw [words_eq (32 :: s), words_eq s, nextWord_skip_blank]

theorem words_cons_word (w r : Bytes) (hw : IsWord w) : words (w ++ 32 :: r) = w :: words r := by
  rw [words_eq, nextWord_append w r hw.1 hw.2]
  simp only []
  rw [words_blank]

theorem words_word (w : Bytes) (hw : IsWord w) : words w = [w] := by
  rw [words_eq, nextWord_last w hw.1 hw.2]
  rfl

theorem IsWord_cons (c : Nat) (w : Bytes) (hc : isSpace c = false) (hw : IsWord w) :
    IsWord (c :: w) := by
  refine ⟨by simp, ?_⟩
  intro x hx
  rcases List.mem_cons.mp hx with h | h
  · rw [h]
    exact hc
  · exact hw.2 x h

theorem parse_create (cfg : Config) (query w : Bytes) (iss : List Bytes)
    (hw : words query = w :: iss) (hc : w.map toUpper = str "CREATE") :
    parse cfg query = parseCreateTable cfg iss := by
  simp only [parse, hw, hc, if_true]

theorem parse_insert (cfg : Config) (query w : Bytes) (iss : List Bytes)
    (hw : words query = w :: iss) (hc : w.map toUpper = str "INSERT") :
    parse cfg query = parseInsert iss := by
  have h1 : str "INSERT" ≠ str "CREATE" := by decide
  simp only [parse, hw, hc, h1, if_true, if_false]

theorem parse_select (cfg : Config) (query w : Bytes) (iss : List Bytes)
    (hw : words query = w :: iss) (hc : w.map toUpper = str "SELECT") :
    parse cfg query = parseSelect iss := by
  have h1 : str "SELECT" ≠ str "CREATE" := by decide
  have h2 : str "SELECT" ≠ str "INSERT" := by decide
  simp only [parse, hw, hc, h1, h2, if_true, if_false]

theorem parse_delete (cfg : Config) (query w : Bytes) (iss : List Bytes)
    (hw : words query = w :: iss) (hc : w.map toUpper = str "DELETE") :
    parse cfg query = parseDelete iss := by
  have h1 : str "DELETE" ≠ str "CREATE" := by decide
  have h2 : str "DELETE" ≠ str "INSERT" := by decide
  have h3 : str "DELETE" ≠ str "SELECT" := by decide
  simp only [parse, hw, hc, h1, h2, h3, if_true, if_false]

/-! ## `parseCreateTable` on the statement of the tests -/

/-- C32 fails on its own witness.  `operator>>` cuts the query at white space
only, so in `CREATE TABLE <name> (<c1> ...` the word after the table name is
`(<c1>`, which is not the word `(`, and `parse` throws `Expected opening
parenthesis` for every name and first column.  With blanks around the
parentheses and the commas the statement of the tests gives the three columns
`id`/`INT`, `name`/`VARCHAR`, `age`/`INT`. -/
theorem create_unspaced_rejected (cfg : Config) (name c1 rest : Bytes)
    (hname : IsWord name) (hc1 : IsWord c1) :
    parse cfg (str "CREATE TABLE " ++ name ++ str " (" ++ c1 ++ 32 :: rest)
      = .error (str "Expected opening parenthesis") ∧
    parse sampleConfig (str "CREATE TABLE users ( id INT , name VARCHAR , age INT )")
      = .ok (.create ⟨str "users",
          [⟨str "id", sampleConfig.INT, false, true⟩,
           ⟨str "name", sampleConfig.VARCHAR, false, true⟩,
           ⟨str "age", sampleConfig.INT, false, true⟩]⟩) := by
  refine ⟨?_, by decide⟩
  have hq : str "CREATE TABLE " ++ name ++ str " (" ++ c1 ++ 32 :: rest
      = str "CREATE" ++ 32 :: (str "TABLE" ++ 32 :: (name ++ 32 :: ((40 :: c1) ++ 32 :: rest))) := by
    simp only [List.append_assoc]
    rfl
  have hp : IsWord (40 :: c1) := IsWord_cons 40 c1 (by decide) hc1
  have hw : words (str "CREATE TABLE " ++ name ++ str " (" ++ c1 ++ 32 :: rest)
      = str "CREATE" :: str "TABLE" :: name :: (40 :: c1) :: words rest := by
    rw [hq, words_cons_word _ _ (by decide), words_cons_word _ _ (by decide),
      words_cons_word _ _ hname, words_cons_word _ _ hp]
  have h2 : toUpper ((str "TABLE").headD 0) = 84 := by decide
  have h3 : (40 :: c1) ≠ str "(" := by
    intro h
    have hne := hc1.1
    cases c1 with
    | nil => exact hne rfl
    | cons a t =>
      have hl := congrArg List.length h
      simp [str] at hl
  rw [parse_create cfg _ _ _ hw (by decide)]
  simp only [parseCreateTable, h2, ne_eq, not_true_eq_false, if_false, h3, not_false_eq_true,
    if_true]

/-- Witness for C32: the statement of `ParserTest.CreateTable`. -/
theorem create_unspaced_rejected_witness :
    parse sampleConfig (str "CREATE TABLE users (id INT, name VARCHAR, age INT)")
      = .error (str "Expected opening parenthesis") :=
  (create_unspaced_rejected sampleConfig (str "users") (str "id")
    (str "INT, name VARCHAR, age INT)") (by decide) (by decide)).1

/-! ## `parseSelect` -/

/-- C33 fails on `SELECT * FROM t`.  After the word `*` the loop of
`parseSelect` is left without reading `FROM`, which is then taken as the table
name: for every table name `t` the statement returned has `table_name` equal to
`FROM`, the columns `["*"]` and an empty condition.  A column list written
`c1, c2` is refused, the comma being part of the word `c1,`. -/
theorem select_star_table_name (cfg : Config) (t : Bytes) (ht : IsWord t) :
    parse cfg (str "SELECT * FROM " ++ t) = .ok (.select ⟨str "FROM", [str "*"], []⟩) ∧
    parse cfg (str "SELECT id, name FROM users WHERE age > 20")
      = .error (str "Expected comma or FROM keyword") := by
  constructor
  · have hq : str "SELECT * FROM " ++ t
        = str "SELECT" ++ 32 :: (str "*" ++ 32 :: (str "FROM" ++ 32 :: t)) := rfl
    have hw : words (str "SELECT * FROM " ++ t) = [str "SELECT", str "*", str "FROM", t] := by
      rw [hq, words_cons_word _ _ (by decide), words_cons_word _ _ (by decide),
        words_cons_word _ _ (by decide), words_word _ ht]
    rw [parse_select cfg _ _ _ hw (by decide)]
    simp only [parseSelect, parseSelectColumns, if_true, whereClause, List.map_nil,
      List.flatten_nil, ite_self]
  · have hwq : words (str "SELECT id, name FROM users WHERE age > 20")
        = [str "SELECT", str "id,", str "name", str "FROM", str "users", str "WHERE",
            str "age", str ">", str "20"] := by decide
    rw [parse_select cfg _ _ _ hwq (by decide)]
    decide

/-- Witness for C33: the statement of `ParserTest.SelectAll`. -/
theorem select_star_table_name_witness :
    parse sampleConfig (str "SELECT * FROM users")
      = .ok (.select ⟨str "FROM", [str "*"], []⟩) :=
  (select_star_table_name sampleConfig (str "users") (by decide)).1

/-! ## The `WHERE` clause -/

theorem flatten_map_blank :
    ∀ l : List Bytes, l ≠ [] →
      (l.map (fun t => t ++ [32])).flatten = List.intercalate [32] l ++ [32] := by
  intro l
  induction l with
  | nil => intro h; exact absurd rfl h
  | cons a r ih =>
    intro _
    cases r with
    | nil => simp [List.intercalate]
    | cons b r2 =>
      have := ih (by simp)
      simp only [List.map_cons, List.flatten_cons] at this ⊢
      rw [this]
      simp [List.intercalate, List.intersperse]

theorem whereClause_where (iss : List Bytes) :
    whereClause (str "WHERE" :: iss) = (iss.map (fun t => t ++ [32])).flatten := by
  have h : toUpper ((str "WHERE").headD 0) = 87 := by decide
  simp only [whereClause, h, if_true]

/-- C34 fails on the blank after the last word.  For every table name and
every clause with at least one word, the condition of the statement parsed
from `DELETE FROM <t> WHERE <clause>` is the words of the clause joined by
single blanks followed by one more blank, and so is that of
`SELECT <c> FROM <t> WHERE <clause>`.  The statement of
`ParserTest.ComplexConditions`, which selects `*`, gets an empty condition and
the table name `FROM`. -/
theorem where_condition_trailing_blank (cfg : Config) (c t clause : Bytes)
    (hc : IsWord c) (hstar : c ≠ str "*") (ht : IsWord t) (hne : words clause ≠ []) :
    parse cfg (str "DELETE FROM " ++ t ++ str " WHERE " ++ clause)
      = .ok (.delete ⟨t, List.intercalate [32] (words clause) ++ [32]⟩) ∧
    parse cfg (str "SELECT " ++ c ++ str " FROM " ++ t ++ str " WHERE " ++ clause)
      = .ok (.select ⟨t, [c], List.intercalate [32] (words clause) ++ [32]⟩) ∧
    parse cfg (str "SELECT * FROM users WHERE age > 20 AND name LIKE 'J%'")
      = .ok (.select ⟨str "FROM", [str "*"], []⟩) := by
  refine ⟨?_, ?_, ?_⟩
  · have hq : str "DELETE FROM " ++ t ++ str " WHERE " ++ clause
        = str "DELETE" ++ 32 :: (str "FROM" ++ 32 :: (t ++ 32 :: (str "WHERE" ++ 32 :: clause))) := by
      simp only [List.append_assoc]
      rfl
    have hw : words (str "DELETE FROM " ++ t ++ str " WHERE " ++ clause)
        = str "DELETE" :: str "FROM" :: t :: str "WHERE" :: words clause := by
      rw [hq, words_cons_word _ _ (by decide), words_cons_word _ _ (by decide),
        words_cons_word _ _ ht, words_cons_word _ _ (by decide)]
    have h2 : toUpper ((str "FROM").headD 0) = 70 := by decide
    rw [parse_delete cfg _ _ _ hw (by decide)]
    simp only [parseDelete, h2, ne_eq, not_true_eq_false, if_false, whereClause_where,
      flatten_map_blank _ hne]
  · have hq : str "SELECT " ++ c ++ str " FROM " ++ t ++ str " WHERE " ++ clause
        = str "SELECT" ++ 32 :: (c ++ 32 :: (str "FROM" ++ 32 ::
            (t ++ 32 :: (str "WHERE" ++ 32 :: clause)))) := by
      simp only [List.append_assoc]
      rfl
    have hw : words (str "SELECT " ++ c ++ str " FROM " ++ t ++ str " WHERE " ++ clause)
        = str "SELECT" :: c :: str "FROM" :: t :: str "WHERE" :: words clause := by
      rw [hq, words_cons_word _ _ (by decide), words_cons_word _ _ hc,
        words_cons_word _ _ (by decide), words_cons_word _ _ ht,
        words_cons_word _ _ (by decide)]
    rw [parse_select cfg _ _ _ hw (by decide)]
    simp only [parseSelect, parseSelectColumns, if_neg hstar, if_true, List.nil_append,
      whereClause_where, flatten_map_blank _ hne]
  · have hwq : words (str "SELECT * FROM users WHERE age > 20 AND name LIKE 'J%'")
        = [str "SELECT", str "*", str "FROM", str "users", str "WHERE", str "age", str ">",
            str "20", str "AND", str "name", str "LIKE", str "'J%'"] := by decide
    rw [parse_select cfg _ _ _ hwq (by decide)]
    decide

/-- Witness for C34: the statement of `ParserTest.Delete`; the condition is
`id = 1` followed by a blank. -/
theorem where_condition_trailing_blank_witness :
    parse sampleConfig (str "DELETE FROM users WHERE id = 1")
      = .ok (.delete ⟨str "users", str "id = 1 "⟩) :=
  (where_condition_trailing_blank sampleConfig (str "id") (str "users") (str "id = 1")
    (by decide) (by decide) (by decide) (by decide)).1

/-! ## The case of the keywords -/

/-- C35 fails on `from`.  The loop of `parseSelect` compares the word after a
column with `FROM` as it is written: for every column `c` other than `*` and
every table `t`, `SELECT c FROM t` gives the statement for `c` and `t`, and
`SELECT c from t` throws.  In a column definition the words after `PRIMARY`
and `NOT` are compared with `KEY` and `NULL` as written too: `PRIMARY KEY` is
accepted and `PRIMARY key` throws. -/
theorem keyword_case (cfg : Config) (c t : Bytes) (hc : IsWord c) (hstar : c ≠ str "*")
    (ht : IsWord t) :
    parse cfg (str "SELECT " ++ c ++ str " FROM " ++ t) = .ok (.select ⟨t, [c], []⟩) ∧
    parse cfg (str "SELECT " ++ c ++ str " from " ++ t)
      = .error (str "Expected comma or FROM keyword") ∧
    parse sampleConfig (str "CREATE TABLE users ( id INT PRIMARY KEY )")
      = .ok (.create ⟨str "users", [⟨str "id", sampleConfig.INT, true, true⟩]⟩) ∧
    parse sampleConfig (str "CREATE TABLE users ( id INT PRIMARY key )")
      = .error (unexpectedToken (str "key")) := by
  refine ⟨?_, ?_, by decide, by decide⟩
  · have hq : str "SELECT " ++ c ++ str " FROM " ++ t
        = str "SELECT" ++ 32 :: (c ++ 32 :: (str "FROM" ++ 32 :: t)) := by
      simp only [List.append_assoc]
      rfl
    have hw : words (str "SELECT " ++ c ++ str " FROM " ++ t)
        = [str "SELECT", c, str "FROM", t] := by
      rw [hq, words_cons_word _ _ (by decide), words_cons_word _ _ hc,
        words_cons_word _ _ (by decide), words_word _ ht]
    rw [parse_select cfg _ _ _ hw (by decide)]
    simp only [parseSelect, parseSelectColumns, if_neg hstar, if_true, List.nil_append,
      whereClause]
  · have hq : str "SELECT " ++ c ++ str " from " ++ t
        = str "SELECT" ++ 32 :: (c ++ 32 :: (str "from" ++ 32 :: t)) := by
      simp only [List.append_assoc]
      rfl
    have hw : words (str "SELECT " ++ c ++ str " from " ++ t)
        = [str "SELECT", c, str "from", t] := by
      rw [hq, words_cons_word _ _ (by decide), words_cons_word _ _ hc,
        words_cons_word _ _ (by decide), words_word _ ht]
    have h1 : str "from" ≠ str "FROM" := by decide
    have h2 : str "from" ≠ str "," := by decide
    rw [parse_select cfg _ _ _ hw (by decide)]
    simp only [parseSelect, parseSelectColumns, if_neg hstar, if_neg h1, ne_eq, h2,
      not_false_eq_true, if_true]

/-- Witness for C35: `SELECT id FROM users` and `SELECT id from users`. -/
theorem keyword_case_witness :
    parse sampleConfig (str "SELECT id FROM users") = .ok (.select ⟨str "users", [str "id"], []⟩) ∧
    parse sampleConfig (str "SELECT id from users")
      = .error (str "Expected comma or FROM keyword") :=
  have h := keyword_case sampleConfig (str "id") (str "users") (by decide) (by decide)
    (by decide)
  ⟨h.1, h.2.1⟩

/-! ## Statements that should be refused -/

/-- C36 fails on `DELETE FROM users id = 1`.  After the table name `parseDelete`
reads one word and looks at its first letter only: when that letter is not `W`
or `w` the word and all that follows are dropped, and the statement returned is
the unconditional delete.  The words in the positions of `TABLE`, `INTO`,
`VALUES` and `FROM` are checked by their first letter too, so `CREATE TRASH`,
`INSERT IN ... VALID` and `DELETE FOO` are accepted. -/
theorem missing_where_accepted (cfg : Config) (t x rest : Bytes) (ht : IsWord t)
    (hx : IsWord x) (hW : toUpper (x.headD 0) ≠ 87) :
    parse cfg (str "DELETE FROM " ++ t ++ str " " ++ x ++ str " " ++ rest)
      = .ok (.delete ⟨t, []⟩) ∧
    parse sampleConfig (str "CREATE TRASH users ( id INT )")
      = .ok (.create ⟨str "users", [⟨str "id", sampleConfig.INT, false, true⟩]⟩) ∧
    parse sampleConfig (str "INSERT IN users VALID ( 1 )")
      = .ok (.insert ⟨str "users", [str "1"]⟩) ∧
    parse sampleConfig (str "DELETE FOO users") = .ok (.delete ⟨str "users", []⟩) := by
  refine ⟨?_, by decide, by decide, by decide⟩
  have hq : str "DELETE FROM " ++ t ++ str " " ++ x ++ str " " ++ rest
      = str "DELETE" ++ 32 :: (str "FROM" ++ 32 :: (t ++ 32 :: (x ++ 32 :: rest))) := by
    simp only [List.append_assoc]
    rfl
  have hw : words (str "DELETE FROM " ++ t ++ str " " ++ x ++ str " " ++ rest)
      = str "DELETE" :: str "FROM" :: t :: x :: words rest := by
    rw [hq, words_cons_word _ _ (by decide), words_cons_word _ _ (by decide),
      words_cons_word _ _ ht, words_cons_word _ _ hx]
  have h2 : toUpper ((str "FROM").headD 0) = 70 := by decide
  rw [parse_delete cfg _ _ _ hw (by decide)]
  simp only [parseDelete, h2, ne_eq, not_true_eq_false, if_false, whereClause, if_neg hW]

/-- Witness for C36: `DELETE FROM users id = 1` is parsed as the delete of every
row of `users`. -/
theorem missing_where_accepted_witness :
    parse sampleConfig (str "DELETE FROM users id = 1") = .ok (.delete ⟨str "users", []⟩) :=
  (missing_where_accepted sampleConfig (str "users") (str "id") (str "= 1") (by decide)
    (by decide) (by decide)).1

/-- C37 fails on `SELECT * FROM`.  `parse` throws for a query without a word,
for a query whose first word is no command, and for every query of one or two
words whose first word is a command, which covers `CREATE TABLE`,
`INSERT INTO`, `SELECT FROM` and `DELETE FROM`.  But `SELECT * FROM`, which
ends before its table name, is parsed: `FROM` is taken as the table name. -/
theorem incomplete_queries (cfg : Config) (query w x : Bytes) :
    (words query = [] → parse cfg query = .error (str "Empty query")) ∧
    (∀ iss, words query = w :: iss →
      w.map toUpper ≠ str "CREATE" → w.map toUpper ≠ str "INSERT" →
      w.map toUpper ≠ str "SELECT" → w.map toUpper ≠ str "DELETE" →
      parse cfg query = .error (str "Unknown command: " ++ w.map toUpper)) ∧
    (words query = [w] ∨ words query = [w, x] →
      w.map toUpper = str "CREATE" ∨ w.map toUpper = str "INSERT" ∨
        w.map toUpper = str "SELECT" ∨ w.map toUpper = str "DELETE" →
      ∃ e, parse cfg query = .error e) ∧
    parse cfg (str "SELECT * FROM") = .ok (.select ⟨str "FROM", [str "*"], []⟩) := by
  refine ⟨?_, ?_, ?_, ?_⟩
  · intro h
    simp only [parse, h]
  · intro iss h h1 h2 h3 h4
    simp only [parse, h, if_neg h1, if_neg h2, if_neg h3, if_neg h4]
  · intro hwords hcmd
    rcases hcmd with hc | hc | hc | hc
    · rcases hwords with h | h
      · rw [parse_create cfg _ _ _ h hc]
        exact ⟨_, rfl⟩
      · rw [parse_create cfg _ _ _ h hc]
        simp only [parseCreateTable]
        split
        · exact ⟨_, rfl⟩
        · exact ⟨_, rfl⟩
    · rcases hwords with h | h
      · rw [parse_insert cfg _ _ _ h hc]
        exact ⟨_, rfl⟩
      · rw [parse_insert cfg _ _ _ h hc]
        simp only [parseInsert]
        split
        · exact ⟨_, rfl⟩
        · exact ⟨_, rfl⟩
    · rcases hwords with h | h
      · rw [parse_select cfg _ _ _ h hc]
        exact ⟨_, rfl⟩
      · rw [parse_select cfg _ _ _ h hc]
        by_cases hx : x = str "*"
        · simp only [parseSelect, parseSelectColumns, hx, if_true]
          exact ⟨_, rfl⟩
        · simp only [parseSelect, parseSelectColumns, if_neg hx]
          exact ⟨_, rfl⟩
    · rcases hwords with h | h
      · rw [parse_delete cfg _ _ _ h hc]
        exact ⟨_, rfl⟩
      · rw [parse_delete cfg _ _ _ h hc]
        simp only [parseDelete]
        split
        · exact ⟨_, rfl⟩
        · exact ⟨_, rfl⟩
  · have hwq : words (str "SELECT * FROM") = [str "SELECT", str "*", str "FROM"] := by decide
    rw [parse_select cfg _ _ _ hwq (by decide)]
    decide

/-- Witness for C37: the queries of `ParserTest.InvalidSyntax`, the empty query
and a query that starts with no command. -/
theorem incomplete_queries_witness :
    parse sampleConfig [] = .error (str "Empty query") ∧
    parse sampleConfig (str "DROP TABLE users") = .error (str "Unknown command: DROP") ∧
    (∃ e, parse sampleConfig (str "CREATE TABLE") = .error e) ∧
    (∃ e, parse sampleConfig (str "INSERT INTO") = .error e) ∧
    (∃ e, parse sampleConfig (str "SELECT FROM") = .error e) ∧
    (∃ e, parse sampleConfig (str "DELETE FROM") = .error e) :=
  ⟨(incomplete_queries sampleConfig [] [] []).1 (by decide),
    (incomplete_queries sampleConfig (str "DROP TABLE users") (str "DROP") []).2.1
      [str "TABLE", str "users"] (by decide) (by decide) (by decide) (by decide) (by decide),
    (incomplete_queries sampleConfig (str "CREATE TABLE") (str "CREATE") (str "TABLE")).2.2.1
      (Or.inr (by decide)) (Or.inl (by decide)),
    (incomplete_queries sampleConfig (str "INSERT INTO") (str "INSERT") (str "INTO")).2.2.1
      (Or.inr (by decide)) (Or.inr (Or.inl (by decide))),
    (incomplete_queries sampleConfig (str "SELECT FROM") (str "SELECT") (str "FROM")).2.2.1
      (Or.inr (by decide)) (Or.inr (Or.inr (Or.inl (by decide)))),
    (incomplete_queries sampleConfig (str "DELETE FROM") (str "DELETE") (str "FROM")).2.2.1
      (Or.inr (by decide)) (Or.inr (Or.inr (Or.inr (by decide))))⟩

/-! ## The victim search in the states the interface reaches -/

set_option maxRecDepth 100000 in
/-- C6 fails after the first row.  The column count `insert` compares with is
the number of `column_def` blocks in the whole table file, rows included.
After `createTable("users", [id INT, name VARCHAR, age INT])` and
`insert(["1", "John", "25"])`, in every layout where three records are at least
as long as one `column_def`, `getTableColumns` reads more than three columns
and `insert` of any three values returns `false`; in the sample configuration it
reads six columns and `insert` of six values returns `true`. -/
theorem insert_counts_rows_as_columns (cfg : Config) (hwf : cfg.WF) (junkT : Bytes)
    (junkC junk junk2 : Nat → Bytes) (values : List Bytes)
    (hsize : cfg.colSize ≤ 3 * cfg.recSize) (hthree : values.length = 3) :
    (insert cfg (usersFS cfg junkT junkC) testDb junk (str "users")
      [str "1", str "John", str "25"]).1 = true ∧
    (getTableColumns cfg
      (insert cfg (usersFS cfg junkT junkC) testDb junk (str "users")
        [str "1", str "John", str "25"]).2 testDb (str "users")).length
      = (3 * cfg.colSize + 3 * cfg.recSize) / cfg.colSize ∧
    3 < (3 * cfg.colSize + 3 * cfg.recSize) / cfg.colSize ∧
    insert cfg
        (insert cfg (usersFS cfg junkT junkC) testDb junk (str "users")
          [str "1", str "John", str "25"]).2 testDb junk2 (str "users") values
      = (false,
          (insert cfg (usersFS cfg junkT junkC) testDb junk (str "users")
            [str "1", str "John", str "25"]).2) ∧
    (getTableColumns sampleConfig
      (insert sampleConfig (usersFS sampleConfig [] zeroJunk) testDb zeroJunk (str "users")
        [str "1", str "John", str "25"]).2 testDb (str "users")).length = 6 ∧
    (insert sampleConfig
      (insert sampleConfig (usersFS sampleConfig [] zeroJunk) testDb zeroJunk (str "users")
        [str "1", str "John", str "25"]).2 testDb zeroJunk (str "users")
      [str "2", str "Jane", str "30", str "4", str "5", str "6"]).1 = true := by
  obtain ⟨hins, data, hfile, hlen⟩ := users_insert cfg hwf junkT junkC junk
  have hpos := colSize_pos cfg hwf
  have hcount : (getTableColumns cfg
      (insert cfg (usersFS cfg junkT junkC) testDb junk (str "users")
        [str "1", str "John", str "25"]).2 testDb (str "users")).length
      = (3 * cfg.colSize + 3 * cfg.recSize) / cfg.colSize := by
    simp only [getTableColumns, hfile]
    rw [readAll_length cfg.colSize hpos, List.length_append, users_header_length cfg hwf junkC,
      hlen]
  have hmore : 3 < (3 * cfg.colSize + 3 * cfg.recSize) / cfg.colSize := by
    have h4 : 4 ≤ (3 * cfg.colSize + 3 * cfg.recSize) / cfg.colSize := by
      rw [Nat.le_div_iff_mul_le hpos]
      omega
    omega
  refine ⟨hins, hcount, hmore, ?_, by decide, by decide⟩
  have ho : testDb.is_open_ = true := rfl
  have hne : (getTableColumns cfg
      (insert cfg (usersFS cfg junkT junkC) testDb junk (str "users")
        [str "1", str "John", str "25"]).2 testDb (str "users")).length ≠ values.length := by
    rw [hcount, hthree]
    omega
  generalize (insert cfg (usersFS cfg junkT junkC) testDb junk (str "users")
    [str "1", str "John", str "25"]).2 = fs1 at hne ⊢
  unfold insert
  simp only [ho, Bool.not_true, Bool.false_eq_true, if_false]
  rw [if_pos (by simp [hne])]

set_option maxRecDepth 100000 in
/-- Witness for C6 in the sample configuration: after the first row, `insert`
of the three values `2`, `Jane`, `30` returns `false`. -/
theorem insert_counts_rows_as_columns_witness :
    (insert sampleConfig
      (insert sampleConfig (usersFS sampleConfig [] zeroJunk) testDb zeroJunk (str "users")
        [str "1", str "John", str "25"]).2 testDb zeroJunk (str "users")
      [str "2", str "Jane", str "30"]).1 = false :=
  congrArg Prod.fst
    (insert_counts_rows_as_columns sampleConfig (by decide) [] zeroJunk zeroJunk zeroJunk
      [str "2", str "Jane", str "30"] (by decide) rfl).2.2.2.1

/-! ## `delete_` that matches no record -/

theorem flatten_length_blocks (size : Nat) :
    ∀ blocks : List Bytes, (∀ b ∈ blocks, b.length = size) →
      blocks.flatten.length = size * blocks.length := by
  intro blocks
  induction blocks with
  | nil => intro _; simp
  | cons b bs ih =>
    intro h
    have h1 : b.length = size := h b (by simp)
    have h2 := ih (fun c hc => h c (by simp [hc]))
    simp only [List.flatten_cons, List.length_append, List.length_cons, h1, h2]
    rw [Nat.mul_add, Nat.mul_one, Nat.add_comm]

set_option maxRecDepth 100000 in
/-- C10 fails on the bytes after the last whole record.  As C10 says,
`evaluateCondition` returns `true` for the empty condition and `false`, without
a fault, for a condition whose first word is the name of no column (the stored
names being terminated C strings).  But `delete_` with such a condition does
not leave the table as it was: it rewrites the file from the records it read
from byte 0, so the file keeps `recSize * (length / recSize)` bytes and loses
what follows.  In the sample configuration the 108-byte header of `users`
becomes 80 bytes, from which two columns are read instead of three, and after
`insert(["1", "John", "25"])` the 228 bytes become 200: the end of the third
stored value is gone. -/
theorem absent_column_truncates (cfg : Config) (rec : Bytes) (columns : List Bytes)
    (condition col_name rest : Bytes) (fs : FS) (db : Database) (table_name : Bytes)
    (hword : nextWord condition = some (col_name, rest))
    (habs : ∀ c ∈ columns, (colNameOf cfg c).isOk = true ∧ colNameOf cfg c ≠ .ok col_name)
    (hsize : 0 < cfg.recSize) (hopen : db.is_open_ = true)
    (hcols : getTableColumns cfg fs db table_name ≠ [])
    (habsT : ∀ c ∈ getTableColumns cfg fs db table_name,
      (colNameOf cfg c).isOk = true ∧ colNameOf cfg c ≠ .ok col_name) :
    evaluateCondition cfg rec columns [] = .ok true ∧
    evaluateCondition cfg rec columns condition = .ok false ∧
    (delete_ cfg fs db table_name condition).1 = .ok true ∧
    (∃ before : Bytes,
      fs.file (tablePath cfg db table_name) = some before ∧
      (delete_ cfg fs db table_name condition).2.file (tablePath cfg db table_name)
        = some (readAll cfg.recSize before).flatten ∧
      (readAll cfg.recSize before).flatten.length
        = cfg.recSize * (before.length / cfg.recSize)) ∧
    ((usersFS sampleConfig [] zeroJunk).file (tablePath sampleConfig testDb (str "users"))).map
      List.length = some 108 ∧
    ((delete_ sampleConfig (usersFS sampleConfig [] zeroJunk) testDb (str "users")
      (str "zzz = 1")).2.file (tablePath sampleConfig testDb (str "users"))).map List.length
      = some 80 ∧
    (getTableColumns sampleConfig (usersFS sampleConfig [] zeroJunk) testDb
      (str "users")).length = 3 ∧
    (getTableColumns sampleConfig
      (delete_ sampleConfig (usersFS sampleConfig [] zeroJunk) testDb (str "users")
        (str "zzz = 1")).2 testDb (str "users")).length = 2 ∧
    ((insert sampleConfig (usersFS sampleConfig [] zeroJunk) testDb zeroJunk (str "users")
      [str "1", str "John", str "25"]).2.file (tablePath sampleConfig testDb (str "users"))).map
      List.length = some 228 ∧
    ((delete_ sampleConfig
      (insert sampleConfig (usersFS sampleConfig [] zeroJunk) testDb zeroJunk (str "users")
        [str "1", str "John", str "25"]).2 testDb (str "users")
      (str "zzz = 1")).2.file (tablePath sampleConfig testDb (str "users"))).map List.length
      = some 200 := by
  refine ⟨evaluateCondition_empty cfg rec columns,
    evaluateCondition_absent cfg rec columns condition col_name rest hword habs, ?_, ?_,
    by decide, by decide, by decide, by decide, by decide, by decide⟩
  · have hne : (getTableColumns cfg fs db table_name).isEmpty = false := by
      cases hc : getTableColumns cfg fs db table_name with
      | nil => exact absurd hc hcols
      | cons a t => rfl
    cases hf : fs.file (tablePath cfg db table_name) with
    | none =>
      exfalso
      apply hcols
      simp [getTableColumns, hf]
    | some data =>
      have hloop := deleteLoop_none_match cfg (getTableColumns cfg fs db table_name) condition
        (fun r => evaluateCondition_absent cfg r _ condition col_name rest hword habsT)
        (readAll cfg.recSize data)
      unfold delete_
      simp [hopen, hne, hf, hloop, FS.canWrite]
  · have hne : (getTableColumns cfg fs db table_name).isEmpty = false := by
      cases hc : getTableColumns cfg fs db table_name with
      | nil => exact absurd hc hcols
      | cons a t => rfl
    cases hf : fs.file (tablePath cfg db table_name) with
    | none =>
      exfalso
      apply hcols
      simp [getTableColumns, hf]
    | some data =>
      have hloop := deleteLoop_none_match cfg (getTableColumns cfg fs db table_name) condition
        (fun r => evaluateCondition_absent cfg r _ condition col_name rest hword habsT)
        (readAll cfg.recSize data)
      have hdel : delete_ cfg fs db table_name condition
          = (.ok true, fs.write (tablePath cfg db table_name)
              (readAll cfg.recSize data).flatten) := by
        unfold delete_
        simp [hopen, hne, hf, hloop, FS.canWrite]
      rw [hdel]
      refine ⟨data, rfl, by simp [FS.write], ?_⟩
      rw [flatten_length_blocks cfg.recSize _ (readAll_mem_length cfg.recSize data),
        readAll_length cfg.recSize hsize]

set_option maxRecDepth 100000 in
/-- Witness for C10 in the sample configuration: the condition `zzz = 1` on the
table `users` right after `createTable`. -/
theorem absent_column_truncates_witness :
    evaluateCondition sampleConfig rec25 sampleColumns (str "zzz = 1") = .ok false ∧
    (delete_ sampleConfig (usersFS sampleConfig [] zeroJunk) testDb (str "users")
      (str "zzz = 1")).1 = .ok true :=
  have h := absent_column_truncates sampleConfig rec25 sampleColumns (str "zzz = 1") (str "zzz")
    (str " = 1") (usersFS sampleConfig [] zeroJunk) testDb (str "users")
    (by decide) (by decide) (by decide) (by decide) (by decide) (by decide)
  ⟨h.2.1, h.2.2.1⟩

/-! ## The columns `select` sees after an insert -/

set_option maxRecDepth 1000000 in
/-- C29 fails after the first row.  The columns `select` validates against
and projects are the `column_def` blocks of the whole table file, rows
included, and the records it projects are read from byte 0, header included.
In the sample configuration, after `createTable("users", [id INT, name
VARCHAR, age INT])` and `insert(["1", "John", "25"])`: the list `["x"]`, `x`
being the one-byte name 1 that no declared column has, is accepted, `select`
returns `true` and hands five rows to the callback; `["*"]` gives rows of six
values, not of the three declared columns; and `["name", "id"]` gives for each
of the five records read the value under `name` followed by the value under
`id`, the first of them made of the header bytes. -/
theorem select_sees_rows_as_columns :
    (insert sampleConfig (usersFS sampleConfig [] zeroJunk) testDb zeroJunk (str "users")
      [str "1", str "John", str "25"]).1 = true ∧
    select sampleConfig
        (insert sampleConfig (usersFS sampleConfig [] zeroJunk) testDb zeroJunk (str "users")
          [str "1", str "John", str "25"]).2 testDb (str "users") [[1]] []
      = (.ok true, [[str "25705"], [str "0"], [str "0"], [str "0"], [str "0"]]) ∧
    select sampleConfig
        (insert sampleConfig (usersFS sampleConfig [] zeroJunk) testDb zeroJunk (str "users")
          [str "1", str "John", str "25"]).2 testDb (str "users") [str "*"] []
      = (.ok true,
          [[str "25705", [], str "25705", str "25705", str "25705", str "25705"],
           [str "0", [], str "0", str "0", str "0", str "0"],
           [str "0", [], str "0", str "0", str "0", str "0"],
           [str "0", [], str "0", str "0", str "0", str "0"],
           [str "0", [], str "0", str "0", str "0", str "0"]]) ∧
    select sampleConfig
        (insert sampleConfig (usersFS sampleConfig [] zeroJunk) testDb zeroJunk (str "users")
          [str "1", str "John", str "25"]).2 testDb (str "users") [str "name", str "id"] []
      = (.ok true,
          [[[], str "25705"], [[], str "0"], [[], str "0"], [[], str "0"], [[], str "0"]]) := by
  decide

end Preql
